import Mathlib

/-!
Crowdfunding backend: pledge, payment, refund and project-expiry rules.

A shallow embedding of the service and repository layer of the crowdfunding
backend (`internal/service`, `internal/repository/mysql`).

Modelling conventions

* The relational store is a record of tables, every table a list of rows in
  insertion order.  Row ids come from per-table auto-increment counters.
* Money (`float64` in the Go structs, numeric columns in SQL) is an exact
  rational number.
* Points in time are natural numbers (seconds); `Env.now` is what `NOW()` and
  `time.Now()` return during one call, `Env.year` is `time.Now().Year()`.
* Go `error` values are modelled by their message text.
* Every statement sent to the database may fail.  `Env.fails` says, for each
  call, whether the driver returns an error (`some msg`) or not (`none`); this
  covers connection and constraint errors.  A scan whose outcome the source
  fixes is part of the method: `GetOrdersByProject` and `GetRefundRequestByID`
  scan the row of a `SELECT` with `*` into a fixed number of destinations, and
  `GetOrderByID` scans the columns of a `LEFT JOIN` into fields that take no
  NULL.
* A `*sql.Tx` is modelled by a working copy of the store: statements executed
  on the transaction change the copy, `Commit` makes the copy the store, and
  the deferred `Rollback` discards the rows written to it (the auto-increment
  counters keep the values handed out).  Statements executed on `*sql.DB`
  change the store at once.
-/

namespace Crowdfunding

/-! ## Data model (`internal/model`) -/

/-- Row of `projects` (model.Project, the stored columns). -/
structure Project where
  ID : Nat
  Title : String := ""
  Description : String := ""
  CreatorID : Nat := 0
  Status : String
  TotalAmount : ℚ := 0
  TotalGoalAmount : ℚ := 0
  Progress : ℚ := 0
  MinRewardAmount : ℚ := 0
  CreatedAt : Nat := 0
  UpdatedAt : Nat := 0
  EndDate : Nat := 0
  deriving DecidableEq

/-- Row of `project_goals` (model.ProjectGoal, the stored columns). -/
structure ProjectGoal where
  ID : Nat
  ProjectID : Nat
  Amount : ℚ
  Description : String := ""
  deriving DecidableEq

/-- Row of `pledges` (model.Pledge). -/
structure Pledge where
  ID : Nat
  UserID : Nat
  ProjectID : Nat
  Amount : ℚ
  Status : String
  AddressID : Option Nat := none
  CreatedAt : Nat := 0
  deriving DecidableEq

/-- Row of `orders` (model.Order, the stored columns). -/
structure Order where
  ID : Nat
  OrderNumber : String := ""
  UserID : Nat
  ProjectID : Nat
  PledgeID : Nat
  Amount : ℚ
  Status : String
  IsReward : Bool := false
  AddressID : Option Nat := none
  CreatedAt : Nat := 0
  UpdatedAt : Nat := 0
  deriving DecidableEq

/-- Row of `refund_requests` (model.RefundRequest, the stored columns; a NULL
`admin_comment` is the empty string, as `COALESCE(admin_comment, '')` reads it). -/
structure RefundRequest where
  ID : Nat
  OrderID : Nat
  UserID : Nat
  Reason : String := ""
  Status : String
  AdminComment : String := ""
  CreatedAt : Nat := 0
  UpdatedAt : Nat := 0
  deriving DecidableEq

/-- Row of `user_addresses` (model.UserAddress). -/
structure UserAddress where
  ID : Nat
  UserID : Nat
  ReceiverName : String := ""
  Phone : String := ""
  Province : String := ""
  City : String := ""
  District : String := ""
  DetailAddress : String := ""
  IsDefault : Bool := false
  CreatedAt : Nat := 0
  deriving DecidableEq

/-- Row of `users` (model.User). -/
structure User where
  ID : Nat := 0
  Username : String := ""
  Email : String := ""
  PasswordHash : String := ""
  AvatarURL : String := ""
  Bio : String := ""
  Role : String := ""
  IsVerified : Bool := false
  CreatedAt : Nat := 0
  UpdatedAt : Nat := 0
  DeletedAt : Option Nat := none
  deriving DecidableEq

/-- Row of `posts` (model.Post, the stored columns the ledger of likes needs). -/
structure Post where
  ID : Nat
  UserID : Nat
  Content : String := ""
  CreatedAt : Nat := 0
  deriving DecidableEq

/-- Row of `likes` (model.Like). -/
structure Like where
  ID : Nat := 0
  UserID : Nat
  PostID : Nat
  CreatedAt : Nat := 0
  deriving DecidableEq

/-- Row of `project_images` (model.ProjectImage, the columns the deletion of a project
needs and the image itself). -/
structure ProjectImage where
  ID : Nat
  ProjectID : Nat
  ImageURL : String := ""
  deriving DecidableEq

/-- Row of `project_tag_relations` (a project and one of its tags). -/
structure ProjectTagRelation where
  ProjectID : Nat
  TagID : Nat
  deriving DecidableEq

/-- Row of `project_updates` (model.ProjectUpdate). -/
structure ProjectUpdate where
  ID : Nat
  ProjectID : Nat
  Title : String := ""
  Content : String := ""
  deriving DecidableEq

/-- Row of `project_comments` (model.ProjectComment). -/
structure ProjectComment where
  ID : Nat
  ProjectID : Nat
  UserID : Nat := 0
  Content : String := ""
  deriving DecidableEq

/-- The request value model.Payment handed to `ProcessPayment`. -/
structure Payment where
  ID : Nat := 0
  UserID : Nat
  ProjectID : Nat
  Amount : ℚ
  Status : String := ""
  deriving DecidableEq

/-- The relational store: the tables the ledger reads and writes, and the
auto-increment counters of the tables it inserts into. -/
structure DB where
  projects : List Project := []
  projectGoals : List ProjectGoal := []
  pledges : List Pledge := []
  orders : List Order := []
  refundRequests : List RefundRequest := []
  userAddresses : List UserAddress := []
  nextPledgeID : Nat := 1
  nextOrderID : Nat := 1
  nextRefundRequestID : Nat := 1
  users : List User := []
  posts : List Post := []
  likes : List Like := []
  nextUserID : Nat := 1
  nextUserAddressID : Nat := 1
  nextLikeID : Nat := 1
  nextProjectGoalID : Nat := 1
  projectImages : List ProjectImage := []
  projectTagRelations : List ProjectTagRelation := []
  projectUpdates : List ProjectUpdate := []
  projectComments : List ProjectComment := []

/-- The calls made to the database, with the arguments that tell them apart. -/
inductive DBCall where
  | begin
  | commit
  | getProjectByID (id : Nat)
  | insertPledge
  | pledgeLastInsertId
  | insertOrder
  | orderLastInsertId
  | updateProjectAmount (projectID : Nat)
  | getOrderByID (id : Nat)
  | getOrdersByProject (projectID : Nat)
  | updateOrderStatus (orderID : Nat) (status : String)
  | getRefundRequestByID (id : Nat)
  | getRefundStatus (orderID : Nat)
  | createRefundRequest (orderID : Nat)
  | refundRequestLastInsertId
  | updateRefundRequest (id : Nat)
  | getExpiredActiveProjects
  | updateProjectStatus (projectID : Nat) (status : String)
  | rowsAffected
  | unsetDefaultAddresses (userID : Nat)
  | setDefaultAddress (userID : Nat) (addressID : Nat)
  | findByUsername (username : String)
  | findByEmail (email : String)
  | findByID (id : Nat)
  | createUser (username : String)
  | userLastInsertId
  | userExists (userID : Nat)
  | insertAddress (userID : Nat)
  | addressLastInsertId
  | listUserAddresses (userID : Nat)
  | updateAddress (id : Nat)
  | deleteAddress (id : Nat)
  | postExists (postID : Nat)
  | insertLike (userID : Nat) (postID : Nat)
  | likeExists (userID : Nat) (postID : Nat)
  | deleteLike (userID : Nat) (postID : Nat)
  | getLikeCount (postID : Nat)
  | isPostLikedByUser (postID : Nat) (userID : Nat)
  | updateProject (projectID : Nat)
  | insertGoal (projectID : Nat)
  | updateGoal (goalID : Nat)
  | createPledge
  | deleteFrom (table : String) (projectID : Nat)
  | deleteProject (projectID : Nat)
  | updateUser (id : Nat)
  | countPosts
  | listPosts
  deriving DecidableEq

/-- The character classes of Go's `unicode` package that `isPasswordStrong` asks for
(`unicode.IsUpper`, `IsLower`, `IsNumber`, `IsPunct`, `IsSymbol`).  The range
tables behind them belong to the Go library, not to the repository; they are a
parameter of the model. -/
structure UnicodeTables where
  IsUpper : Char → Bool
  IsLower : Char → Bool
  IsNumber : Char → Bool
  IsPunct : Char → Bool
  IsSymbol : Char → Bool

/-- The classes of the `unicode` package on ASCII characters (every other
character is in none of the five classes here). -/
def asciiTables : UnicodeTables :=
  { IsUpper := fun c => decide (65 ≤ c.toNat ∧ c.toNat ≤ 90)
    IsLower := fun c => decide (97 ≤ c.toNat ∧ c.toNat ≤ 122)
    IsNumber := fun c => decide (48 ≤ c.toNat ∧ c.toNat ≤ 57)
    IsPunct := fun c => "!\"#%&\x27()*,-./:;?@[\\]_\x7b\x7d".data.contains c
    IsSymbol := fun c => "$+<=>^\x60|~".data.contains c }

/-- A JSON value as `encoding/json` writes it; an object is the list of its
members in the order written. -/
inductive Json where
  | null
  | bool (b : Bool)
  | int (n : Int)
  | str (s : String)
  | arr (items : List Json)
  | obj (members : List (String × Json))

/-- What a call sees of the outside world: the failures of the database, the
clock, and the libraries the repository calls (`bcrypt.GenerateFromPassword`,
`bcrypt.CompareHashAndPassword`, the tables of `unicode`, and the JWT library:
`signedString userID exp` is `SignedString` on the claims `user_id` and `exp`,
`jwtParse` is `jwt.Parse` with the secret of the configuration, which returns
the claims of a token that it finds valid at the time of the call), and what
the schema, whose DDL is not in the sources, may add: the number of columns
that a table has besides the columns that the statements of the repository
name. -/
structure Env where
  fails : DBCall → Option String := fun _ => none
  now : Nat := 0
  year : Nat := 0
  bcryptGenerate : String → Except String String := fun password => .ok ("$2a$10$" ++ password)
  bcryptCompare : String → String → Option String :=
    fun hash password =>
      if hash = "$2a$10$" ++ password then none
      else some "crypto/bcrypt: hashedPassword is not the hash of the given password"
  signedString : Nat → Nat → Except String String :=
    fun userID exp => .ok ("jwt." ++ toString userID ++ "." ++ toString exp)
  jwtParse : String → Except String (List (String × Json)) :=
    fun _ => .error "token contains an invalid number of segments"
  unicode : UnicodeTables := asciiTables
  ordersExtraColumns : Nat := 0
  refundRequestsExtraColumns : Nat := 0
  userAddressesExtraColumns : Nat := 0

/-- The function `util.GenerateToken`: a token over the user id that expires 24 hours after
the call. -/
def util.GenerateToken (env : Env) (userID : Nat) : Except String String :=
  env.signedString userID (env.now + 86400)

/-- The deferred `tx.Rollback()` of a transaction that was not committed: the
rows of the store stay as they were when the transaction began, the
auto-increment counters keep what the transaction handed out. -/
def rollback (db tx : DB) : DB :=
  { db with
    nextPledgeID := tx.nextPledgeID
    nextOrderID := tx.nextOrderID
    nextRefundRequestID := tx.nextRefundRequestID
    nextUserID := tx.nextUserID
    nextUserAddressID := tx.nextUserAddressID
    nextLikeID := tx.nextLikeID
    nextProjectGoalID := tx.nextProjectGoalID }

/-! ## Order numbers -/

/-- The verb `%04d` of `fmt.Sprintf` on a non-negative integer: decimal digits,
padded on the left with zeros to a width of at least four. -/
def sprintf04d (n : Nat) : String :=
  String.mk (List.replicate (4 - (toString n).length) '0') ++ toString n

/-- The format `fmt.Sprintf("ORD-%d-%04d", year, n)`. -/
def sprintfOrderNumber (year n : Nat) : String :=
  "ORD-" ++ toString year ++ "-" ++ sprintf04d n

/-- The function `generateOrderNumber` of payment_repo.go. -/
def PaymentRepository.generateOrderNumber (env : Env) (orderID : Nat) : String :=
  sprintfOrderNumber env.year orderID

/-! ## Project repository -/

/-- The method `ProjectRepository.GetProjectByID`: the row with the given id, `none`
when there is none (`sql.ErrNoRows`), an error when the query fails. -/
def ProjectRepository.GetProjectByID (env : Env) (db : DB) (id : Nat) :
    Except String (Option Project) :=
  match env.fails (.getProjectByID id) with
  | some e => .error e
  | none => .ok (db.projects.find? (fun p => p.ID = id))

/-! ## Payment service -/

/-- The statement `UPDATE projects SET total_amount = total_amount + ?, progress = CASE WHEN
total_goal_amount > 0 THEN ((total_amount + ?) / total_goal_amount) * 100
ELSE 0 END, updated_at = NOW() WHERE id = ?` applied to one row.  MySQL
evaluates the assignments of a single-table UPDATE from left to right, so
the `total_amount` read by the `progress` expression is the value already
increased by the first assignment. -/
def addAmountToProject (now : Nat) (amount : ℚ) (projectID : Nat) (p : Project) : Project :=
  if p.ID = projectID then
    { p with
      TotalAmount := p.TotalAmount + amount
      Progress :=
        if p.TotalGoalAmount > 0 then
          (((p.TotalAmount + amount) + amount) / p.TotalGoalAmount) * 100
        else 0
      UpdatedAt := now }
  else p

/-- The method `PaymentService.ProcessPayment`.  Returns the store after the call and the
result of the call. -/
def PaymentService.ProcessPayment (env : Env) (db : DB) (payment : Payment) (addressID : Nat) :
    DB × Except String Order :=
  match env.fails .begin with
  | some e => (db, .error e)
  | none =>
  match ProjectRepository.GetProjectByID env db payment.ProjectID with
  | .error e => (db, .error e)
  | .ok none => (db, .error "project not found")
  | .ok (some project) =>
  match env.fails .insertPledge with
  | some e => (db, .error ("failed to create pledge: " ++ e))
  | none =>
  let pledgeID := db.nextPledgeID
  let pledge : Pledge :=
    { ID := pledgeID
      UserID := payment.UserID
      ProjectID := payment.ProjectID
      Amount := payment.Amount
      Status := "pending"
      AddressID := some addressID
      CreatedAt := env.now }
  let tx1 : DB := { db with pledges := db.pledges ++ [pledge], nextPledgeID := pledgeID + 1 }
  match env.fails .pledgeLastInsertId with
  | some e => (rollback db tx1, .error ("failed to get pledge ID: " ++ e))
  | none =>
  let isReward : Bool := decide (payment.Amount ≥ project.MinRewardAmount)
  match env.fails .insertOrder with
  | some e => (rollback db tx1, .error ("failed to create order: " ++ e))
  | none =>
  let orderID := tx1.nextOrderID
  let order : Order :=
    { ID := orderID
      OrderNumber := sprintfOrderNumber env.year pledgeID
      UserID := payment.UserID
      ProjectID := payment.ProjectID
      PledgeID := pledgeID
      Amount := payment.Amount
      Status := "pending"
      IsReward := isReward
      AddressID := some addressID
      CreatedAt := env.now
      UpdatedAt := env.now }
  let tx2 : DB := { tx1 with orders := tx1.orders ++ [order], nextOrderID := orderID + 1 }
  match env.fails .orderLastInsertId with
  | some e => (rollback db tx2, .error ("failed to get order ID: " ++ e))
  | none =>
  match env.fails (.updateProjectAmount payment.ProjectID) with
  | some e => (rollback db tx2, .error ("failed to update project amount: " ++ e))
  | none =>
  let tx3 : DB :=
    { tx2 with
      projects := tx2.projects.map (addAmountToProject env.now payment.Amount payment.ProjectID) }
  match env.fails .commit with
  | some e => (rollback db tx3, .error ("failed to commit transaction: " ++ e))
  | none => (tx3, .ok order)

/-- The pledge row that `ProcessPayment` inserts for a payment. -/
def pledgeRow (env : Env) (db : DB) (payment : Payment) (addressID : Nat) : Pledge :=
  { ID := db.nextPledgeID
    UserID := payment.UserID
    ProjectID := payment.ProjectID
    Amount := payment.Amount
    Status := "pending"
    AddressID := some addressID
    CreatedAt := env.now }

/-- The stored `total_amount` of the project with the given id, if there is one. -/
def totalAmountOf (db : DB) (projectID : Nat) : Option ℚ :=
  (db.projects.find? (fun p => p.ID = projectID)).map (fun p => p.TotalAmount)

/-! ## Payment repository: orders and refund requests -/

/-- The number of columns of `orders`: the eleven that `ProcessPayment` and `GetOrderByID`
name (id, order_number, user_id, project_id, pledge_id, amount, status,
address_id, is_reward, created_at, updated_at) and those the schema has
besides. -/
def ordersColumns (env : Env) : Nat :=
  11 + env.ordersExtraColumns

/-- The number of columns of `refund_requests`: the eight that `GetRefundStatus` names and
those the schema has besides. -/
def refundRequestsColumns (env : Env) : Nat :=
  8 + env.refundRequestsExtraColumns

/-- The number of columns of `user_addresses`: the eleven that `ListUserAddresses` and
`GetOrderByID` name and those the schema has besides. -/
def userAddressesColumns (env : Env) : Nat :=
  11 + env.userAddressesExtraColumns

/-- The check of `Rows.Scan` that the row has as many columns as there are destinations: the
error when it has not. -/
def scanArity (columns destinations : Nat) : Option String :=
  if columns = destinations then none
  else
    some ("sql: expected " ++ toString columns ++ " destination arguments in Scan, not " ++
      toString destinations)

/-- The address row that `LEFT JOIN user_addresses a ON o.address_id = a.id` joins to an
order, `none` when `address_id` is NULL or no address has that id (the columns
of `a` are NULL then). -/
def joinedAddress (db : DB) (order : Order) : Option UserAddress :=
  order.AddressID.bind (fun addressID => db.userAddresses.find? (fun a => a.ID = addressID))

/-- The method `PaymentRepository.GetOrderByID`: `none` when there is no order with the id
(`sql.ErrNoRows`), an error when the query fails.  The columns of the joined
address are scanned into the fields of a `model.UserAddress`, which take no
NULL: for an order without a joined address row the scan fails at `a.id`.  The
columns of the joined shipment are read through `COALESCE` and `sql.NullTime`
and fill presentation fields only. -/
def PaymentRepository.GetOrderByID (env : Env) (db : DB) (id : Nat) :
    Except String (Option Order) :=
  match env.fails (.getOrderByID id) with
  | some e => .error ("failed to get order: " ++ e)
  | none =>
    match db.orders.find? (fun o => o.ID = id) with
    | none => .ok none
    | some order =>
      match joinedAddress db order with
      | none =>
        .error ("failed to get order: sql: Scan error on column index 11, name \"id\": " ++
          "converting NULL to int is unsupported")
      | some _ => .ok (some order)

/-- The rows of a result `ORDER BY created_at DESC`. -/
def ordersByCreatedAtDesc (os : List Order) : List Order :=
  os.insertionSort (fun a b => b.CreatedAt ≤ a.CreatedAt)

/-- The method `PaymentRepository.GetOrdersByProject`: the query is `SELECT o.*, a.*` over
`orders` and the joined `user_addresses`, and every row is scanned into 20
destinations (9 fields of the order, 11 of the address).  Without a row the
result is the empty list; with a row, `Scan` compares the number of columns
with the number of destinations first, and the first row whose scan fails ends
the call with that error. -/
def PaymentRepository.GetOrdersByProject (env : Env) (db : DB) (projectID : Nat) :
    Except String (List Order) :=
  match env.fails (.getOrdersByProject projectID) with
  | some e => .error e
  | none =>
    match ordersByCreatedAtDesc (db.orders.filter (fun o => o.ProjectID = projectID)) with
    | [] => .ok []
    | order :: rest =>
      match scanArity (ordersColumns env + userAddressesColumns env) 20 with
      | some e => .error e
      | none => .ok (order :: rest)

/-- The statement `UPDATE orders SET status = ?, updated_at = NOW() WHERE id = ?` on one row. -/
def setOrderStatus (now : Nat) (orderID : Nat) (status : String) (o : Order) : Order :=
  if o.ID = orderID then { o with Status := status, UpdatedAt := now } else o

/-- The method `PaymentRepository.UpdateOrderStatus`.  It runs on `r.db`, not on a
transaction: the change is in the store as soon as the call returns. -/
def PaymentRepository.UpdateOrderStatus (env : Env) (db : DB) (orderID : Nat) (status : String) :
    DB × Except String Unit :=
  match env.fails (.updateOrderStatus orderID status) with
  | some e => (db, .error e)
  | none => ({ db with orders := db.orders.map (setOrderStatus env.now orderID status) }, .ok ())

/-- The row that `ORDER BY created_at DESC LIMIT 1` keeps: one with the greatest
`created_at` (the earliest inserted among equals), `none` for no rows. -/
def latestRefundRequest : List RefundRequest → Option RefundRequest
  | [] => none
  | r :: rs =>
    match latestRefundRequest rs with
    | none => some r
    | some b => if r.CreatedAt < b.CreatedAt then some b else some r

/-- The method `PaymentRepository.GetRefundStatus`: the newest refund request of an order,
whatever its status, `none` when the order has none. -/
def PaymentRepository.GetRefundStatus (env : Env) (db : DB) (orderID : Nat) :
    Except String (Option RefundRequest) :=
  match env.fails (.getRefundStatus orderID) with
  | some e => .error ("failed to get refund status: " ++ e)
  | none => .ok (latestRefundRequest (db.refundRequests.filter (fun r => r.OrderID = orderID)))

/-- The method `PaymentRepository.GetRefundRequestByID`: the query is `SELECT r.*, o.*` over
`refund_requests` and the joined `orders`, and its row is scanned into 17
destinations (8 fields of the request, 9 of the order).  Without a row the
result is `none` (`sql.ErrNoRows`); with a row, `Scan` compares the number of
columns with the number of destinations first. -/
def PaymentRepository.GetRefundRequestByID (env : Env) (db : DB) (requestID : Nat) :
    Except String (Option RefundRequest) :=
  match env.fails (.getRefundRequestByID requestID) with
  | some e => .error e
  | none =>
    match db.refundRequests.find? (fun r => r.ID = requestID) with
    | none => .ok none
    | some request =>
      match scanArity (refundRequestsColumns env + ordersColumns env) 17 with
      | some e => .error e
      | none => .ok (some request)

/-- The row inserted by `CreateRefundRequest` for a request value. -/
def refundRequestRow (env : Env) (db : DB) (request : RefundRequest) : RefundRequest :=
  { ID := db.nextRefundRequestID
    OrderID := request.OrderID
    UserID := request.UserID
    Reason := request.Reason
    Status := request.Status
    AdminComment := ""
    CreatedAt := env.now
    UpdatedAt := env.now }

/-- The method `PaymentRepository.CreateRefundRequest`: inserts on `r.db` and returns the
new id.  When `LastInsertId` fails the row is already stored. -/
def PaymentRepository.CreateRefundRequest (env : Env) (db : DB) (request : RefundRequest) :
    DB × Except String Nat :=
  match env.fails (.createRefundRequest request.OrderID) with
  | some e => (db, .error e)
  | none =>
  let db1 : DB :=
    { db with
      refundRequests := db.refundRequests ++ [refundRequestRow env db request]
      nextRefundRequestID := db.nextRefundRequestID + 1 }
  match env.fails .refundRequestLastInsertId with
  | some e => (db1, .error e)
  | none => (db1, .ok db.nextRefundRequestID)

/-- The statement `UPDATE refund_requests SET status = ?, admin_comment = ?, updated_at = NOW()
WHERE id = ?` on one row. -/
def setRefundRequest (now : Nat) (request : RefundRequest) (r : RefundRequest) : RefundRequest :=
  if r.ID = request.ID then
    { r with Status := request.Status, AdminComment := request.AdminComment, UpdatedAt := now }
  else r

/-- The method `PaymentRepository.UpdateRefundRequest`, on `r.db`. -/
def PaymentRepository.UpdateRefundRequest (env : Env) (db : DB) (request : RefundRequest) :
    DB × Except String Unit :=
  match env.fails (.updateRefundRequest request.ID) with
  | some e => (db, .error e)
  | none =>
    ({ db with refundRequests := db.refundRequests.map (setRefundRequest env.now request) },
      .ok ())

/-! ## Refund workflow -/

/-- The method `PaymentService.RequestRefundForFailedProject`. -/
def PaymentService.RequestRefundForFailedProject (env : Env) (db : DB) (orderID userID : Nat) :
    DB × Except String Unit :=
  match PaymentRepository.GetOrderByID env db orderID with
  | .error e => (db, .error e)
  | .ok none => (db, .error "订单不存在")
  | .ok (some order) =>
  if order.UserID ≠ userID then (db, .error "订单不属于当前用户")
  else
  match PaymentRepository.GetRefundStatus env db orderID with
  | .error e => (db, .error e)
  | .ok (some refundRequest) =>
    (db, .error ("该订单已存在退款申请，状态为：" ++ refundRequest.Status))
  | .ok none =>
  match PaymentRepository.CreateRefundRequest env db
      { ID := 0, OrderID := orderID, UserID := userID, Reason := "用户申请退款",
        Status := "pending" } with
  | (db1, .error e) => (db1, .error e)
  | (db1, .ok _) => (db1, .ok ())

/-- The request status a decision leads to. -/
def decidedRequestStatus (approved : Bool) : String :=
  if approved then "approved" else "rejected"

/-- The order status a decision leads to. -/
def decidedOrderStatus (approved : Bool) : String :=
  if approved then "refunded" else "refund_rejected"

/-- The method `RefundService.ProcessRefund`.  A transaction is begun and committed, but both
writes go through the repository, which executes them on `r.db`; the
transaction holds no statement, so neither the deferred rollback nor a
failing commit takes a write back. -/
def RefundService.ProcessRefund (env : Env) (db : DB) (requestID : Nat) (approved : Bool)
    (comment : String) : DB × Except String Unit :=
  match env.fails .begin with
  | some e => (db, .error e)
  | none =>
  match PaymentRepository.GetRefundRequestByID env db requestID with
  | .error e => (db, .error e)
  | .ok none => (db, .error "退款申请不存在")
  | .ok (some request) =>
  match PaymentRepository.UpdateOrderStatus env db request.OrderID (decidedOrderStatus approved) with
  | (db1, .error e) => (db1, .error e)
  | (db1, .ok _) =>
  match PaymentRepository.UpdateRefundRequest env db1
      { request with Status := decidedRequestStatus approved, AdminComment := comment } with
  | (db2, .error e) => (db2, .error e)
  | (db2, .ok _) =>
  match env.fails .commit with
  | some e => (db2, .error e)
  | none => (db2, .ok ())

/-- The method `AdminService.ProcessRefund`: the same two writes, without a transaction. -/
def AdminService.ProcessRefund (env : Env) (db : DB) (requestID : Nat) (approved : Bool)
    (comment : String) : DB × Except String Unit :=
  match PaymentRepository.GetRefundRequestByID env db requestID with
  | .error e => (db, .error e)
  | .ok none => (db, .error "refund request not found")
  | .ok (some request) =>
  match PaymentRepository.UpdateOrderStatus env db request.OrderID (decidedOrderStatus approved) with
  | (db1, .error e) => (db1, .error e)
  | (db1, .ok _) =>
  PaymentRepository.UpdateRefundRequest env db1
    { request with Status := decidedRequestStatus approved, AdminComment := comment }

/-! ## Order status synchronisation -/

/-- The loop of `SyncOrdersWithProjectStatus` over the orders read before it:
every order read as `pending` or `paid` is updated by id; the first failing
update ends the loop, the updates made before it stay. -/
def syncOrdersLoop (env : Env) : DB → List Order → DB × Except String Unit
  | db, [] => (db, .ok ())
  | db, order :: rest =>
    if order.Status = "pending" ∨ order.Status = "paid" then
      match PaymentRepository.UpdateOrderStatus env db order.ID "crowdfunding_failed" with
      | (db1, .error e) => (db1, .error e)
      | (db1, .ok _) => syncOrdersLoop env db1 rest
    else syncOrdersLoop env db rest

/-- The method `PaymentService.SyncOrdersWithProjectStatus`.  The transaction it begins holds
no statement (the updates run on `r.db`). -/
def PaymentService.SyncOrdersWithProjectStatus (env : Env) (db : DB) (projectID : Nat) :
    DB × Except String Unit :=
  match ProjectRepository.GetProjectByID env db projectID with
  | .error e => (db, .error e)
  | .ok none => (db, .error "project not found")
  | .ok (some project) =>
  if project.Status = "failed" then
    match PaymentRepository.GetOrdersByProject env db projectID with
    | .error e => (db, .error e)
    | .ok orders =>
    match env.fails .begin with
    | some e => (db, .error e)
    | none =>
    match syncOrdersLoop env db orders with
    | (db1, .error e) => (db1, .error e)
    | (db1, .ok _) =>
    match env.fails .commit with
    | some e => (db1, .error e)
    | none => (db1, .ok ())
  else (db, .ok ())

/-! ## Expiry sweep -/

/-- The aggregate `COALESCE(SUM(o.amount), 0)` over the orders of a project in status `paid`. -/
def totalPledged (db : DB) (projectID : Nat) : ℚ :=
  ((db.orders.filter (fun o => o.ProjectID = projectID ∧ o.Status = "paid")).map
    (fun o => o.Amount)).sum

/-- The aggregate `MIN` of SQL over a list of amounts: NULL (`none`) for no rows. -/
def minAmount : List ℚ → Option ℚ
  | [] => none
  | a :: as =>
    match minAmount as with
    | none => some a
    | some m => some (min a m)

/-- The amounts of the goals of a project. -/
def goalAmounts (db : DB) (projectID : Nat) : List ℚ :=
  (db.projectGoals.filter (fun g => g.ProjectID = projectID)).map (fun g => g.Amount)

/-- The subquery `SELECT MIN(pg.amount) FROM project_goals pg WHERE pg.project_id = p.id`. -/
def firstGoalAmount (db : DB) (projectID : Nat) : Option ℚ :=
  minAmount (goalAmounts db projectID)

/-- The `WHERE` and `HAVING` conditions of `GetExpiredActiveProjects` on one project row:
`status NOT IN ('failed', 'success', 'rejected')`, `end_date <= NOW()`, and
`first_goal_amount IS NOT NULL AND total_pledged < first_goal_amount`. -/
def expiredUnmet (env : Env) (db : DB) (p : Project) : Bool :=
  (!(p.Status = "failed" ∨ p.Status = "success" ∨ p.Status = "rejected")) &&
  decide (p.EndDate ≤ env.now) &&
  (match firstGoalAmount db p.ID with
   | none => false
   | some g => decide (totalPledged db p.ID < g))

/-- The method `ProjectRepository.GetExpiredActiveProjects`: the selected rows (one group
per project row, `id` being the primary key), each with `Status` set to
`failed` in the returned value. -/
def ProjectRepository.GetExpiredActiveProjects (env : Env) (db : DB) :
    Except String (List Project) :=
  match env.fails .getExpiredActiveProjects with
  | some e => .error e
  | none =>
    .ok ((db.projects.filter (expiredUnmet env db)).map (fun p => { p with Status := "failed" }))

/-- The statement `UPDATE projects SET status = ?, updated_at = NOW() WHERE id = ?` on one row. -/
def setProjectStatus (now : Nat) (projectID : Nat) (status : String) (p : Project) : Project :=
  if p.ID = projectID then { p with Status := status, UpdatedAt := now } else p

/-- The method `ProjectRepository.UpdateProjectStatus`, on `r.db`.  `RowsAffected` counts the
rows the statement changed; with none changed the call returns an error. -/
def ProjectRepository.UpdateProjectStatus (env : Env) (db : DB) (project : Project) :
    DB × Except String Unit :=
  match env.fails (.updateProjectStatus project.ID project.Status) with
  | some e => (db, .error e)
  | none =>
  let affected :=
    (db.projects.filter (fun p =>
      p.ID = project.ID ∧ (p.Status ≠ project.Status ∨ p.UpdatedAt ≠ env.now))).length
  let db1 : DB :=
    { db with projects := db.projects.map (setProjectStatus env.now project.ID project.Status) }
  match env.fails .rowsAffected with
  | some e => (db1, .error e)
  | none =>
  if affected = 0 then (db1, .error "project not found or status not changed")
  else (db1, .ok ())

/-- The loop of `CheckExpiredProjects`: each project gets `Status = "failed"` and is
written back; the first failing update ends the sweep. -/
def checkExpiredLoop (env : Env) : DB → List Project → DB × Except String Unit
  | db, [] => (db, .ok ())
  | db, project :: rest =>
    match ProjectRepository.UpdateProjectStatus env db { project with Status := "failed" } with
    | (db1, .error e) => (db1, .error e)
    | (db1, .ok _) => checkExpiredLoop env db1 rest

/-- The method `AdminService.CheckExpiredProjects`: one run of the expiry sweep. -/
def AdminService.CheckExpiredProjects (env : Env) (db : DB) : DB × Except String Unit :=
  match ProjectRepository.GetExpiredActiveProjects env db with
  | .error e => (db, .error e)
  | .ok projects => checkExpiredLoop env db projects

/-- The method `AdminService.UpdateProjectStatus`, called by the admin handler after it has
checked the new status against `validStatuses`. -/
def AdminService.UpdateProjectStatus (env : Env) (db : DB) (projectID : Nat) (status : String) :
    DB × Except String Project :=
  match ProjectRepository.GetProjectByID env db projectID with
  | .error e => (db, .error e)
  | .ok none => (db, .error "project not found")
  | .ok (some project) =>
  match ProjectRepository.UpdateProjectStatus env db { project with Status := status } with
  | (db1, .error e) => (db1, .error e)
  | (db1, .ok _) => (db1, .ok { project with Status := status })

/-- The stored status of the project with the given id, if there is one. -/
def statusOf (db : DB) (projectID : Nat) : Option String :=
  (db.projects.find? (fun p => p.ID = projectID)).map (fun p => p.Status)

/-- The status values the admin handler `UpdateProjectStatus` accepts (`validStatuses`). -/
def validStatuses (status : String) : Bool :=
  status = "pending_review" ∨ status = "active" ∨ status = "completed" ∨
    status = "failed" ∨ status = "rejected"

/-! ## User repository: default address -/

/-- The statement `UPDATE user_addresses SET is_default = false WHERE user_id = ?` on one row. -/
def unsetDefault (userID : Nat) (a : UserAddress) : UserAddress :=
  if a.UserID = userID then { a with IsDefault := false } else a

/-- The statement `UPDATE user_addresses SET is_default = true WHERE id = ? AND user_id = ?` on
one row. -/
def setDefault (userID addressID : Nat) (a : UserAddress) : UserAddress :=
  if a.ID = addressID ∧ a.UserID = userID then { a with IsDefault := true } else a

/-- The method `userRepository.SetDefaultAddress`: both updates run on one transaction;
`RowsAffected` of the second counts the rows it changed. -/
def userRepository.SetDefaultAddress (env : Env) (db : DB) (userID addressID : Nat) :
    DB × Except String Unit :=
  match env.fails .begin with
  | some e => (db, .error ("failed to begin transaction: " ++ e))
  | none =>
  match env.fails (.unsetDefaultAddresses userID) with
  | some e => (db, .error ("failed to unset default addresses: " ++ e))
  | none =>
  let tx1 : DB := { db with userAddresses := db.userAddresses.map (unsetDefault userID) }
  match env.fails (.setDefaultAddress userID addressID) with
  | some e => (rollback db tx1, .error ("failed to set default address: " ++ e))
  | none =>
  let affected :=
    (tx1.userAddresses.filter (fun a =>
      a.ID = addressID ∧ a.UserID = userID ∧ a.IsDefault = false)).length
  let tx2 : DB := { tx1 with userAddresses := tx1.userAddresses.map (setDefault userID addressID) }
  match env.fails .rowsAffected with
  | some e => (rollback db tx2, .error ("failed to get rows affected: " ++ e))
  | none =>
  if affected = 0 then
    (rollback db tx2, .error "address not found or does not belong to user")
  else
  match env.fails .commit with
  | some e => (rollback db tx2, .error ("failed to commit transaction: " ++ e))
  | none => (tx2, .ok ())

/-- The ids of the addresses of a user that are stored with `is_default = true`. -/
def defaultAddressIDs (db : DB) (userID : Nat) : List Nat :=
  (db.userAddresses.filter (fun a => a.UserID = userID ∧ a.IsDefault = true)).map (fun a => a.ID)

/-! ## Example stores -/

/-- A store with one active project (goals 1000 and 5000, minimum reward 1000,
end date 10) that has one paid and one pending order. -/
def exampleDB : DB :=
  { projects :=
      [{ ID := 7, Status := "active", TotalGoalAmount := 6000, MinRewardAmount := 1000,
         EndDate := 10 }]
    projectGoals :=
      [{ ID := 1, ProjectID := 7, Amount := 1000 }, { ID := 2, ProjectID := 7, Amount := 5000 }]
    orders :=
      [{ ID := 1, UserID := 3, ProjectID := 7, PledgeID := 1, Amount := 800, Status := "paid" },
       { ID := 2, UserID := 4, ProjectID := 7, PledgeID := 2, Amount := 100, Status := "pending" }]
    pledges :=
      [{ ID := 1, UserID := 3, ProjectID := 7, Amount := 800, Status := "pending" },
       { ID := 2, UserID := 4, ProjectID := 7, Amount := 100, Status := "pending" }]
    nextPledgeID := 3
    nextOrderID := 3 }

/-- A payment of 1200 by user 3 to project 7. -/
def examplePayment : Payment := { UserID := 3, ProjectID := 7, Amount := 1200 }

/-- An environment without database failures, at time 20 in the year 2024. -/
def exampleEnv : Env := { now := 20, year := 2024 }

/-- The order that `ProcessPayment` returns for `examplePayment` on `exampleDB`. -/
def exampleOrder : Order :=
  { ID := 3, OrderNumber := "ORD-2024-0003", UserID := 3, ProjectID := 7, PledgeID := 3,
    Amount := 1200, Status := "pending", IsReward := true, AddressID := some 5,
    CreatedAt := 20, UpdatedAt := 20 }

/-- An environment in which exactly the given call fails. -/
def failingAt (call : DBCall) : Env :=
  { fails := fun c => if c = call then some "driver: bad connection" else none
    now := 20
    year := 2024 }

/-- The row `p` after the updates of a sweep that updated the ids `ids`. -/
def markProjectFailed (now : Nat) (ids : List Nat) (p : Project) : Project :=
  if p.ID ∈ ids then { p with Status := "failed", UpdatedAt := now } else p

/-- A store with three projects past their end date (10), each with one goal of
1000 and nothing paid: project 7 is `active`, project 8 is `completed`,
project 9 has the status `success`. -/
def sweepDB : DB :=
  { projects :=
      [{ ID := 7, Status := "active", EndDate := 10 },
       { ID := 8, Status := "completed", EndDate := 10 },
       { ID := 9, Status := "success", EndDate := 10 }]
    projectGoals :=
      [{ ID := 1, ProjectID := 7, Amount := 1000 }, { ID := 2, ProjectID := 8, Amount := 1000 },
       { ID := 3, ProjectID := 9, Amount := 1000 }] }

/-- A store after the expiry sweep failed project 7: one paid and one pending order
of project 7, a shipped order of project 7 and a pending order of project 8. -/
def syncDB : DB :=
  { projects := [{ ID := 7, Status := "failed", EndDate := 10 }, { ID := 8, Status := "active" }]
    orders :=
      [{ ID := 1, UserID := 3, ProjectID := 7, PledgeID := 1, Amount := 800, Status := "paid" },
       { ID := 2, UserID := 4, ProjectID := 7, PledgeID := 2, Amount := 100, Status := "pending" },
       { ID := 3, UserID := 5, ProjectID := 7, PledgeID := 3, Amount := 50, Status := "shipped" },
       { ID := 4, UserID := 5, ProjectID := 8, PledgeID := 4, Amount := 50, Status := "pending" }]
    nextPledgeID := 5
    nextOrderID := 5 }

/-- A store with one paid order of user 3 and one pending refund request for it. -/
def refundDB : DB :=
  { projects := [{ ID := 7, Status := "failed", EndDate := 10 }]
    orders :=
      [{ ID := 1, UserID := 3, ProjectID := 7, PledgeID := 1, Amount := 800, Status := "paid" }]
    refundRequests :=
      [{ ID := 1, OrderID := 1, UserID := 3, Reason := "用户申请退款", Status := "pending" }]
    nextPledgeID := 2
    nextOrderID := 2
    nextRefundRequestID := 2 }

/-- The values that the program stores in `projects.status`: those of `validStatuses`, which
the admin handler accepts and among which are the values that `CreateProject`
(`pending_review`), the two `ReviewProject` (`active`, `rejected`) and the
sweep (`failed`) write, and the empty text that the handler `UpdateProject`
writes. -/
def writtenProjectStatus (status : String) : Bool :=
  validStatuses status || decide (status = "")

/-- A store with two addresses of user 3 (address 1 is the default) and the default
address 3 of user 4. -/
def addressDB : DB :=
  { userAddresses :=
      [{ ID := 1, UserID := 3, City := "Hangzhou", IsDefault := true },
       { ID := 2, UserID := 3, City := "Suzhou" },
       { ID := 3, UserID := 4, City := "Wuhan", IsDefault := true }] }

/-! ## Package errors: error values and HTTP responses -/

/-- The type `errors.AppError`.  `Err` is the wrapped error, kept as the text of its
`Error()` (`none` for a nil `Err`): the code reads nothing else of it. -/
structure AppError where
  Code : Int
  Message : String
  Err : Option String := none
  deriving DecidableEq

/-- A value of the Go interface `error`: a `*errors.AppError`, or any other error,
given by the text of its `Error()`. -/
inductive GoError where
  | app (e : AppError)
  | other (text : String)
  deriving DecidableEq

/-- The method `AppError.Error`: `"[%d] %s: %v"` with a wrapped error, `"[%d] %s"` without. -/
def AppError.Error (e : AppError) : String :=
  match e.Err with
  | some inner => "[" ++ toString e.Code ++ "] " ++ e.Message ++ ": " ++ inner
  | none => "[" ++ toString e.Code ++ "] " ++ e.Message

/-- The method `Error()` of an error value. -/
def GoError.Error : GoError → String
  | .app e => e.Error
  | .other text => text

/-- The constant `ErrInternal` (system errors, 1000 + iota). -/
def errors.ErrInternal : Int := 1000
/-- The constant `ErrDatabase`. -/
def errors.ErrDatabase : Int := 1001
/-- The constant `ErrCache`. -/
def errors.ErrCache : Int := 1002
/-- The constant `ErrTimeout`. -/
def errors.ErrTimeout : Int := 1003
/-- The constant `ErrUnauthorized` (authentication errors, 2000 + iota). -/
def errors.ErrUnauthorized : Int := 2000
/-- The constant `ErrForbidden`. -/
def errors.ErrForbidden : Int := 2001
/-- The constant `ErrInvalidToken`. -/
def errors.ErrInvalidToken : Int := 2002
/-- The constant `ErrTokenExpired`. -/
def errors.ErrTokenExpired : Int := 2003
/-- The constant `ErrInvalidCredentials`. -/
def errors.ErrInvalidCredentials : Int := 2004
/-- The constant `ErrBadRequest` (request errors, 3000 + iota). -/
def errors.ErrBadRequest : Int := 3000
/-- The constant `ErrValidation`. -/
def errors.ErrValidation : Int := 3001
/-- The constant `ErrResourceNotFound`. -/
def errors.ErrResourceNotFound : Int := 3002
/-- The constant `ErrResourceExists`. -/
def errors.ErrResourceExists : Int := 3003
/-- The constant `ErrResourceConflict`. -/
def errors.ErrResourceConflict : Int := 3004
/-- The constant `ErrUserNotFound` (business errors, 4000 + iota). -/
def errors.ErrUserNotFound : Int := 4000
/-- The constant `ErrUserExists`. -/
def errors.ErrUserExists : Int := 4001
/-- The constant `ErrWeakPassword`. -/
def errors.ErrWeakPassword : Int := 4002
/-- The constant `ErrProjectNotFound`. -/
def errors.ErrProjectNotFound : Int := 4003
/-- The constant `ErrInsufficientFunds`. -/
def errors.ErrInsufficientFunds : Int := 4004

/-- The function `errors.New`. -/
def errors.New (code : Int) (message : String) : AppError :=
  { Code := code, Message := message }

/-- The function `errors.Wrap`. -/
def errors.Wrap (code : Int) (message : String) (err : GoError) : AppError :=
  { Code := code, Message := message, Err := some err.Error }

/-- The top-level keys of a JSON object (none for any other value). -/
def Json.keys : Json → List String
  | .obj members => members.map (fun m => m.1)
  | _ => []

/-- The member of a JSON object under a key. -/
def Json.get? : Json → String → Option Json
  | .obj members, key => (members.find? (fun m => m.1 = key)).map (fun m => m.2)
  | _, _ => none

/-- What `c.JSON(status, body)` sends. -/
structure Response where
  status : Nat
  body : Json

/-- The map `errorStatusMap`, as the list of its entries. -/
def errors.errorStatusTable : List (Int × Nat) :=
  [(errors.ErrInternal, 500), (errors.ErrDatabase, 500), (errors.ErrCache, 500),
   (errors.ErrTimeout, 408),
   (errors.ErrUnauthorized, 401), (errors.ErrForbidden, 403), (errors.ErrInvalidToken, 401),
   (errors.ErrTokenExpired, 401), (errors.ErrInvalidCredentials, 401),
   (errors.ErrBadRequest, 400), (errors.ErrValidation, 400),
   (errors.ErrResourceNotFound, 404), (errors.ErrResourceExists, 409),
   (errors.ErrResourceConflict, 409),
   (errors.ErrUserNotFound, 404), (errors.ErrUserExists, 409), (errors.ErrWeakPassword, 400),
   (errors.ErrProjectNotFound, 404), (errors.ErrInsufficientFunds, 400)]

/-- The lookup `errorStatusMap[code]`: the zero value 0 for a code without entry. -/
def errors.errorStatusMap (code : Int) : Nat :=
  match errors.errorStatusTable.find? (fun entry => entry.1 = code) with
  | some entry => entry.2
  | none => 0

/-- The JSON of an `ErrorResponse` (`error` has `omitempty`). -/
def errors.ErrorResponse (code : Int) (message : String) (error : String) : Json :=
  .obj ([("code", .int code), ("message", .str message)] ++
    (if error = "" then [] else [("error", .str error)]))

/-- The JSON of a `SuccessResponse` (`message` and `data` have `omitempty`). -/
def errors.SuccessResponse (code : Int) (message : String) (data : Option Json) : Json :=
  .obj ([("code", .int code)] ++
    (if message = "" then [] else [("message", .str message)]) ++
    (match data with
     | some d => [("data", d)]
     | none => []))

/-- The function `errors.HandleError`. -/
def errors.HandleError (err : GoError) : Response :=
  match err with
  | .app appErr =>
    let status := errors.errorStatusMap appErr.Code
    let status := if status = 0 then 500 else status
    { status := status
      body := errors.ErrorResponse appErr.Code appErr.Message
        (match appErr.Err with
         | some inner => inner
         | none => "") }
  | .other text =>
    { status := 500
      body := errors.ErrorResponse errors.ErrInternal "Internal Server Error" text }

/-- The function `errors.HandleSuccess`: always `http.StatusOK`. -/
def errors.HandleSuccess (data : Option Json) (message : String) : Response :=
  { status := 200, body := errors.SuccessResponse 200 message data }

/-! ## Password strength (`internal/api/user/auth.go`) -/

/-- The four flags of `isPasswordStrong`. -/
structure PasswordFlags where
  hasUpper : Bool := false
  hasLower : Bool := false
  hasNumber : Bool := false
  hasSpecial : Bool := false

/-- One round of the loop of `isPasswordStrong`: the `switch` takes the first case that
holds for the character. -/
def passwordStep (t : UnicodeTables) (flags : PasswordFlags) (char : Char) : PasswordFlags :=
  if t.IsUpper char then { flags with hasUpper := true }
  else if t.IsLower char then { flags with hasLower := true }
  else if t.IsNumber char then { flags with hasNumber := true }
  else if t.IsPunct char || t.IsSymbol char then { flags with hasSpecial := true }
  else flags

/-- The function `isPasswordStrong`: `len(password)` counts bytes, `range password` visits the
characters. -/
def isPasswordStrong (t : UnicodeTables) (password : String) : Bool :=
  if password.utf8ByteSize < 8 then false
  else
    let flags := password.data.foldl (passwordStep t) {}
    flags.hasUpper && flags.hasLower && flags.hasNumber && flags.hasSpecial

/-- No character is in two of the classes upper, lower, number, punctuation-or-symbol
(every character has one Unicode general category). -/
def UnicodeTables.Disjoint (t : UnicodeTables) : Prop :=
  ∀ c : Char,
    (t.IsLower c = true → t.IsUpper c = false) ∧
    (t.IsNumber c = true → t.IsUpper c = false ∧ t.IsLower c = false) ∧
    ((t.IsPunct c = true ∨ t.IsSymbol c = true) →
      t.IsUpper c = false ∧ t.IsLower c = false ∧ t.IsNumber c = false)

/-! ## User repository and user service: registration and login -/

/-- The interface `interfaces.UserRepository`, the methods registration and login use, over
any kind of state (the MySQL store, or the call record of a mock). -/
structure UserRepository (σ : Type) where
  FindByUsername : String → σ → σ × Except GoError (Option User)
  FindByEmail : String → σ → σ × Except GoError User
  Create : User → σ → σ × Except GoError User

/-- The method `userRepository.FindByUsername`: `(nil, nil)` for `sql.ErrNoRows`. -/
def userRepository.FindByUsername (env : Env) (username : String) (db : DB) :
    DB × Except GoError (Option User) :=
  match env.fails (.findByUsername username) with
  | some e => (db, .error (.other e))
  | none => (db, .ok (db.users.find? (fun u => u.Username = username)))

/-- The method `userRepository.FindByEmail`: `sql.ErrNoRows` is returned as an error.  The
query does not select `deleted_at`, so the user it returns has none. -/
def userRepository.FindByEmail (env : Env) (email : String) (db : DB) :
    DB × Except GoError User :=
  match env.fails (.findByEmail email) with
  | some e => (db, .error (.other e))
  | none =>
    match db.users.find? (fun u => u.Email = email) with
    | none => (db, .error (.other "sql: no rows in result set"))
    | some user => (db, .ok { user with DeletedAt := none })

/-- The method `userRepository.Create`: inserts the row (the column `role` takes its default,
`user`) and returns the user with `ID` and `Role` set. -/
def userRepository.Create (env : Env) (user : User) (db : DB) : DB × Except GoError User :=
  match env.fails (.createUser user.Username) with
  | some e => (db, .error (.other e))
  | none =>
  let row : User :=
    { ID := db.nextUserID, Username := user.Username, Email := user.Email,
      PasswordHash := user.PasswordHash, AvatarURL := user.AvatarURL, Bio := user.Bio,
      Role := "user", IsVerified := user.IsVerified, CreatedAt := env.now,
      UpdatedAt := env.now }
  let db1 : DB := { db with users := db.users ++ [row], nextUserID := db.nextUserID + 1 }
  match env.fails .userLastInsertId with
  | some e => (db1, .error (.other e))
  | none => (db1, .ok { user with ID := db.nextUserID, Role := "user" })

/-- The MySQL implementation of the repository interface. -/
def userRepository (env : Env) : UserRepository DB :=
  { FindByUsername := userRepository.FindByUsername env
    FindByEmail := userRepository.FindByEmail env
    Create := userRepository.Create env }

/-- The method `UserService.IsUsernameTaken`. -/
def UserService.IsUsernameTaken {σ : Type} (repo : UserRepository σ) (username : String)
    (s : σ) : σ × Except GoError Bool :=
  match repo.FindByUsername username s with
  | (s1, .error err) =>
    if err = .other "sql: no rows in result set" then (s1, .ok false) else (s1, .error err)
  | (s1, .ok user) => (s1, .ok user.isSome)

/-- The method `UserService.Register`.  Returns the state of the repository and either the error
or the user as the call leaves it (hash, id and role filled in).  The
verification mail is sent after the row exists and its failure is only logged. -/
def UserService.Register {σ : Type} (env : Env) (repo : UserRepository σ) (user : User)
    (s : σ) : σ × Except GoError User :=
  match UserService.IsUsernameTaken repo user.Username s with
  | (s1, .error err) => (s1, .error err)
  | (s1, .ok true) =>
    (s1, .error (.app (errors.New errors.ErrUserExists "username already exists")))
  | (s1, .ok false) =>
  match env.bcryptGenerate user.PasswordHash with
  | .error e => (s1, .error (.other e))
  | .ok hashedPassword =>
  match repo.Create { user with PasswordHash := hashedPassword } s1 with
  | (s2, .error err) => (s2, .error err)
  | (s2, .ok created) => (s2, .ok created)

/-- The method `UserService.Login`. -/
def UserService.Login {σ : Type} (env : Env) (repo : UserRepository σ) (email password : String)
    (s : σ) : σ × Except GoError User :=
  match repo.FindByEmail email s with
  | (s1, .error err) => (s1, .error err)
  | (s1, .ok user) =>
    match env.bcryptCompare user.PasswordHash password with
    | some e => (s1, .error (.other e))
    | none => (s1, .ok user)

/-- The interface `service.UserServiceInterface`, the methods the auth handler calls on it. -/
structure UserServiceInterface (σ : Type) where
  Register : User → σ → σ × Except GoError User
  Login : String → String → σ → σ × Except GoError User

/-- The service `*service.UserService` behind the interface. -/
def UserService {σ : Type} (env : Env) (repo : UserRepository σ) : UserServiceInterface σ :=
  { Register := UserService.Register env repo
    Login := UserService.Login env repo }

/-! ## Auth handler -/

/-- The body of a registration request after `ShouldBindJSON`. -/
structure RegisterData where
  Username : String
  Email : String
  Password : String

/-- The body of a login request after `ShouldBindJSON`. -/
structure LoginData where
  Email : String
  Password : String

/-- The JSON of a `model.User` (the password hash has the tag `json:"-"`; times are
written as numbers here). -/
def User.toJson (u : User) : Json :=
  .obj [("id", .int u.ID), ("username", .str u.Username), ("email", .str u.Email),
    ("avatar_url", .str u.AvatarURL), ("bio", .str u.Bio), ("role", .str u.Role),
    ("is_verified", .bool u.IsVerified), ("created_at", .int u.CreatedAt),
    ("updated_at", .int u.UpdatedAt),
    ("deleted_at", match u.DeletedAt with
      | some t => .int t
      | none => .null)]

/-- The method `AuthHandler.Register`.  `bind` is the outcome of `c.ShouldBindJSON`: the
decoded request, or the binding error of a request that is not well formed. -/
def AuthHandler.Register {σ : Type} (env : Env) (userService : UserServiceInterface σ)
    (bind : Except GoError RegisterData) (s : σ) : σ × Response :=
  match bind with
  | .error err =>
    (s, errors.HandleError (.app (errors.Wrap errors.ErrValidation "无效的请求数据" err)))
  | .ok registerData =>
  if !isPasswordStrong env.unicode registerData.Password then
    (s, errors.HandleError (.app (errors.New errors.ErrWeakPassword "密码强度不足")))
  else
  match userService.Register
      { Username := registerData.Username, Email := registerData.Email,
        PasswordHash := registerData.Password } s with
  | (s1, .error (.app appErr)) =>
    if appErr.Code = errors.ErrUserExists then (s1, errors.HandleError (.app appErr))
    else (s1, errors.HandleError
      (.app (errors.Wrap errors.ErrInternal "注册失败" (.app appErr))))
  | (s1, .error (.other text)) =>
    (s1, errors.HandleError (.app (errors.Wrap errors.ErrInternal "注册失败" (.other text))))
  | (s1, .ok user) =>
    (s1, errors.HandleSuccess (some (.obj [("user_id", .int user.ID)])) "注册成功")

/-- The method `AuthHandler.Login`. -/
def AuthHandler.Login {σ : Type} (env : Env) (userService : UserServiceInterface σ)
    (bind : Except GoError LoginData) (s : σ) : σ × Response :=
  match bind with
  | .error err =>
    (s, errors.HandleError (.app (errors.Wrap errors.ErrValidation "无效的请求数据" err)))
  | .ok loginData =>
  match userService.Login loginData.Email loginData.Password s with
  | (s1, .error err) =>
    (s1, errors.HandleError (.app (errors.Wrap errors.ErrInvalidCredentials "登录失败" err)))
  | (s1, .ok user) =>
  match util.GenerateToken env user.ID with
  | .error e =>
    (s1, errors.HandleError (.app (errors.Wrap errors.ErrInternal "生成令牌失败" (.other e))))
  | .ok token =>
    (s1, errors.HandleSuccess
      (some (.obj [("token", .str token), ("user", user.toJson)])) "登录成功")

/-- A mock repository as in `TestRegister`: the state is the record of the calls
made; `FindByUsername` answers `found`, `Create` answers `createResult`. -/
def mockUserRepository (found : Option User) (createError : Option GoError) :
    UserRepository (List String) :=
  { FindByUsername := fun username calls =>
      (calls ++ ["FindByUsername " ++ username], .ok found)
    FindByEmail := fun email calls =>
      (calls ++ ["FindByEmail " ++ email], .error (.other "sql: no rows in result set"))
    Create := fun user calls =>
      (calls ++ ["Create " ++ user.Username],
        match createError with
        | some err => .error err
        | none => .ok { user with ID := 1, Role := "user" }) }

/-- A mock user service as in the handler tests: the state is the record of the
calls made; `Register` and `Login` answer the given results. -/
def mockUserService (registerResult : Except GoError User) (loginResult : Except GoError User) :
    UserServiceInterface (List String) :=
  { Register := fun user calls => (calls ++ ["Register " ++ user.Username], registerResult)
    Login := fun email _ calls => (calls ++ ["Login " ++ email], loginResult) }

/-! ## Likes (`community_repo.go`, `community.go`) -/

/-- The function `strings.Contains` on the characters of two strings. -/
def containsChars (substr : List Char) : List Char → Bool
  | [] => substr.isPrefixOf []
  | c :: cs => substr.isPrefixOf (c :: cs) || containsChars substr cs

/-- The function `strings.Contains`. -/
def stringsContains (s substr : String) : Bool :=
  containsChars substr.data s.data

/-- Modelled from the spec: the unique key of the table `likes` on (user_id, post_id)
("a Like is a unique (user, post) pair"), whose declaration is not in the
sources; `CreateLike` looks for its `Duplicate entry` error.  True when the
table already holds a like of the post by the user. -/
def likesDuplicate (db : DB) (userID postID : Nat) : Bool :=
  db.likes.any (fun l => l.UserID = userID ∧ l.PostID = postID)

/-- The error of the driver for an insert that violates a unique key (MySQL error 1062;
its text goes on with the entry and the key). -/
def duplicateEntryError : String := "Error 1062: Duplicate entry"

/-- The outcome of `INSERT INTO likes (user_id, post_id, created_at)`: a failure of the
database, the `Duplicate entry` error of the unique key, or no error. -/
def insertLikeError (env : Env) (db : DB) (userID postID : Nat) : Option String :=
  match env.fails (.insertLike userID postID) with
  | some e => some e
  | none => if likesDuplicate db userID postID then some duplicateEntryError else none

/-- The method `communityRepository.CreateLike`, on one transaction. -/
def communityRepository.CreateLike (env : Env) (db : DB) (like : Like) :
    DB × Except String Unit :=
  match env.fails .begin with
  | some e => (db, .error e)
  | none =>
  match env.fails (.postExists like.PostID) with
  | some e => (db, .error e)
  | none =>
  if !(db.posts.any (fun p => p.ID = like.PostID)) then (db, .error "post not found")
  else
  match insertLikeError env db like.UserID like.PostID with
  | some e =>
    if stringsContains e "Duplicate entry" then (db, .error "already liked")
    else (db, .error e)
  | none =>
  let tx1 : DB :=
    { db with
      likes := db.likes ++
        [{ ID := db.nextLikeID, UserID := like.UserID, PostID := like.PostID,
           CreatedAt := env.now }]
      nextLikeID := db.nextLikeID + 1 }
  match env.fails .commit with
  | some e => (rollback db tx1, .error e)
  | none => (tx1, .ok ())

/-- The method `communityRepository.DeleteLike`, on one transaction. -/
def communityRepository.DeleteLike (env : Env) (db : DB) (userID postID : Nat) :
    DB × Except String Unit :=
  match env.fails .begin with
  | some e => (db, .error e)
  | none =>
  match env.fails (.likeExists userID postID) with
  | some e => (db, .error e)
  | none =>
  if !(db.likes.any (fun l => l.UserID = userID ∧ l.PostID = postID)) then
    (db, .error "like not found")
  else
  match env.fails (.deleteLike userID postID) with
  | some e => (db, .error e)
  | none =>
  let tx1 : DB :=
    { db with likes := db.likes.filter (fun l => ¬ (l.UserID = userID ∧ l.PostID = postID)) }
  match env.fails .commit with
  | some e => (rollback db tx1, .error e)
  | none => (tx1, .ok ())

/-- The method `communityRepository.GetLikeCount`: `(count, err)`, the count being 0 when the
query fails. -/
def communityRepository.GetLikeCount (env : Env) (db : DB) (postID : Nat) :
    Nat × Option String :=
  match env.fails (.getLikeCount postID) with
  | some e => (0, some e)
  | none => ((db.likes.filter (fun l => l.PostID = postID)).length, none)

/-- The method `communityRepository.IsPostLikedByUser`: `(exists, err)`. -/
def communityRepository.IsPostLikedByUser (env : Env) (db : DB) (postID userID : Nat) :
    Bool × Option String :=
  match env.fails (.isPostLikedByUser postID userID) with
  | some e => (false, some e)
  | none => (db.likes.any (fun l => l.PostID = postID ∧ l.UserID = userID), none)

/-- The body `gin.H{"code": ..., "message": ...}`. -/
def codeMessage (code : Int) (message : String) : Json :=
  .obj [("code", .int code), ("message", .str message)]

/-- The body `gin.H{"code": 200, "data": gin.H{"is_liked": ..., "like_count": ...}}`. -/
def likeState (isLiked : Bool) (likeCount : Nat) : Json :=
  .obj [("code", .int 200),
    ("data", .obj [("is_liked", .bool isLiked), ("like_count", .int likeCount)])]

/-- The method `CommunityHandler.LikePost` (the community service passes every call on to the
repository).  `idParam` is the path parameter when it is a number; the handler
ignores the error of `strconv.Atoi` and goes on with 0. -/
def CommunityHandler.LikePost (env : Env) (db : DB) (idParam : Option Nat) (userID : Nat) :
    DB × Response :=
  let postID := idParam.getD 0
  match communityRepository.IsPostLikedByUser env db postID userID with
  | (_, some _) => (db, { status := 500, body := codeMessage 500 "检查点赞状态失败" })
  | (true, none) => (db, { status := 400, body := codeMessage 400 "已经点赞过了" })
  | (false, none) =>
  match communityRepository.CreateLike env db { UserID := userID, PostID := postID } with
  | (db1, .error _) => (db1, { status := 500, body := codeMessage 500 "点赞失败" })
  | (db1, .ok _) =>
    (db1, { status := 200
            body := likeState true (communityRepository.GetLikeCount env db1 postID).1 })

/-- The method `CommunityHandler.UnlikePost`. -/
def CommunityHandler.UnlikePost (env : Env) (db : DB) (idParam : Option Nat) (userID : Nat) :
    DB × Response :=
  match idParam with
  | none => (db, { status := 400, body := codeMessage 400 "无效的帖子ID" })
  | some postID =>
  match communityRepository.IsPostLikedByUser env db postID userID with
  | (_, some _) => (db, { status := 500, body := codeMessage 500 "检查点赞状态失败" })
  | (false, none) => (db, { status := 400, body := codeMessage 400 "还没有点赞" })
  | (true, none) =>
  match communityRepository.DeleteLike env db userID postID with
  | (db1, .error _) => (db1, { status := 500, body := codeMessage 500 "取消点赞失败" })
  | (db1, .ok _) =>
    (db1, { status := 200
            body := likeState false (communityRepository.GetLikeCount env db1 postID).1 })

/-! ## Payment handler: refund request -/

/-- The method `PaymentHandler.RequestRefundForFailedProject`.  `idParam` is the path parameter
when `strconv.Atoi` accepts it.  The status is chosen by the text of the error
of the service, the first case that matches. -/
def PaymentHandler.RequestRefundForFailedProject (env : Env) (db : DB) (idParam : Option Nat)
    (userID : Nat) : DB × Response :=
  match idParam with
  | none => (db, { status := 400, body := codeMessage 400 "无效的订单ID" })
  | some orderID =>
  match PaymentService.RequestRefundForFailedProject env db orderID userID with
  | (db1, .error e) =>
    if stringsContains e "订单不存在" then (db1, { status := 404, body := codeMessage 404 e })
    else if stringsContains e "订单不属于当前用户" then
      (db1, { status := 403, body := codeMessage 403 e })
    else if stringsContains e "已存在退款申请" then
      (db1, { status := 409, body := codeMessage 409 e })
    else
      (db1, { status := 500
              body := .obj [("code", .int 500), ("error", .str e),
                ("message", .str "申请退款失败")] })
  | (db1, .ok _) => (db1, { status := 200, body := codeMessage 200 "退款申请已提交" })

/-- A store with two posts and one like: user 3 likes post 5. -/
def likesDB : DB :=
  { users := [{ ID := 3, Username := "existinguser", Email := "u3@example.com" },
              { ID := 4, Username := "other", Email := "u4@example.com" }]
    posts := [{ ID := 5, UserID := 4 }, { ID := 6, UserID := 3 }]
    likes := [{ ID := 1, UserID := 3, PostID := 5 }]
    nextUserID := 5
    nextLikeID := 2 }

/-! ## Project update (`project_repo.go`, `project_service.go`, `project.go`) -/

/-- The statement `UPDATE projects SET title = ?, description = ?, status = ?,
total_amount = ?, updated_at = ?, end_date = ? WHERE id = ?` on one row: the six
columns take the fields of the value that was passed. -/
def setProject (project : Project) (p : Project) : Project :=
  if p.ID = project.ID then
    { p with
      Title := project.Title
      Description := project.Description
      Status := project.Status
      TotalAmount := project.TotalAmount
      UpdatedAt := project.UpdatedAt
      EndDate := project.EndDate }
  else p

/-- The statement `UPDATE project_goals SET amount = ?, description = ? WHERE id = ? AND
project_id = ?` on one row. -/
def setGoal (projectID : Nat) (goal : ProjectGoal) (g : ProjectGoal) : ProjectGoal :=
  if g.ID = goal.ID ∧ g.ProjectID = projectID then
    { g with Amount := goal.Amount, Description := goal.Description }
  else g

/-- The loop of `UpdateProject` over the goals, inside the transaction: a goal with id 0 is
inserted, any other is updated; the first failing statement ends the loop. -/
def updateGoalsLoop (env : Env) (projectID : Nat) : DB → List ProjectGoal → DB × Option String
  | tx, [] => (tx, none)
  | tx, goal :: rest =>
    if goal.ID = 0 then
      match env.fails (.insertGoal projectID) with
      | some e => (tx, some e)
      | none =>
        updateGoalsLoop env projectID
          { tx with
            projectGoals := tx.projectGoals ++
              [{ ID := tx.nextProjectGoalID, ProjectID := projectID, Amount := goal.Amount,
                 Description := goal.Description }]
            nextProjectGoalID := tx.nextProjectGoalID + 1 }
          rest
    else
      match env.fails (.updateGoal goal.ID) with
      | some e => (tx, some e)
      | none =>
        updateGoalsLoop env projectID
          { tx with projectGoals := tx.projectGoals.map (setGoal projectID goal) } rest

/-- The method `ProjectRepository.UpdateProject`, on one transaction. -/
def ProjectRepository.UpdateProject (env : Env) (db : DB) (project : Project)
    (goals : List ProjectGoal) : DB × Except String Unit :=
  match env.fails .begin with
  | some e => (db, .error e)
  | none =>
  match env.fails (.updateProject project.ID) with
  | some e => (db, .error e)
  | none =>
  let tx1 : DB := { db with projects := db.projects.map (setProject project) }
  match updateGoalsLoop env project.ID tx1 goals with
  | (tx2, some e) => (rollback db tx2, .error e)
  | (tx2, none) =>
  match env.fails .commit with
  | some e => (rollback db tx2, .error e)
  | none => (tx2, .ok ())

/-- The method `ProjectService.UpdateProject`: stamps `UpdatedAt` and passes the value on. -/
def ProjectService.UpdateProject (env : Env) (db : DB) (project : Project)
    (goals : List ProjectGoal) : DB × Except String Unit :=
  ProjectRepository.UpdateProject env db { project with UpdatedAt := env.now } goals

/-- The body of an update request after `ShouldBindJSON` (no field is required). -/
structure UpdateProjectInput where
  Title : String := ""
  Description : String := ""
  EndDate : Nat := 0
  Goals : List ProjectGoal := []

/-- The method `ProjectHandler.UpdateProject`.  `idParam` is the path parameter when
`strconv.Atoi` accepts it, `bind` the outcome of `ShouldBindJSON`.  The
`model.Project` it hands to the service is built from the id and three fields of
the request; every other field, `Status` and `TotalAmount` among them, has the
zero value of its type. -/
def ProjectHandler.UpdateProject (env : Env) (db : DB) (idParam : Option Nat)
    (bind : Except String UpdateProjectInput) : DB × Response :=
  match idParam with
  | none => (db, { status := 400, body := .obj [("error", .str "Invalid project ID")] })
  | some id =>
  match bind with
  | .error e => (db, { status := 400, body := .obj [("error", .str e)] })
  | .ok input =>
  let project : Project :=
    { ID := id
      Title := input.Title
      Description := input.Description
      Status := ""
      EndDate := input.EndDate }
  match ProjectService.UpdateProject env db project input.Goals with
  | (db1, .error _) =>
    (db1, { status := 500, body := .obj [("error", .str "Failed to update project")] })
  | (db1, .ok _) =>
    (db1, { status := 200, body := .obj [("message", .str "Project updated successfully")] })

/-! ## Payment handler: payment -/

/-- The body of a payment request as decoded from JSON. -/
structure CreatePaymentInput where
  Amount : ℚ
  AddressID : Nat

/-- The validation `binding:"required"` on both fields: a field passes when it is not the
zero value of its type. -/
def CreatePaymentInput.required (input : CreatePaymentInput) : Bool :=
  decide (input.Amount ≠ 0) && decide (input.AddressID ≠ 0)

/-- The method `PaymentHandler.CreatePayment`: the store after the request and the status of
the answer.  `idParam` is the path parameter when `strconv.Atoi` accepts it,
`body` the decoded request when it is JSON of the right shape. -/
def PaymentHandler.CreatePayment (env : Env) (db : DB) (idParam : Option Nat)
    (body : Option CreatePaymentInput) (userID : Nat) : DB × Nat :=
  match idParam with
  | none => (db, 400)
  | some projectID =>
  match body with
  | none => (db, 400)
  | some input =>
  if !input.required then (db, 400)
  else
  let payment : Payment :=
    { UserID := userID, ProjectID := projectID, Amount := input.Amount, Status := "pending" }
  match PaymentService.ProcessPayment env db payment input.AddressID with
  | (db1, .error e) =>
    if e = "project has ended, cannot accept new payments" then (db1, 400) else (db1, 500)
  | (db1, .ok _) => (db1, 201)

/-! ## Automatic refunds (`refund_service.go`) -/

/-- A store with the active project 7, which has raised 1200 of its goal of 6000. -/
def fundedDB : DB :=
  { projects :=
      [{ ID := 7, Title := "Lamp", Status := "active", TotalAmount := 1200,
         TotalGoalAmount := 6000, Progress := 20, MinRewardAmount := 1000, EndDate := 100 }]
    projectGoals :=
      [{ ID := 1, ProjectID := 7, Amount := 1000 }, { ID := 2, ProjectID := 7, Amount := 5000 }]
    orders :=
      [{ ID := 1, UserID := 3, ProjectID := 7, PledgeID := 1, Amount := 1200, Status := "paid" }]
    pledges := [{ ID := 1, UserID := 3, ProjectID := 7, Amount := 1200, Status := "pending" }]
    nextPledgeID := 2
    nextOrderID := 2
    nextProjectGoalID := 3 }

/-! ## Addresses (`user_repo.go`, `user_service.go`) -/

/-- The method `userRepository.FindByID`: `sql.ErrNoRows` is returned as an error.  The query
does not select `deleted_at`, so the user it returns has none. -/
def userRepository.FindByID (env : Env) (id : Nat) (db : DB) : DB × Except GoError User :=
  match env.fails (.findByID id) with
  | some e => (db, .error (.other e))
  | none =>
    match db.users.find? (fun u => u.ID = id) with
    | none => (db, .error (.other "sql: no rows in result set"))
    | some user => (db, .ok { user with DeletedAt := none })

/-- The method `UserService.GetUserByID`, with the MySQL repository (which returns no nil user
without an error). -/
def UserService.GetUserByID (env : Env) (db : DB) (id : Nat) : Except String User :=
  match userRepository.FindByID env id db with
  | (_, .error err) => .error ("查询用户失败: " ++ err.Error)
  | (_, .ok user) => .ok user

/-- The function `validateAddress`. -/
def validateAddress (address : UserAddress) : Option AppError :=
  if address.ReceiverName = "" then
    some (errors.New errors.ErrValidation "receiver name is required")
  else if address.Phone = "" then some (errors.New errors.ErrValidation "phone is required")
  else if address.Province = "" ∨ address.City = "" ∨ address.District = "" then
    some (errors.New errors.ErrValidation "incomplete address")
  else if address.DetailAddress = "" then
    some (errors.New errors.ErrValidation "detail address is required")
  else none

/-- The rows of a result `ORDER BY is_default DESC, created_at DESC`. -/
def addressesByDefaultDesc (l : List UserAddress) : List UserAddress :=
  l.insertionSort (fun a b =>
    (a.IsDefault = true ∧ b.IsDefault = false) ∨
    (a.IsDefault = b.IsDefault ∧ b.CreatedAt ≤ a.CreatedAt))

/-- The method `userRepository.ListUserAddresses`. -/
def userRepository.ListUserAddresses (env : Env) (db : DB) (userID : Nat) :
    Except String (List UserAddress) :=
  match env.fails (.listUserAddresses userID) with
  | some e => .error ("failed to query addresses: " ++ e)
  | none => .ok (addressesByDefaultDesc (db.userAddresses.filter (fun a => a.UserID = userID)))

/-- The statement `UPDATE user_addresses SET receiver_name = ?, phone = ?, province = ?,
city = ?, district = ?, detail_address = ?, is_default = ? WHERE id = ? AND
user_id = ?` on one row. -/
def setAddress (address : UserAddress) (a : UserAddress) : UserAddress :=
  if a.ID = address.ID ∧ a.UserID = address.UserID then
    { a with
      ReceiverName := address.ReceiverName
      Phone := address.Phone
      Province := address.Province
      City := address.City
      District := address.District
      DetailAddress := address.DetailAddress
      IsDefault := address.IsDefault }
  else a

/-- The method `userRepository.UpdateAddress`, on `r.db`: the flag `is_default` is written as
given, no other row is touched. -/
def userRepository.UpdateAddress (env : Env) (db : DB) (address : UserAddress) :
    DB × Except String Unit :=
  match env.fails (.updateAddress address.ID) with
  | some e => (db, .error e)
  | none => ({ db with userAddresses := db.userAddresses.map (setAddress address) }, .ok ())

/-- The method `userRepository.DeleteAddress`, on `r.db`: `DELETE FROM user_addresses WHERE
id = ?`. -/
def userRepository.DeleteAddress (env : Env) (db : DB) (id : Nat) : DB × Except String Unit :=
  match env.fails (.deleteAddress id) with
  | some e => (db, .error e)
  | none => ({ db with userAddresses := db.userAddresses.filter (fun a => a.ID ≠ id) }, .ok ())

/-- The method `userRepository.CreateAddress`, on `r.db`: checks that the user exists, inserts
the row with `is_default` as given and returns the new id (the value it
stores in `address.ID`).  The column `created_at` is not in the statement and
takes the time of the insert.  When `LastInsertId` fails the row is already
stored. -/
def userRepository.CreateAddress (env : Env) (db : DB) (address : UserAddress) :
    DB × Except String Nat :=
  match env.fails (.userExists address.UserID) with
  | some e => (db, .error ("failed to check user existence: " ++ e))
  | none =>
  if !(db.users.any (fun u => u.ID = address.UserID)) then (db, .error "user not found")
  else
  match env.fails (.insertAddress address.UserID) with
  | some e => (db, .error ("failed to execute SQL: " ++ e))
  | none =>
  let db1 : DB :=
    { db with
      userAddresses := db.userAddresses ++
        [{ address with ID := db.nextUserAddressID, CreatedAt := env.now }]
      nextUserAddressID := db.nextUserAddressID + 1 }
  match env.fails .addressLastInsertId with
  | some e => (db1, .error ("failed to get last insert id: " ++ e))
  | none => (db1, .ok db.nextUserAddressID)

/-- The loop of `handleDefaultAddress` over the addresses read before it: every address read
with `is_default` is written back with the flag off; the first failing update
ends the loop. -/
def handleDefaultLoop (env : Env) : DB → List UserAddress → DB × Option String
  | db, [] => (db, none)
  | db, addr :: rest =>
    if addr.IsDefault then
      match userRepository.UpdateAddress env db { addr with IsDefault := false } with
      | (db1, .error e) => (db1, some e)
      | (db1, .ok _) => handleDefaultLoop env db1 rest
    else handleDefaultLoop env db rest

/-- The method `UserService.handleDefaultAddress`. -/
def UserService.handleDefaultAddress (env : Env) (db : DB) (userID : Nat) :
    DB × Option String :=
  match userRepository.ListUserAddresses env db userID with
  | .error e => (db, some e)
  | .ok addresses => handleDefaultLoop env db addresses

/-- The method `UserService.CreateAddress`, with the MySQL repository: the store after the call
and either the error text or the id written to `address.ID`. -/
def UserService.CreateAddress (env : Env) (db : DB) (address : UserAddress) :
    DB × Except String Nat :=
  match UserService.GetUserByID env db address.UserID with
  | .error e => (db, .error ("failed to validate user: " ++ e))
  | .ok _ =>
  match validateAddress address with
  | some appErr => (db, .error ("address validation failed: " ++ appErr.Error))
  | none =>
  match (if address.IsDefault then UserService.handleDefaultAddress env db address.UserID
      else (db, none)) with
  | (db1, some e) => (db1, .error ("failed to handle default address: " ++ e))
  | (db1, none) =>
  match userRepository.CreateAddress env db1 address with
  | (db2, .error e) => (db2, .error ("failed to create address in database: " ++ e))
  | (db2, .ok id) => (db2, .ok id)

/-- The method `UserService.UpdateAddress`. -/
def UserService.UpdateAddress (env : Env) (db : DB) (address : UserAddress) :
    DB × Except String Unit :=
  userRepository.UpdateAddress env db address

/-- The method `UserService.DeleteAddress`. -/
def UserService.DeleteAddress (env : Env) (db : DB) (id : Nat) : DB × Except String Unit :=
  userRepository.DeleteAddress env db id

/-- The method `UserService.SetDefaultAddress`. -/
def UserService.SetDefaultAddress (env : Env) (db : DB) (userID addressID : Nat) :
    DB × Except String Unit :=
  userRepository.SetDefaultAddress env db userID addressID

/-- A call of one of the four address operations of the user service. -/
inductive AddressCall where
  | CreateAddress (address : UserAddress)
  | UpdateAddress (address : UserAddress)
  | DeleteAddress (id : Nat)
  | SetDefaultAddress (userID addressID : Nat)

/-- The store after a call, whether it returned an error or not. -/
def AddressCall.run (env : Env) (db : DB) : AddressCall → DB
  | .CreateAddress address => (UserService.CreateAddress env db address).1
  | .UpdateAddress address => (UserService.UpdateAddress env db address).1
  | .DeleteAddress id => (UserService.DeleteAddress env db id).1
  | .SetDefaultAddress userID addressID =>
    (UserService.SetDefaultAddress env db userID addressID).1

/-- The store after a sequence of calls, each with the environment it runs in. -/
def runAddressCalls (db : DB) : List (Env × AddressCall) → DB
  | [] => db
  | step :: rest => runAddressCalls (step.2.run step.1 db) rest

/-- A call that does not raise the flag through `UpdateAddress`. -/
def AddressCall.keepsFlag : AddressCall → Bool
  | .UpdateAddress address => !address.IsDefault
  | _ => true

/-- The state of the table of addresses that the operations keep: ids are unique and below the
auto-increment counter, and two default addresses of one user are the same
row. -/
def AddressesConsistent (db : DB) : Prop :=
  (db.userAddresses.map (fun a => a.ID)).Nodup ∧
  (∀ a ∈ db.userAddresses, a.ID < db.nextUserAddressID) ∧
  (∀ a ∈ db.userAddresses, ∀ b ∈ db.userAddresses,
    a.UserID = b.UserID → a.IsDefault = true → b.IsDefault = true → a.ID = b.ID)

/-- The ids of the addresses of a user. -/
def addressIDs (db : DB) (userID : Nat) : List Nat :=
  (db.userAddresses.filter (fun a => a.UserID = userID)).map (fun a => a.ID)

/-- A store with the users 3 and 4 and no address. -/
def usersDB : DB :=
  { users := [{ ID := 3, Username := "existinguser", Email := "u3@example.com" },
              { ID := 4, Username := "other", Email := "u4@example.com" }]
    nextUserID := 5 }

/-- A complete address of the given user. -/
def homeAddress (userID : Nat) (isDefault : Bool) : UserAddress :=
  { ID := 0, UserID := userID, ReceiverName := "Li", Phone := "13800000000",
    Province := "Zhejiang", City := "Hangzhou", District := "Xihu", DetailAddress := "1 Lake Rd",
    IsDefault := isDefault }

/-! ## Project review (`admin_service.go`, `project_service.go`, `admin.go`) -/

/-- How a Go call ends: it returns a value, or it panics with a runtime error. -/
inductive Outcome (α : Type) where
  | returned (value : α)
  | panicked (message : String)

/-- The method `AdminService.ReviewProject`: the status of the project that was read is not
looked at. -/
def AdminService.ReviewProject (env : Env) (db : DB) (projectID : Nat) (approved : Bool)
    (_comment : String) : DB × Except String Unit :=
  match ProjectRepository.GetProjectByID env db projectID with
  | .error e => (db, .error e)
  | .ok none => (db, .error "project not found")
  | .ok (some project) =>
    ProjectRepository.UpdateProjectStatus env db
      { project with Status := if approved then "active" else "rejected" }

/-- The method `ProjectService.ReviewProject`.  `GetProjectByID` returns `(nil, nil)` for a
project that does not exist and the method reads `project.Status` without a nil
check, so it panics there. -/
def ProjectService.ReviewProject (env : Env) (db : DB) (projectID : Nat) (approved : Bool)
    (_comment : String) : Outcome (DB × Except String Unit) :=
  match ProjectRepository.GetProjectByID env db projectID with
  | .error e => .returned (db, .error e)
  | .ok none => .panicked "runtime error: invalid memory address or nil pointer dereference"
  | .ok (some project) =>
    if project.Status ≠ "pending_review" then
      .returned (db, .error "project is not in pending review status")
    else
      .returned (ProjectRepository.UpdateProjectStatus env db
        { project with
          Status := if approved then "active" else "rejected"
          UpdatedAt := env.now })

/-- The body of a review request as decoded from JSON. -/
structure ReviewInput where
  Approved : Bool
  Comment : String := ""

/-- The method `AdminHandler.ReviewProject`.  `idParam` is the path parameter when
`strconv.Atoi` accepts it, `body` the decoded request when it is JSON of the
right shape.  The field `approved` is bound with `binding:"required"`, which a
`false` does not pass. -/
def AdminHandler.ReviewProject (env : Env) (db : DB) (idParam : Option Nat)
    (body : Option ReviewInput) : DB × Response :=
  match idParam with
  | none => (db, { status := 400, body := codeMessage 400 "无效的项目ID" })
  | some projectID =>
  match body with
  | none => (db, { status := 400, body := codeMessage 400 "无效的���求数据" })
  | some input =>
  if !input.Approved then (db, { status := 400, body := codeMessage 400 "无效的���求数据" })
  else
  match AdminService.ReviewProject env db projectID input.Approved input.Comment with
  | (db1, .error e) =>
    (db1, { status := 500
            body := .obj [("code", .int 500), ("message", .str "审核项目失败"),
              ("error", .str e)] })
  | (db1, .ok _) => (db1, { status := 200, body := codeMessage 200 "项目审核完成" })

/-- The stored `progress` of the project with the given id, if there is one. -/
def progressOf (db : DB) (projectID : Nat) : Option ℚ :=
  (db.projects.find? (fun p => p.ID = projectID)).map (fun p => p.Progress)

/-! ## Pledges without payment (`project_service.go`, `project_repo.go`) -/

/-- The method `ProjectRepository.CreatePledge`, on `r.db`: inserts the pledge without an
address; the new id is not read back. -/
def ProjectRepository.CreatePledge (env : Env) (db : DB) (pledge : Pledge) :
    DB × Except String Unit :=
  match env.fails .createPledge with
  | some e => (db, .error e)
  | none =>
    ({ db with
       pledges := db.pledges ++
         [{ ID := db.nextPledgeID, UserID := pledge.UserID, ProjectID := pledge.ProjectID,
            Amount := pledge.Amount, Status := pledge.Status, AddressID := none,
            CreatedAt := pledge.CreatedAt }]
       nextPledgeID := db.nextPledgeID + 1 }, .ok ())

/-- The method `ProjectService.PledgeToProject`: a pledge row and nothing else. -/
def ProjectService.PledgeToProject (env : Env) (db : DB) (userID projectID : Nat) (amount : ℚ) :
    DB × Except String Unit :=
  ProjectRepository.CreatePledge env db
    { ID := 0, UserID := userID, ProjectID := projectID, Amount := amount, Status := "pending",
      CreatedAt := env.now }

/-- A call of one of the two operations that create pledges. -/
inductive PledgeCall where
  | ProcessPayment (payment : Payment) (addressID : Nat)
  | PledgeToProject (userID projectID : Nat) (amount : ℚ)

/-- The store after a call, whether it returned an error or not. -/
def PledgeCall.run (env : Env) (db : DB) : PledgeCall → DB
  | .ProcessPayment payment addressID =>
    (PaymentService.ProcessPayment env db payment addressID).1
  | .PledgeToProject userID projectID amount =>
    (ProjectService.PledgeToProject env db userID projectID amount).1

/-- The store after a sequence of calls, each with the environment it runs in. -/
def runPledgeCalls (db : DB) : List (Env × PledgeCall) → DB
  | [] => db
  | step :: rest => runPledgeCalls (step.2.run step.1 db) rest

/-- The state of pledges and orders that the two operations keep: pledge ids are unique and
below the auto-increment counter, no two orders have the same `pledge_id`, and
the pledge of every order exists. -/
def PledgesConsistent (db : DB) : Prop :=
  (db.pledges.map (fun p => p.ID)).Nodup ∧
  (∀ p ∈ db.pledges, p.ID < db.nextPledgeID) ∧
  (db.orders.map (fun o => o.PledgeID)).Nodup ∧
  (∀ o ∈ db.orders, ∃ p ∈ db.pledges, p.ID = o.PledgeID)

/-- The orders that refer to a pledge. -/
def ordersOfPledge (db : DB) (pledgeID : Nat) : List Order :=
  db.orders.filter (fun o => o.PledgeID = pledgeID)

/-- The pledges that an order refers to. -/
def pledgesOfOrder (db : DB) (order : Order) : List Pledge :=
  db.pledges.filter (fun p => p.ID = order.PledgeID)

/-- The order number that `ListOrders` presents for an order: the expression
`fmt.Sprintf("ORD-%d-%04d", time.Now().Year(), order.ID)` of the handler. -/
def PaymentHandler.ListOrders.orderNumber (env : Env) (order : Order) : String :=
  sprintfOrderNumber env.year order.ID

/-- A store with a project in each of the statuses `pending_review`, `completed` and
`failed`. -/
def reviewDB : DB :=
  { projects :=
      [{ ID := 7, Status := "pending_review", EndDate := 100 },
       { ID := 8, Status := "completed", EndDate := 10 },
       { ID := 9, Status := "failed", EndDate := 10 }] }

/-- A store with the active project 7 and no pledge or order. -/
def emptyLedgerDB : DB :=
  { projects :=
      [{ ID := 7, Status := "active", TotalGoalAmount := 6000, MinRewardAmount := 1000,
         EndDate := 100 }] }

/-! ## Deletion of a project (`project_repo.go`) -/

/-- The dependent tables that `DeleteProject` empties, in the order of its slice `tables`. -/
def deleteProjectTables : List String :=
  ["project_images", "project_goals", "project_tag_relations", "project_updates",
   "project_comments"]

/-- The statement `DELETE FROM <table> WHERE project_id = ?` for one of the five dependent
tables. -/
def deleteFrom (table : String) (projectID : Nat) (tx : DB) : DB :=
  if table = "project_images" then
    { tx with projectImages := tx.projectImages.filter (fun r => r.ProjectID ≠ projectID) }
  else if table = "project_goals" then
    { tx with projectGoals := tx.projectGoals.filter (fun r => r.ProjectID ≠ projectID) }
  else if table = "project_tag_relations" then
    { tx with
      projectTagRelations := tx.projectTagRelations.filter (fun r => r.ProjectID ≠ projectID) }
  else if table = "project_updates" then
    { tx with projectUpdates := tx.projectUpdates.filter (fun r => r.ProjectID ≠ projectID) }
  else if table = "project_comments" then
    { tx with projectComments := tx.projectComments.filter (fun r => r.ProjectID ≠ projectID) }
  else tx

/-- The loop of `DeleteProject` over the dependent tables, on the transaction: the working
copy, the tables a DELETE was sent for so far, and the error of the first
statement that failed. -/
def deleteProjectLoop (env : Env) (projectID : Nat) :
    DB → List String → List String → DB × List String × Option String
  | tx, sent, [] => (tx, sent, none)
  | tx, sent, table :: rest =>
    match env.fails (.deleteFrom table projectID) with
    | some e => (tx, sent ++ [table], some e)
    | none => deleteProjectLoop env projectID (deleteFrom table projectID tx) (sent ++ [table]) rest

/-- The method `ProjectRepository.DeleteProject`, on one transaction: the store after the call,
the tables a DELETE statement was sent for, in the order of sending, and the
result. -/
def ProjectRepository.DeleteProject (env : Env) (db : DB) (projectID : Nat) :
    DB × List String × Except String Unit :=
  match env.fails .begin with
  | some e => (db, [], .error e)
  | none =>
  match deleteProjectLoop env projectID db [] deleteProjectTables with
  | (tx1, sent, some e) => (rollback db tx1, sent, .error e)
  | (tx1, sent, none) =>
  match env.fails (.deleteProject projectID) with
  | some e => (rollback db tx1, sent ++ ["projects"], .error e)
  | none =>
  let tx2 : DB := { tx1 with projects := tx1.projects.filter (fun p => p.ID ≠ projectID) }
  match env.fails .commit with
  | some e => (rollback db tx2, sent ++ ["projects"], .error e)
  | none => (tx2, sent ++ ["projects"], .ok ())

/-- The method `AdminService.DeleteProject`. -/
def AdminService.DeleteProject (env : Env) (db : DB) (projectID : Nat) :
    DB × List String × Except String Unit :=
  ProjectRepository.DeleteProject env db projectID

/-- A store with the projects 7 and 8, each with an image, a goal, a tag, an update and a
comment. -/
def catalogueDB : DB :=
  { projects := [{ ID := 7, Status := "active" }, { ID := 8, Status := "active" }]
    projectGoals := [{ ID := 1, ProjectID := 7, Amount := 1000 },
                     { ID := 2, ProjectID := 8, Amount := 500 }]
    projectImages := [{ ID := 1, ProjectID := 7 }, { ID := 2, ProjectID := 8 }]
    projectTagRelations := [{ ProjectID := 7, TagID := 1 }, { ProjectID := 8, TagID := 1 }]
    projectUpdates := [{ ID := 1, ProjectID := 7 }, { ID := 2, ProjectID := 8 }]
    projectComments := [{ ID := 1, ProjectID := 7 }, { ID := 2, ProjectID := 8 }]
    nextProjectGoalID := 3 }

/-! ## Logout and the token blacklist (`user_service.go`, `jwt.go`, `auth.go`) -/

/-- The function `util.ValidateToken`: the `user_id` claim of a token that `jwt.Parse` finds
valid. -/
def util.ValidateToken (env : Env) (tokenString : String) : Except String Int :=
  if tokenString = "" then .error "令牌为空"
  else
  match env.jwtParse tokenString with
  | .error e => .error e
  | .ok claims =>
    match ((claims.find? (fun claim => claim.1 = "user_id")).map (fun claim => claim.2) :
        Option Json) with
    | some (Json.int userID) => .ok userID
    | _ => .error "无效的用户ID"

/-- The map `tokenBlacklist` of the user service: at most one entry per token, the token
and the time until which it stays on the list. -/
abbrev TokenBlacklist := List (String × Nat)

/-- The method `UserService.Logout`: generates a token for the user and puts that token on
the blacklist for 24 hours. -/
def UserService.Logout (env : Env) (userID : Nat) (blacklist : TokenBlacklist) :
    TokenBlacklist × Option String :=
  match util.GenerateToken env userID with
  | .error e => (blacklist, some e)
  | .ok token =>
    ((token, env.now + 86400) :: blacklist.filter (fun entry => entry.1 ≠ token), none)

/-- The method `UserService.IsTokenBlacklisted`: an entry that has run out is deleted. -/
def UserService.IsTokenBlacklisted (env : Env) (token : String) (blacklist : TokenBlacklist) :
    TokenBlacklist × Bool :=
  match blacklist.find? (fun entry => entry.1 = token) with
  | none => (blacklist, false)
  | some entry =>
    if env.now > entry.2 then (blacklist.filter (fun other => other.1 ≠ token), false)
    else (blacklist, true)

/-- The call `strings.SplitN(s, " ", 2)` on the characters of a string: the parts before and
after the first blank, `none` when there is no blank (one part). -/
def splitAtBlank : List Char → Option (List Char × List Char)
  | [] => none
  | c :: cs =>
    if c = ' ' then some ([], cs)
    else
      match splitAtBlank cs with
      | none => none
      | some (before, after) => some (c :: before, after)

/-- The function `AuthMiddleware` on the header `Authorization` of a request: the blacklist
after the check and either the answer with which the request is aborted or the
user id with which it is passed on.  `timedOut` says whether the five seconds
of the request context have run out when the checks are done. -/
def AuthMiddleware (env : Env) (blacklist : TokenBlacklist) (authHeader : String)
    (timedOut : Bool) : TokenBlacklist × Except Response Int :=
  if authHeader = "" then
    (blacklist, .error (errors.HandleError (.app (errors.New errors.ErrUnauthorized "需要认证"))))
  else
  match splitAtBlank authHeader.data with
  | none =>
    (blacklist,
      .error (errors.HandleError (.app (errors.New errors.ErrUnauthorized "无效的认证格式"))))
  | some (scheme, token) =>
  if scheme ≠ "Bearer".data then
    (blacklist,
      .error (errors.HandleError (.app (errors.New errors.ErrUnauthorized "无效的认证格式"))))
  else
  match UserService.IsTokenBlacklisted env (String.mk token) blacklist with
  | (blacklist1, true) =>
    (blacklist1,
      .error (errors.HandleError (.app (errors.New errors.ErrUnauthorized "令牌已被撤销"))))
  | (blacklist1, false) =>
  match util.ValidateToken env (String.mk token) with
  | .error e =>
    (blacklist1,
      .error (errors.HandleError
        (.app (errors.Wrap errors.ErrUnauthorized "无效或过期的令牌" (.other e)))))
  | .ok userID =>
    if timedOut then
      (blacklist1, .error (errors.HandleError (.app (errors.New errors.ErrTimeout "请求超时"))))
    else (blacklist1, .ok userID)

/-- An environment at the given time, in which `jwt.Parse` accepts the tokens of the default
signer until they expire. -/
def sessionEnv (now : Nat) : Env :=
  { now := now
    year := 2024
    jwtParse := fun token =>
      if token = "jwt.3.86500" ∧ now < 86500 then .ok [("exp", .int 86500), ("user_id", .int 3)]
      else .error "signature is invalid" }

/-- The number that a list of decimal digit characters writes. -/
def digitsValue (l : List Char) : Nat :=
  l.foldl (fun acc c => acc * 10 + (c.toNat - 48)) 0

/-! ## Updates of a user (`user_repo.go`, `admin_service.go`, `user_service.go`,
`email_service.go`) -/

/-- The statement `UPDATE users SET username = ?, email = ?, avatar_url = ?, bio = ?,
updated_at = ? WHERE id = ?` on one row: five columns, none of them `role`,
`password_hash`, `is_verified` or `deleted_at`. -/
def setUser (now : Nat) (user : User) (u : User) : User :=
  if u.ID = user.ID then
    { u with
      Username := user.Username
      Email := user.Email
      AvatarURL := user.AvatarURL
      Bio := user.Bio
      UpdatedAt := now }
  else u

/-- The method `userRepository.Update`, on `r.db`. -/
def userRepository.Update (env : Env) (user : User) (db : DB) : DB × Option GoError :=
  match env.fails (.updateUser user.ID) with
  | some e => (db, some (.other e))
  | none => ({ db with users := db.users.map (setUser env.now user) }, none)

/-- The method `AdminService.UpdateUserRole`, with the MySQL repository (which returns no nil
user without an error). -/
def AdminService.UpdateUserRole (env : Env) (db : DB) (userID : Nat) (role : String) :
    DB × Option GoError :=
  match userRepository.FindByID env userID db with
  | (_, .error err) => (db, some err)
  | (_, .ok user) => userRepository.Update env { user with Role := role } db

/-- The method `UserService.DeleteAccount`. -/
def UserService.DeleteAccount (env : Env) (db : DB) (userID : Nat) : DB × Option GoError :=
  match UserService.GetUserByID env db userID with
  | .error e => (db, some (.other e))
  | .ok user => userRepository.Update env { user with DeletedAt := some env.now } db

/-- The string claim of a token under a key, when there is one. -/
def stringClaim (claims : List (String × Json)) (key : String) : Option String :=
  match ((claims.find? (fun claim => claim.1 = key)).map (fun claim => claim.2) : Option Json) with
  | some (Json.str value) => some value
  | _ => none

/-- The method `EmailService.VerifyEmailToken`: the id of the user whose address the token
carries. -/
def EmailService.VerifyEmailToken (env : Env) (db : DB) (tokenString : String) :
    Except String Nat :=
  match env.jwtParse tokenString with
  | .error e => .error ("无效的令牌: " ++ e)
  | .ok claims =>
    match stringClaim claims "email" with
    | none => .error "无效的令牌: 缺少邮箱信息"
    | some email =>
      match userRepository.FindByEmail env email db with
      | (_, .error err) => .error ("获取用户ID失败: 查找用户失败: " ++ err.Error)
      | (_, .ok user) => .ok user.ID

/-- The method `EmailService.VerifyPasswordResetToken`: the address that the token carries. -/
def EmailService.VerifyPasswordResetToken (env : Env) (tokenString : String) :
    Except String String :=
  match env.jwtParse tokenString with
  | .error e => .error ("无效的令牌: " ++ e)
  | .ok claims =>
    match stringClaim claims "email" with
    | none => .error "无效的令牌: 缺少邮箱信息"
    | some email =>
      if stringClaim claims "type" = some "password_reset" then .ok email
      else .error "无效的令牌类型"

/-- The method `UserService.VerifyEmail`. -/
def UserService.VerifyEmail (env : Env) (db : DB) (token : String) : DB × Option GoError :=
  match EmailService.VerifyEmailToken env db token with
  | .error e => (db, some (.other e))
  | .ok userID =>
  match userRepository.FindByID env userID db with
  | (_, .error err) => (db, some err)
  | (_, .ok user) =>
  if user.IsVerified then
    (db, some (.app (errors.New errors.ErrResourceExists "email already verified")))
  else userRepository.Update env { user with IsVerified := true } db

/-- The method `UserService.ResetPassword`. -/
def UserService.ResetPassword (env : Env) (db : DB) (token newPassword : String) :
    DB × Option GoError :=
  match EmailService.VerifyPasswordResetToken env token with
  | .error e => (db, some (.other e))
  | .ok email =>
  match userRepository.FindByEmail env email db with
  | (_, .error err) => (db, some err)
  | (_, .ok user) =>
  match env.bcryptGenerate newPassword with
  | .error e => (db, some (.other e))
  | .ok hashedPassword => userRepository.Update env { user with PasswordHash := hashedPassword } db

/-- A store with the unverified user 3, `alice`, whose role is `user`. -/
def accountDB : DB :=
  { users :=
      [{ ID := 3, Username := "alice", Email := "alice@example.com",
         PasswordHash := "$2a$10$old-password", Role := "user", IsVerified := false }]
    nextUserID := 4 }

/-- An environment at time 20 in which `jwt.Parse` accepts a verification token and a
password reset token for the address of `alice`. -/
def accountEnv : Env :=
  { now := 20
    year := 2024
    jwtParse := fun token =>
      if token = "verify-token" then
        .ok [("email", .str "alice@example.com"), ("exp", .int 86420)]
      else if token = "reset-token" then
        .ok [("email", .str "alice@example.com"), ("exp", .int 3620),
             ("type", .str "password_reset")]
      else .error "signature is invalid" }

/-! ## Refund requests of the user (`refund_service.go`) -/

/-- The method `RefundService.RequestRefund`. -/
def RefundService.RequestRefund (env : Env) (db : DB) (orderID userID : Nat) (reason : String) :
    DB × Except String Unit :=
  match PaymentRepository.GetOrderByID env db orderID with
  | .error e => (db, .error e)
  | .ok none => (db, .error "订单不存在")
  | .ok (some order) =>
  if order.UserID ≠ userID then (db, .error "订单不属于当前用户")
  else
  match PaymentRepository.GetRefundStatus env db orderID with
  | .error e => (db, .error e)
  | .ok (some refundRequest) =>
    (db, .error ("该订单已存在退款申请，状态为：" ++ refundRequest.Status))
  | .ok none =>
  match PaymentRepository.CreateRefundRequest env db
      { ID := 0, OrderID := orderID, UserID := userID, Reason := reason, Status := "pending" } with
  | (db1, .error e) => (db1, .error e)
  | (db1, .ok _) => (db1, .ok ())

/-- A call of one of the two operations with which a user asks for a refund. -/
inductive RefundCall where
  | RequestRefundForFailedProject (orderID userID : Nat)
  | RequestRefund (orderID userID : Nat) (reason : String)

/-- The store after a call, whether it returned an error or not. -/
def RefundCall.run (env : Env) (db : DB) : RefundCall → DB
  | .RequestRefundForFailedProject orderID userID =>
    (PaymentService.RequestRefundForFailedProject env db orderID userID).1
  | .RequestRefund orderID userID reason =>
    (RefundService.RequestRefund env db orderID userID reason).1

/-- The store after a sequence of calls, each with the environment it runs in. -/
def runRefundCalls (db : DB) : List (Env × RefundCall) → DB
  | [] => db
  | step :: rest => runRefundCalls (step.2.run step.1 db) rest

/-- The refund requests of an order. -/
def requestsOfOrder (db : DB) (orderID : Nat) : List RefundRequest :=
  db.refundRequests.filter (fun r => r.OrderID = orderID)

/-- A store with the paid orders 1, 2 and 3 of user 3, all sent to the stored address 5:
order 1 has a rejected refund request, order 2 an approved one, order 3 none. -/
def decidedRefundsDB : DB :=
  { projects := [{ ID := 7, Status := "failed", EndDate := 10 }]
    userAddresses := [{ ID := 5, UserID := 3, City := "Hangzhou", IsDefault := true }]
    orders :=
      [{ ID := 1, UserID := 3, ProjectID := 7, PledgeID := 1, Amount := 800, Status := "paid",
         AddressID := some 5 },
       { ID := 2, UserID := 3, ProjectID := 7, PledgeID := 2, Amount := 100, Status := "refunded",
         AddressID := some 5 },
       { ID := 3, UserID := 3, ProjectID := 7, PledgeID := 3, Amount := 50, Status := "paid",
         AddressID := some 5 }]
    refundRequests :=
      [{ ID := 1, OrderID := 1, UserID := 3, Reason := "用户申请退款", Status := "rejected" },
       { ID := 2, OrderID := 2, UserID := 3, Reason := "用户申请退款", Status := "approved" }]
    nextPledgeID := 4
    nextOrderID := 4
    nextRefundRequestID := 3
    nextUserAddressID := 6 }

/-! ## Pagination of the list handlers (`community.go`, `admin.go`, `community_repo.go`) -/

/-- A Go `int` (64 bits) after an arithmetic operation: the result wraps around. -/
def wrapInt64 (x : Int) : Int :=
  (x + 2 ^ 63) % 2 ^ 64 - 2 ^ 63

/-- The division `a / b` of two Go `int`s: a zero divisor panics, the quotient is truncated
toward zero. -/
def goDiv (a b : Int) : Outcome Int :=
  if b = 0 then .panicked "runtime error: integer divide by zero"
  else .returned (wrapInt64 (Int.tdiv a b))

/-- The function `strconv.Atoi`: an optional sign and decimal digits.  Text of any other shape
gives 0 and a syntax error, a number outside the 64 bits gives the nearest
limit and a range error (the handlers drop the error). -/
def strconv.Atoi (s : String) : Int × Option String :=
  let negative : Bool := s.data.head? = some '-'
  let digits : List Char :=
    if s.data.head? = some '-' ∨ s.data.head? = some '+' then s.data.tail else s.data
  if digits = [] ∨ ¬ digits.all (fun c => decide (48 ≤ c.toNat ∧ c.toNat ≤ 57)) then
    (0, some "invalid syntax")
  else
    let value : Int := if negative then -(digitsValue digits : Int) else (digitsValue digits : Int)
    if value > 2 ^ 63 - 1 then (2 ^ 63 - 1, some "value out of range")
    else if value < -(2 ^ 63) then (-(2 ^ 63), some "value out of range")
    else (value, none)

/-- The call `strconv.Atoi(c.DefaultQuery(key, fallback))` with the error dropped: `param` is
the value of the query parameter when the request has it. -/
def queryInt (param : Option String) (fallback : String) : Int :=
  (strconv.Atoi (param.getD fallback)).1

/-- The rows of a result `ORDER BY created_at DESC`. -/
def postsByCreatedAtDesc (l : List Post) : List Post :=
  l.insertionSort (fun a b => b.CreatedAt ≤ a.CreatedAt)

/-- The method `communityRepository.ListPosts`: the page and the number of all posts.  The
server refuses a negative `LIMIT` or `OFFSET`. -/
def communityRepository.ListPosts (env : Env) (db : DB) (page pageSize : Int) :
    Except String (List Post × Int) :=
  match env.fails .countPosts with
  | some e => .error e
  | none =>
  let total : Int := db.posts.length
  let offset := wrapInt64 ((page - 1) * pageSize)
  match env.fails .listPosts with
  | some e => .error e
  | none =>
  if pageSize < 0 ∨ offset < 0 then .error "Error 1064: You have an error in your SQL syntax"
  else .ok (((postsByCreatedAtDesc db.posts).drop offset.toNat).take pageSize.toNat, total)

/-- The expression `(total + pageSize - 1) / pageSize` of the list handlers. -/
def totalPages (total pageSize : Int) : Outcome Int :=
  goDiv (wrapInt64 (wrapInt64 (total + pageSize) - 1)) pageSize

/-- The JSON of a post (the columns of the model). -/
def Post.toJson (p : Post) : Json :=
  .obj [("id", .int p.ID), ("user_id", .int p.UserID), ("content", .str p.Content),
    ("created_at", .int p.CreatedAt)]

/-- The method `CommunityHandler.ListPosts` (the community service passes the call on to the
repository).  `pageParam` and `pageSizeParam` are the query parameters `page`
and `page_size` when the request has them. -/
def CommunityHandler.ListPosts (env : Env) (db : DB) (pageParam pageSizeParam : Option String) :
    Outcome Response :=
  let page := queryInt pageParam "1"
  let pageSize := queryInt pageSizeParam "10"
  match communityRepository.ListPosts env db page pageSize with
  | .error _ => .returned { status := 500, body := codeMessage 500 "获取帖子列表失败" }
  | .ok (posts, total) =>
    match totalPages total pageSize with
    | .panicked message => .panicked message
    | .returned pages =>
      .returned
        { status := 200
          body := .obj [("code", .int 200),
            ("data", .obj [("posts", .arr (posts.map Post.toJson)),
              ("pagination", .obj [("total", .int total), ("page", .int page),
                ("page_size", .int pageSize), ("total_pages", .int pages)])])] }

/-- The member `data.pagination.total_pages` of an answer. -/
def totalPagesOf (r : Response) : Option Json :=
  ((r.body.get? "data").bind (fun data => data.get? "pagination")).bind
    (fun pagination => pagination.get? "total_pages")

/-! ## Retry (`common/retry.go`) -/

/-- What `IsRetryable` asks of an error value: whether its type has a method `Temporary()`
and what that returns, and whether the value is `sql.ErrConnDone`. -/
structure RetryError where
  text : String
  temporary : Option Bool := none
  isConnDone : Bool := false
  deriving DecidableEq

/-- The function `IsTemporary`. -/
def IsTemporary (err : RetryError) : Bool :=
  match err.temporary with
  | some temp => temp
  | none => false

/-- The function `IsRetryable`. -/
def IsRetryable (err : RetryError) : Bool :=
  IsTemporary err || err.isConnDone

/-- The loop of `WithRetry` from round `i` on, with `remaining` rounds to go: `operation` acts
on a state and returns nil or an error, `sleep d` is `time.Sleep` of `d`
seconds, `err` is the variable `err` of the function. -/
def withRetryLoop {σ : Type} (operation : σ → σ × Option RetryError) (sleep : Nat → σ → σ) :
    Nat → Nat → Option RetryError → σ → σ × Option RetryError
  | 0, _, err, s => (s, err)
  | remaining + 1, i, _, s =>
    match operation s with
    | (s1, none) => (s1, none)
    | (s1, some err) =>
      if !IsRetryable err then (s1, some err)
      else withRetryLoop operation sleep remaining (i + 1) (some err) (sleep (i + 1) s1)

/-- The function `common.WithRetry`. -/
def WithRetry {σ : Type} (operation : σ → σ × Option RetryError) (sleep : Nat → σ → σ)
    (maxRetries : Int) (s : σ) : σ × Option RetryError :=
  withRetryLoop operation sleep maxRetries.toNat 0 none s

/-- An operation together with the record of what its calls returned, in order. -/
def recorded {σ : Type} (operation : σ → σ × Option RetryError) :
    σ × List (Option RetryError) → (σ × List (Option RetryError)) × Option RetryError :=
  fun state => (((operation state.1).1, state.2 ++ [(operation state.1).2]), (operation state.1).2)

/-- The pause `sleep` on a state with a record. -/
def recordedSleep {σ : Type} (sleep : Nat → σ → σ) :
    Nat → σ × List (Option RetryError) → σ × List (Option RetryError) :=
  fun d state => (sleep d state.1, state.2)

/-- An operation on a counter of calls that fails with a temporary error until the call with
the given number, which returns nil. -/
def succeedsAtCall (n : Nat) : Nat → Nat × Option RetryError :=
  fun calls =>
    if calls + 1 = n then (calls + 1, none)
    else (calls + 1, some { text := "i/o timeout", temporary := some true })

/-! ## Theorems: ProcessPayment -/

theorem addAmountToProject_ID (now : Nat) (amount : ℚ) (projectID : Nat) (p : Project) :
    (addAmountToProject now amount projectID p).ID = p.ID := by
  unfold addAmountToProject
  split <;> rfl

theorem find?_map_addAmountToProject (now : Nat) (amount : ℚ) (projectID id : Nat)
    (ps : List Project) :
    (ps.map (addAmountToProject now amount projectID)).find? (fun p => p.ID = id)
      = (ps.find? (fun p => p.ID = id)).map (addAmountToProject now amount projectID) := by
  induction ps with
  | nil => rfl
  | cons p ps ih =>
    simp only [List.map_cons, List.find?_cons, addAmountToProject_ID]
    split
    · rfl
    · exact ih

/-- What a successful `ProcessPayment` has read, returned and written. -/
theorem ProcessPayment_ok_inv (env : Env) (db : DB) (payment : Payment) (addressID : Nat)
    (order : Order) (h : (PaymentService.ProcessPayment env db payment addressID).2 = .ok order) :
    ∃ project, ProjectRepository.GetProjectByID env db payment.ProjectID = .ok (some project) ∧
      order.IsReward = decide (payment.Amount ≥ project.MinRewardAmount) ∧
      order.UserID = payment.UserID ∧ order.ProjectID = payment.ProjectID ∧
      order.Amount = payment.Amount ∧ order.PledgeID = db.nextPledgeID ∧
      (PaymentService.ProcessPayment env db payment addressID).1.pledges
        = db.pledges ++ [pledgeRow env db payment addressID] ∧
      (PaymentService.ProcessPayment env db payment addressID).1.orders = db.orders ++ [order] ∧
      (PaymentService.ProcessPayment env db payment addressID).1.projects
        = db.projects.map (addAmountToProject env.now payment.Amount payment.ProjectID) := by
  revert h
  simp only [PaymentService.ProcessPayment, ProjectRepository.GetProjectByID]
  cases env.fails .begin with
  | some e => simp
  | none =>
  cases env.fails (.getProjectByID payment.ProjectID) with
  | some e => simp
  | none =>
  cases hf : db.projects.find? (fun p => decide (p.ID = payment.ProjectID)) with
  | none => simp
  | some project =>
  cases env.fails .insertPledge with
  | some e => simp
  | none =>
  cases env.fails .pledgeLastInsertId with
  | some e => simp
  | none =>
  cases env.fails .insertOrder with
  | some e => simp
  | none =>
  cases env.fails .orderLastInsertId with
  | some e => simp
  | none =>
  cases env.fails (.updateProjectAmount payment.ProjectID) with
  | some e => simp
  | none =>
  cases env.fails .commit with
  | some e => simp
  | none =>
  intro h
  injection h with h
  subst h
  exact ⟨project, rfl, rfl, rfl, rfl, rfl, rfl, rfl, rfl, rfl⟩

/-- Without database failures `ProcessPayment` returns an order for every
payment to an existing project. -/
theorem ProcessPayment_succeeds (env : Env) (db : DB) (payment : Payment) (addressID : Nat)
    (project : Project) (hf : ∀ c, env.fails c = none)
    (hp : db.projects.find? (fun p => p.ID = payment.ProjectID) = some project) :
    ∃ order, (PaymentService.ProcessPayment env db payment addressID).2 = .ok order := by
  simp [PaymentService.ProcessPayment, ProjectRepository.GetProjectByID, hf, hp]

/-- C1: whenever `ProcessPayment` returns an order, the project it paid into was
stored before the call and its stored `total_amount` is the old value plus the
amount; the stored `total_amount` of every other project is unchanged; exactly
one pledge row and one order row (the returned order, which carries the user,
project, amount and pledge id of the payment) have been appended. -/
theorem C1_processPayment_applies (env : Env) (db : DB) (payment : Payment) (addressID : Nat)
    (order : Order) (h : (PaymentService.ProcessPayment env db payment addressID).2 = .ok order) :
    (∃ before, totalAmountOf db payment.ProjectID = some before ∧
      totalAmountOf (PaymentService.ProcessPayment env db payment addressID).1 payment.ProjectID
        = some (before + payment.Amount)) ∧
    (∀ id, id ≠ payment.ProjectID →
      totalAmountOf (PaymentService.ProcessPayment env db payment addressID).1 id
        = totalAmountOf db id) ∧
    (PaymentService.ProcessPayment env db payment addressID).1.pledges
      = db.pledges ++ [pledgeRow env db payment addressID] ∧
    (PaymentService.ProcessPayment env db payment addressID).1.orders = db.orders ++ [order] ∧
    order.UserID = payment.UserID ∧ order.ProjectID = payment.ProjectID ∧
    order.Amount = payment.Amount ∧ order.PledgeID = (pledgeRow env db payment addressID).ID := by
  obtain ⟨project, hp, -, hu, hpr, ha, hpl, hpledges, horders, hprojects⟩ :=
    ProcessPayment_ok_inv env db payment addressID order h
  have hfind : db.projects.find? (fun p => p.ID = payment.ProjectID) = some project := by
    revert hp
    simp only [ProjectRepository.GetProjectByID]
    cases env.fails (.getProjectByID payment.ProjectID) with
    | some e => simp
    | none => simp
  refine ⟨⟨project.TotalAmount, ?_, ?_⟩, ?_, hpledges, horders, hu, hpr, ha, hpl⟩
  · simp [totalAmountOf, hfind]
  · have hid : project.ID = payment.ProjectID := by
      have := List.find?_some hfind
      simpa using this
    rw [totalAmountOf, hprojects, find?_map_addAmountToProject, hfind]
    simp [addAmountToProject, hid]
  · intro id hne
    rw [totalAmountOf, hprojects, find?_map_addAmountToProject, totalAmountOf]
    cases hq : db.projects.find? (fun p => p.ID = id) with
    | none => rfl
    | some q =>
      have hid : q.ID = id := by
        have := List.find?_some hq
        simpa using this
      simp [addAmountToProject, hid, hne]

theorem C1_processPayment_applies_witness :
    (PaymentService.ProcessPayment exampleEnv exampleDB examplePayment 5).2 = .ok exampleOrder ∧
    totalAmountOf exampleDB 7 = some 0 ∧
    totalAmountOf (PaymentService.ProcessPayment exampleEnv exampleDB examplePayment 5).1 7
      = some 1200 := by
  have h : (PaymentService.ProcessPayment exampleEnv exampleDB examplePayment 5).2
      = .ok exampleOrder := by rfl
  obtain ⟨⟨before, hb, ha⟩, -⟩ :=
    C1_processPayment_applies exampleEnv exampleDB examplePayment 5 exampleOrder h
  have hb0 : totalAmountOf exampleDB 7 = some 0 := by decide
  refine ⟨h, hb0, ?_⟩
  have : before = 0 := by
    have h2 : totalAmountOf exampleDB examplePayment.ProjectID = some 0 := hb0
    rw [hb] at h2
    exact Option.some.inj h2
  subst this
  rw [show (7 : Nat) = examplePayment.ProjectID from rfl, ha]
  simp [examplePayment]

/-- C2: whenever `ProcessPayment` returns an error, whichever step failed (begin,
project lookup, missing project, pledge insert, order insert, reading an
inserted id, project update, commit), every table of the store holds exactly
the rows it held before the call. -/
theorem C2_processPayment_error_leaves_tables (env : Env) (db : DB) (payment : Payment)
    (addressID : Nat) (e : String)
    (h : (PaymentService.ProcessPayment env db payment addressID).2 = .error e) :
    (PaymentService.ProcessPayment env db payment addressID).1.pledges = db.pledges ∧
    (PaymentService.ProcessPayment env db payment addressID).1.orders = db.orders ∧
    (PaymentService.ProcessPayment env db payment addressID).1.projects = db.projects ∧
    (PaymentService.ProcessPayment env db payment addressID).1.projectGoals = db.projectGoals ∧
    (PaymentService.ProcessPayment env db payment addressID).1.refundRequests
      = db.refundRequests ∧
    (PaymentService.ProcessPayment env db payment addressID).1.userAddresses
      = db.userAddresses := by
  revert h
  simp only [PaymentService.ProcessPayment, ProjectRepository.GetProjectByID]
  cases env.fails .begin with
  | some e => simp
  | none =>
  cases env.fails (.getProjectByID payment.ProjectID) with
  | some e => simp
  | none =>
  cases hf : db.projects.find? (fun p => decide (p.ID = payment.ProjectID)) with
  | none => simp
  | some project =>
  cases env.fails .insertPledge with
  | some e => simp
  | none =>
  cases env.fails .pledgeLastInsertId with
  | some e => simp [rollback]
  | none =>
  cases env.fails .insertOrder with
  | some e => simp [rollback]
  | none =>
  cases env.fails .orderLastInsertId with
  | some e => simp [rollback]
  | none =>
  cases env.fails (.updateProjectAmount payment.ProjectID) with
  | some e => simp [rollback]
  | none =>
  cases env.fails .commit with
  | some e => simp [rollback]
  | none => simp

theorem C2_processPayment_error_leaves_tables_witness :
    (PaymentService.ProcessPayment (failingAt .commit) exampleDB examplePayment 5).2
      = .error "failed to commit transaction: driver: bad connection" ∧
    (PaymentService.ProcessPayment (failingAt .commit) exampleDB examplePayment 5).1.pledges
      = exampleDB.pledges ∧
    (PaymentService.ProcessPayment (failingAt .commit) exampleDB examplePayment 5).1.orders
      = exampleDB.orders ∧
    (PaymentService.ProcessPayment (failingAt .commit) exampleDB examplePayment 5).1.projects
      = exampleDB.projects :=
  have h : (PaymentService.ProcessPayment (failingAt .commit) exampleDB examplePayment 5).2
      = .error "failed to commit transaction: driver: bad connection" := by rfl
  have t := C2_processPayment_error_leaves_tables (failingAt .commit) exampleDB examplePayment 5
    _ h
  ⟨h, t.1, t.2.1, t.2.2.1⟩

/-- The failures that make `ProcessPayment` return an error: each of the steps
named in the claim, when it is the failing one, yields an error result. -/
theorem ProcessPayment_error_cases (env : Env) (db : DB) (payment : Payment) (addressID : Nat)
    (hcase : (∃ e, env.fails .begin = some e) ∨
      (∃ e, env.fails (.getProjectByID payment.ProjectID) = some e) ∨
      db.projects.find? (fun p => p.ID = payment.ProjectID) = none ∨
      (∃ e, env.fails .insertPledge = some e) ∨
      (∃ e, env.fails .pledgeLastInsertId = some e) ∨
      (∃ e, env.fails .insertOrder = some e) ∨
      (∃ e, env.fails .orderLastInsertId = some e) ∨
      (∃ e, env.fails (.updateProjectAmount payment.ProjectID) = some e) ∨
      (∃ e, env.fails .commit = some e)) :
    ∃ e, (PaymentService.ProcessPayment env db payment addressID).2 = .error e := by
  revert hcase
  simp only [PaymentService.ProcessPayment, ProjectRepository.GetProjectByID]
  cases env.fails .begin with
  | some e => simp
  | none =>
  cases env.fails (.getProjectByID payment.ProjectID) with
  | some e => simp
  | none =>
  cases hf : db.projects.find? (fun p => decide (p.ID = payment.ProjectID)) with
  | none => simp
  | some project =>
  cases env.fails .insertPledge with
  | some e => simp
  | none =>
  cases env.fails .pledgeLastInsertId with
  | some e => simp
  | none =>
  cases env.fails .insertOrder with
  | some e => simp
  | none =>
  cases env.fails .orderLastInsertId with
  | some e => simp
  | none =>
  cases env.fails (.updateProjectAmount payment.ProjectID) with
  | some e => simp
  | none =>
  cases env.fails .commit with
  | some e => simp
  | none => simp

/-- C3: for every order returned by `ProcessPayment`, `IsReward` is true exactly
when the amount of the payment is at least the `MinRewardAmount` of the project
row read during the call; in particular it is true when the two are equal. -/
theorem C3_isReward_iff (env : Env) (db : DB) (payment : Payment) (addressID : Nat)
    (order : Order) (h : (PaymentService.ProcessPayment env db payment addressID).2 = .ok order) :
    ∃ project, ProjectRepository.GetProjectByID env db payment.ProjectID = .ok (some project) ∧
      (order.IsReward = true ↔ payment.Amount ≥ project.MinRewardAmount) ∧
      (payment.Amount = project.MinRewardAmount → order.IsReward = true) := by
  obtain ⟨project, hp, hr, -⟩ := ProcessPayment_ok_inv env db payment addressID order h
  refine ⟨project, hp, ?_, ?_⟩
  · rw [hr]
    exact decide_eq_true_iff
  · intro heq
    rw [hr, heq]
    simp

theorem C3_isReward_iff_witness :
    (PaymentService.ProcessPayment exampleEnv exampleDB examplePayment 5).2 = .ok exampleOrder ∧
    examplePayment.Amount = 1200 ∧ exampleOrder.IsReward = true ∧
    ∃ project, ProjectRepository.GetProjectByID exampleEnv exampleDB examplePayment.ProjectID
        = .ok (some project) ∧
      (exampleOrder.IsReward = true ↔ examplePayment.Amount ≥ project.MinRewardAmount) ∧
      (examplePayment.Amount = project.MinRewardAmount → exampleOrder.IsReward = true) :=
  ⟨by rfl, rfl, rfl,
    C3_isReward_iff exampleEnv exampleDB examplePayment 5 exampleOrder (by rfl)⟩

/-! ## Theorems: refunds -/

/-- The row of `SELECT r.*, o.*` never has the 17 columns that `GetRefundRequestByID` scans. -/
theorem scanArity_request_order (env : Env) :
    ∃ e, scanArity (refundRequestsColumns env + ordersColumns env) 17 = some e := by
  have hne : refundRequestsColumns env + ordersColumns env ≠ 17 := by
    simp only [refundRequestsColumns, ordersColumns]
    omega
  exact ⟨_, if_neg hne⟩

/-- The method `GetRefundRequestByID` returns no request: for an id that is stored the scan
of the row fails, for any other id there is no row. -/
theorem GetRefundRequestByID_no_request (env : Env) (db : DB) (requestID : Nat) :
    (∃ e, PaymentRepository.GetRefundRequestByID env db requestID = .error e) ∨
    PaymentRepository.GetRefundRequestByID env db requestID = .ok none := by
  simp only [PaymentRepository.GetRefundRequestByID]
  cases env.fails (.getRefundRequestByID requestID) with
  | some e => exact Or.inl ⟨e, rfl⟩
  | none =>
    cases db.refundRequests.find? (fun r => decide (r.ID = requestID)) with
    | none => exact Or.inr rfl
    | some request =>
      obtain ⟨e, he⟩ := scanArity_request_order env
      simp only [he]
      exact Or.inl ⟨e, rfl⟩

/-- Both `ProcessRefund` return an error and the store they found, whatever the request, the
decision and the failures of the database. -/
theorem ProcessRefund_returns_error (env : Env) (db : DB) (requestID : Nat) (approved : Bool)
    (comment : String) :
    ((∃ e, (RefundService.ProcessRefund env db requestID approved comment).2 = .error e) ∧
      (RefundService.ProcessRefund env db requestID approved comment).1 = db) ∧
    ((∃ e, (AdminService.ProcessRefund env db requestID approved comment).2 = .error e) ∧
      (AdminService.ProcessRefund env db requestID approved comment).1 = db) := by
  constructor
  · simp only [RefundService.ProcessRefund]
    cases env.fails .begin with
    | some e => exact ⟨⟨e, rfl⟩, rfl⟩
    | none =>
      rcases GetRefundRequestByID_no_request env db requestID with ⟨e, he⟩ | he
      · rw [he]
        exact ⟨⟨e, rfl⟩, rfl⟩
      · rw [he]
        exact ⟨⟨_, rfl⟩, rfl⟩
  · simp only [AdminService.ProcessRefund]
    rcases GetRefundRequestByID_no_request env db requestID with ⟨e, he⟩ | he
    · rw [he]
      exact ⟨⟨e, rfl⟩, rfl⟩
    · rw [he]
      exact ⟨⟨_, rfl⟩, rfl⟩

/-- C4: no call of `ProcessRefund` succeeds, so the decision of the claim is never stored.
For every request id, decision, comment and failure pattern of the database,
`RefundService.ProcessRefund` and `AdminService.ProcessRefund` return an error
and leave the store as they found it.  On the scenario of the claim, the
pending request 1 of the paid order 1 rejected with the comment `not eligible`,
the call returns the error of `Scan` (19 columns, 17 destinations) and the
request is still `pending` without a comment, the order still `paid`. -/
theorem C4_processRefund_never_succeeds (env : Env) (db : DB) (requestID : Nat)
    (approved : Bool) (comment : String) :
    (∃ e, (RefundService.ProcessRefund env db requestID approved comment).2 = .error e) ∧
    (RefundService.ProcessRefund env db requestID approved comment).1 = db ∧
    (∃ e, (AdminService.ProcessRefund env db requestID approved comment).2 = .error e) ∧
    (AdminService.ProcessRefund env db requestID approved comment).1 = db ∧
    refundDB.refundRequests.map (fun r => (r.ID, r.OrderID, r.Status)) = [(1, 1, "pending")] ∧
    (RefundService.ProcessRefund exampleEnv refundDB 1 false "not eligible").2
      = .error "sql: expected 19 destination arguments in Scan, not 17" ∧
    (AdminService.ProcessRefund exampleEnv refundDB 1 false "not eligible").2
      = .error "sql: expected 19 destination arguments in Scan, not 17" ∧
    (RefundService.ProcessRefund exampleEnv refundDB 1 false "not eligible").1.refundRequests.map
      (fun r => (r.Status, r.AdminComment)) = [("pending", "")] ∧
    (RefundService.ProcessRefund exampleEnv refundDB 1 false "not eligible").1.orders.map
      (fun o => o.Status) = ["paid"] := by
  obtain ⟨⟨h1, h2⟩, h3, h4⟩ := ProcessRefund_returns_error env db requestID approved comment
  exact ⟨h1, h2, h3, h4, by decide, by rfl, by rfl, by decide, by decide⟩

theorem latestRefundRequest_eq_none (rs : List RefundRequest) :
    latestRefundRequest rs = none ↔ rs = [] := by
  cases rs with
  | nil => simp [latestRefundRequest]
  | cons r rs =>
    simp only [latestRefundRequest]
    cases latestRefundRequest rs with
    | none => simp
    | some b => by_cases h : r.CreatedAt < b.CreatedAt <;> simp [h]

/-- What `GetOrderByID` returns: an error, no order, or the stored order with the given id,
read without a failure of the query. -/
theorem GetOrderByID_cases (env : Env) (db : DB) (orderID : Nat) :
    (∃ e, PaymentRepository.GetOrderByID env db orderID = .error e) ∨
    PaymentRepository.GetOrderByID env db orderID = .ok none ∨
    ∃ order, PaymentRepository.GetOrderByID env db orderID = .ok (some order) ∧
      env.fails (.getOrderByID orderID) = none ∧
      db.orders.find? (fun o => o.ID = orderID) = some order := by
  simp only [PaymentRepository.GetOrderByID]
  cases env.fails (.getOrderByID orderID) with
  | some e => exact Or.inl ⟨_, rfl⟩
  | none =>
    cases db.orders.find? (fun o => decide (o.ID = orderID)) with
    | none => exact Or.inr (Or.inl rfl)
    | some order =>
      simp only []
      cases joinedAddress db order with
      | none => exact Or.inl ⟨_, rfl⟩
      | some joined => exact Or.inr (Or.inr ⟨order, by simp⟩)

/-- An order whose `address_id` is the id of a stored address has a joined address row. -/
theorem joinedAddress_of_address (db : DB) (order : Order)
    (ha : ∃ a ∈ db.userAddresses, order.AddressID = some a.ID) :
    ∃ joined, joinedAddress db order = some joined := by
  obtain ⟨a, hmem, hid⟩ := ha
  cases hj : joinedAddress db order with
  | some joined => exact ⟨joined, rfl⟩
  | none =>
    exfalso
    simp only [joinedAddress, hid, Option.some_bind, List.find?_eq_none, decide_eq_true_eq] at hj
    exact hj a hmem rfl

/-- The method `GetOrderByID` returns the stored order with the given id when the query does
not fail and the order has a joined address row. -/
theorem GetOrderByID_of_address (env : Env) (db : DB) (orderID : Nat) (order : Order)
    (hf : env.fails (.getOrderByID orderID) = none)
    (ho : db.orders.find? (fun o => o.ID = orderID) = some order)
    (ha : ∃ a ∈ db.userAddresses, order.AddressID = some a.ID) :
    PaymentRepository.GetOrderByID env db orderID = .ok (some order) := by
  obtain ⟨joined, hj⟩ := joinedAddress_of_address db order ha
  simp only [PaymentRepository.GetOrderByID, hf, ho, hj]

theorem eq_singleton_of_nodup {l : List Nat} {k : Nat} (hnd : l.Nodup) (hall : ∀ x ∈ l, x = k)
    (hne : l ≠ []) : l = [k] := by
  match l, hnd, hall, hne with
  | [], _, _, hne => exact absurd rfl hne
  | [x], _, hall, _ => rw [hall x (List.mem_singleton_self x)]
  | x :: y :: rest, hnd, hall, _ =>
    have hx : x = k := hall x (List.mem_cons_self _ _)
    have hy : y = k := hall y (List.mem_cons_of_mem _ (List.mem_cons_self _ _))
    have hxy : x ≠ y := by
      intro h
      have := (List.nodup_cons.1 hnd).1
      exact this (h ▸ List.mem_cons_self _ _)
    exact absurd (hx.trans hy.symm) hxy

theorem setDefault_unsetDefault_ID (userID addressID : Nat) (a : UserAddress) :
    (setDefault userID addressID (unsetDefault userID a)).ID = a.ID := by
  unfold setDefault unsetDefault
  split <;> split <;> rfl

theorem setDefault_unsetDefault_UserID (userID addressID : Nat) (a : UserAddress) :
    (setDefault userID addressID (unsetDefault userID a)).UserID = a.UserID := by
  unfold setDefault unsetDefault
  split <;> split <;> rfl

theorem setDefault_unsetDefault_IsDefault (userID addressID : Nat) (a : UserAddress)
    (hu : a.UserID = userID) :
    (setDefault userID addressID (unsetDefault userID a)).IsDefault = decide (a.ID = addressID) := by
  unfold setDefault unsetDefault
  by_cases h : a.ID = addressID <;> simp [hu, h]

theorem setDefault_unsetDefault_other (userID addressID : Nat) (a : UserAddress)
    (hu : a.UserID ≠ userID) :
    setDefault userID addressID (unsetDefault userID a) = a := by
  unfold setDefault unsetDefault
  simp [hu]

theorem filter_other_users_setDefault (userID addressID : Nat) (l : List UserAddress) :
    (l.map (fun a => setDefault userID addressID (unsetDefault userID a))).filter
        (fun a => a.UserID ≠ userID)
      = l.filter (fun a => a.UserID ≠ userID) := by
  induction l with
  | nil => rfl
  | cons x xs ih =>
    simp only [List.map_cons, List.filter_cons, setDefault_unsetDefault_UserID]
    by_cases hx : x.UserID = userID
    · simpa [hx] using ih
    · simp only [hx, ne_eq, not_false_eq_true, decide_True, if_true, ih,
        setDefault_unsetDefault_other _ _ _ hx]

/-- What a successful `SetDefaultAddress` has found and written. -/
theorem SetDefaultAddress_ok_inv (env : Env) (db : DB) (userID addressID : Nat)
    (h : (userRepository.SetDefaultAddress env db userID addressID).2 = .ok ()) :
    (∃ a ∈ db.userAddresses, a.ID = addressID ∧ a.UserID = userID) ∧
    (userRepository.SetDefaultAddress env db userID addressID).1.userAddresses
      = db.userAddresses.map (fun a => setDefault userID addressID (unsetDefault userID a)) := by
  revert h
  simp only [userRepository.SetDefaultAddress]
  cases env.fails .begin with
  | some e => simp
  | none =>
  cases env.fails (.unsetDefaultAddresses userID) with
  | some e => simp
  | none =>
  cases env.fails (.setDefaultAddress userID addressID) with
  | some e => simp
  | none =>
  cases env.fails .rowsAffected with
  | some e => simp
  | none =>
  simp only []
  split
  · simp
  · rename_i haff
    cases env.fails .commit with
    | some e => simp
    | none =>
      intro _
      refine ⟨?_, by simp [List.map_map, Function.comp_def]⟩
      have hne := List.length_pos.1 (Nat.pos_of_ne_zero haff)
      obtain ⟨b, hb⟩ := List.exists_mem_of_ne_nil _ hne
      rw [List.mem_filter, List.mem_map] at hb
      obtain ⟨⟨a, ha, rfl⟩, hb2⟩ := hb
      refine ⟨a, ha, ?_⟩
      unfold unsetDefault at hb2
      split at hb2 <;> simp at hb2 <;> simp_all

/-- Whenever `SetDefaultAddress` returns an error, the stored addresses are unchanged. -/
theorem SetDefaultAddress_error_inv (env : Env) (db : DB) (userID addressID : Nat) (e : String)
    (h : (userRepository.SetDefaultAddress env db userID addressID).2 = .error e) :
    (userRepository.SetDefaultAddress env db userID addressID).1.userAddresses
      = db.userAddresses := by
  revert h
  simp only [userRepository.SetDefaultAddress]
  cases env.fails .begin with
  | some e => simp
  | none =>
  cases env.fails (.unsetDefaultAddresses userID) with
  | some e => simp
  | none =>
  cases env.fails (.setDefaultAddress userID addressID) with
  | some e => simp [rollback]
  | none =>
  cases env.fails .rowsAffected with
  | some e => simp [rollback]
  | none =>
  simp only []
  split
  · simp [rollback]
  · cases env.fails .commit with
    | some e => simp [rollback]
    | none => simp

/-- When no address with the given id belongs to the user, `SetDefaultAddress` returns an
error. -/
theorem SetDefaultAddress_missing (env : Env) (db : DB) (userID addressID : Nat)
    (hmiss : ∀ a ∈ db.userAddresses, ¬ (a.ID = addressID ∧ a.UserID = userID)) :
    ∃ e, (userRepository.SetDefaultAddress env db userID addressID).2 = .error e := by
  cases hr : (userRepository.SetDefaultAddress env db userID addressID).2 with
  | error e => exact ⟨e, rfl⟩
  | ok u =>
    obtain ⟨⟨a, ha, hid⟩, -⟩ := SetDefaultAddress_ok_inv env db userID addressID hr
    exact absurd hid (hmiss a ha)

/-- C10: address ids being unique (primary key), whenever `SetDefaultAddress(userID, addressID)`
succeeds the addresses of that user stored with `is_default = true` are exactly
the one with id `addressID`, whatever the store was before, and the addresses
of other users are untouched; when no address with that id belongs to the user
(it does not exist or belongs to someone else) the call returns an error and
the stored addresses, default flags included, are what they were. -/
theorem C10_setDefaultAddress (env : Env) (db : DB) (userID addressID : Nat)
    (hkey : (db.userAddresses.map (fun a => a.ID)).Nodup) :
    ((userRepository.SetDefaultAddress env db userID addressID).2 = .ok () →
      defaultAddressIDs (userRepository.SetDefaultAddress env db userID addressID).1 userID
        = [addressID] ∧
      (userRepository.SetDefaultAddress env db userID addressID).1.userAddresses.filter
          (fun a => a.UserID ≠ userID)
        = db.userAddresses.filter (fun a => a.UserID ≠ userID)) ∧
    ((∀ a ∈ db.userAddresses, ¬ (a.ID = addressID ∧ a.UserID = userID)) →
      (∃ e, (userRepository.SetDefaultAddress env db userID addressID).2 = .error e) ∧
      (userRepository.SetDefaultAddress env db userID addressID).1.userAddresses
        = db.userAddresses) := by
  constructor
  · intro h
    obtain ⟨⟨a, ha, haid, hau⟩, hw⟩ := SetDefaultAddress_ok_inv env db userID addressID h
    constructor
    · unfold defaultAddressIDs
      rw [hw]
      apply eq_singleton_of_nodup
      · have hsub : ((db.userAddresses.map
            (fun a => setDefault userID addressID (unsetDefault userID a))).filter
            (fun a => decide (a.UserID = userID ∧ a.IsDefault = true))).map (fun a => a.ID)
            |>.Sublist (db.userAddresses.map (fun a => a.ID)) := by
          have h1 := (List.filter_sublist (p := fun a : UserAddress =>
            decide (a.UserID = userID ∧ a.IsDefault = true))
            (db.userAddresses.map
              (fun a => setDefault userID addressID (unsetDefault userID a)))).map
            (fun a => a.ID)
          have h2 : (db.userAddresses.map
              (fun a => setDefault userID addressID (unsetDefault userID a))).map
              (fun a => a.ID) = db.userAddresses.map (fun a => a.ID) := by
            simp [List.map_map, Function.comp_def, setDefault_unsetDefault_ID]
          rw [h2] at h1
          exact h1
        exact hkey.sublist hsub
      · intro x hx
        simp only [List.mem_map, List.mem_filter, decide_eq_true_eq] at hx
        obtain ⟨b, ⟨⟨c, hc, rfl⟩, hbu, hbd⟩, rfl⟩ := hx
        rw [setDefault_unsetDefault_UserID] at hbu
        rw [setDefault_unsetDefault_IsDefault _ _ _ hbu] at hbd
        rw [setDefault_unsetDefault_ID]
        simpa using hbd
      · intro hnil
        have hmem : addressID ∈ ((db.userAddresses.map
            (fun a => setDefault userID addressID (unsetDefault userID a))).filter
            (fun a => decide (a.UserID = userID ∧ a.IsDefault = true))).map (fun a => a.ID) := by
          simp only [List.mem_map, List.mem_filter, decide_eq_true_eq]
          refine ⟨_, ⟨⟨a, ha, rfl⟩, ?_, ?_⟩, ?_⟩
          · rw [setDefault_unsetDefault_UserID]; exact hau
          · rw [setDefault_unsetDefault_IsDefault _ _ _ hau]; simpa using haid
          · rw [setDefault_unsetDefault_ID]; exact haid
        rw [hnil] at hmem
        exact absurd hmem (List.not_mem_nil _)
    · rw [hw]
      exact filter_other_users_setDefault userID addressID db.userAddresses
  · intro hmiss
    obtain ⟨e, he⟩ := SetDefaultAddress_missing env db userID addressID hmiss
    exact ⟨⟨e, he⟩, SetDefaultAddress_error_inv env db userID addressID e he⟩

/-! ## Theorems: order status synchronisation -/

theorem mem_ordersByCreatedAtDesc (os : List Order) (o : Order) :
    o ∈ ordersByCreatedAtDesc os ↔ o ∈ os :=
  (List.perm_insertionSort _ os).mem_iff

/-- The row of `SELECT o.*, a.*` never has the 20 columns that `GetOrdersByProject` scans. -/
theorem scanArity_order_address (env : Env) :
    ∃ e, scanArity (ordersColumns env + userAddressesColumns env) 20 = some e := by
  have hne : ordersColumns env + userAddressesColumns env ≠ 20 := by
    simp only [ordersColumns, userAddressesColumns]
    omega
  exact ⟨_, if_neg hne⟩

/-- The method `GetOrdersByProject` returns an error or the empty list; for a project that
has an order it returns an error. -/
theorem GetOrdersByProject_cases (env : Env) (db : DB) (projectID : Nat) :
    ((∃ e, PaymentRepository.GetOrdersByProject env db projectID = .error e) ∨
      (PaymentRepository.GetOrdersByProject env db projectID = .ok [] ∧
        ∀ o ∈ db.orders, o.ProjectID ≠ projectID)) := by
  simp only [PaymentRepository.GetOrdersByProject]
  cases env.fails (.getOrdersByProject projectID) with
  | some e => exact Or.inl ⟨e, rfl⟩
  | none =>
    cases hl : ordersByCreatedAtDesc
        (db.orders.filter (fun o => decide (o.ProjectID = projectID))) with
    | nil =>
      refine Or.inr ⟨rfl, ?_⟩
      intro o ho hp
      have hmem : o ∈ ordersByCreatedAtDesc
          (db.orders.filter (fun o => decide (o.ProjectID = projectID))) := by
        rw [mem_ordersByCreatedAtDesc, List.mem_filter]
        exact ⟨ho, by simpa using hp⟩
      rw [hl] at hmem
      exact List.not_mem_nil _ hmem
    | cons order rest =>
      obtain ⟨e, he⟩ := scanArity_order_address env
      simp only [he]
      exact Or.inl ⟨e, rfl⟩

/-- The method `SyncOrdersWithProjectStatus` leaves the store as it found it. -/
theorem SyncOrders_store (env : Env) (db : DB) (projectID : Nat) :
    (PaymentService.SyncOrdersWithProjectStatus env db projectID).1 = db := by
  simp only [PaymentService.SyncOrdersWithProjectStatus]
  cases ProjectRepository.GetProjectByID env db projectID with
  | error e => rfl
  | ok found =>
    cases found with
    | none => rfl
    | some project =>
      simp only []
      split
      · rcases GetOrdersByProject_cases env db projectID with ⟨e, hg⟩ | ⟨hg, -⟩
        · rw [hg]
        · rw [hg]
          simp only [syncOrdersLoop]
          cases env.fails .begin with
          | some e => rfl
          | none =>
            cases env.fails .commit with
            | some e => rfl
            | none => rfl
      · rfl

/-- C9: the synchronisation of a failed project that has an order returns an error and
moves no order.  `SyncOrdersWithProjectStatus` leaves the store as it found it
for every project and every failure pattern of the database; when the project
is stored with status `failed` and has at least one order it returns an error
(the read `GetOrdersByProject` scans a row of `SELECT o.*, a.*` into 20
destinations), so its `pending` and `paid` orders keep their status.  On a
project whose status is not `failed` it returns nil. -/
theorem C9_syncOrders_moves_no_order (env : Env) (db : DB) (projectID : Nat) (project : Project)
    (hp : ProjectRepository.GetProjectByID env db projectID = .ok (some project)) :
    (PaymentService.SyncOrdersWithProjectStatus env db projectID).1 = db ∧
    (project.Status = "failed" → (∃ o ∈ db.orders, o.ProjectID = projectID) →
      ∃ e, (PaymentService.SyncOrdersWithProjectStatus env db projectID).2 = .error e) ∧
    (project.Status ≠ "failed" →
      (PaymentService.SyncOrdersWithProjectStatus env db projectID).2 = .ok ()) := by
  refine ⟨SyncOrders_store env db projectID, ?_, ?_⟩
  · rintro hs ⟨o, ho, hop⟩
    simp only [PaymentService.SyncOrdersWithProjectStatus, hp, hs, if_true]
    rcases GetOrdersByProject_cases env db projectID with ⟨e, hg⟩ | ⟨-, hnone⟩
    · rw [hg]
      exact ⟨e, rfl⟩
    · exact absurd hop (hnone o ho)
  · intro hs
    simp [PaymentService.SyncOrdersWithProjectStatus, hp, hs]

theorem C9_syncOrders_moves_no_order_witness :
    statusOf syncDB 7 = some "failed" ∧
    syncDB.orders.map (fun o => (o.ID, o.ProjectID, o.Status))
      = [(1, 7, "paid"), (2, 7, "pending"), (3, 7, "shipped"), (4, 8, "pending")] ∧
    (PaymentService.SyncOrdersWithProjectStatus exampleEnv syncDB 7).2
      = .error "sql: expected 22 destination arguments in Scan, not 20" ∧
    (∃ e, (PaymentService.SyncOrdersWithProjectStatus exampleEnv syncDB 7).2 = .error e) ∧
    (PaymentService.SyncOrdersWithProjectStatus exampleEnv syncDB 7).1.orders.map
        (fun o => (o.ID, o.Status))
      = [(1, "paid"), (2, "pending"), (3, "shipped"), (4, "pending")] := by
  have t := C9_syncOrders_moves_no_order exampleEnv syncDB 7
    { ID := 7, Status := "failed", EndDate := 10 } (by rfl)
  refine ⟨by decide, by decide, by rfl, t.2.1 rfl ⟨_, List.mem_cons_self _ _, rfl⟩, ?_⟩
  rw [t.1]
  decide

/-! ## Theorems: expiry sweep -/

theorem minAmount_spec (l : List ℚ) (m : ℚ) :
    minAmount l = some m ↔ m ∈ l ∧ ∀ a ∈ l, m ≤ a := by
  induction l generalizing m with
  | nil => simp [minAmount]
  | cons x xs ih =>
    simp only [minAmount]
    cases hxs : minAmount xs with
    | none =>
      have hnil : xs = [] := by
        cases xs with
        | nil => rfl
        | cons y ys =>
          simp only [minAmount] at hxs
          cases hys : minAmount ys <;> simp [hys] at hxs
      subst hnil
      simp only [Option.some.injEq, List.mem_singleton]
      constructor
      · rintro rfl
        exact ⟨rfl, fun a ha => le_of_eq ha.symm⟩
      · rintro ⟨h, -⟩
        exact h.symm
    | some k =>
      obtain ⟨hk1, hk2⟩ := (ih k).1 hxs
      simp only [Option.some.injEq, List.mem_cons]
      constructor
      · rintro rfl
        refine ⟨?_, ?_⟩
        · rcases min_choice x k with h | h
          · exact Or.inl h
          · exact Or.inr (by rw [h]; exact hk1)
        · intro a ha
          rcases ha with rfl | ha
          · exact min_le_left _ _
          · exact le_trans (min_le_right _ _) (hk2 a ha)
      · rintro ⟨hm, hle⟩
        apply le_antisymm
        · rcases hm with rfl | hm
          · exact min_le_left _ _
          · exact le_trans (min_le_right _ _) (hk2 m hm)
        · exact le_min (hle x (Or.inl rfl)) (hle k (Or.inr hk1))

theorem setProjectStatus_ID (now projectID : Nat) (status : String) (p : Project) :
    (setProjectStatus now projectID status p).ID = p.ID := by
  unfold setProjectStatus
  split <;> rfl

theorem markProjectFailed_ID (now : Nat) (ids : List Nat) (p : Project) :
    (markProjectFailed now ids p).ID = p.ID := by
  unfold markProjectFailed
  split <;> rfl

theorem markProjectFailed_nil (now : Nat) (p : Project) : markProjectFailed now [] p = p := by
  simp [markProjectFailed]

theorem markProjectFailed_cons (now : Nat) (id : Nat) (ids : List Nat) (p : Project) :
    markProjectFailed now ids (setProjectStatus now id "failed" p)
      = markProjectFailed now (id :: ids) p := by
  unfold markProjectFailed setProjectStatus
  by_cases h1 : p.ID = id <;> by_cases h2 : p.ID ∈ ids <;> simp [h1, h2]

/-- A sweep loop that returned no error has updated exactly the ids it was given. -/
theorem checkExpiredLoop_ok (env : Env) (projects : List Project) :
    ∀ db : DB, (checkExpiredLoop env db projects).2 = .ok () →
      (checkExpiredLoop env db projects).1
        = { db with
            projects := db.projects.map
              (markProjectFailed env.now (projects.map (fun p => p.ID))) } := by
  induction projects with
  | nil =>
    intro db _
    have hid : markProjectFailed env.now [] = id := funext (markProjectFailed_nil env.now)
    simp [checkExpiredLoop, hid]
  | cons project rest ih =>
    intro db
    simp only [checkExpiredLoop, ProjectRepository.UpdateProjectStatus]
    cases env.fails (.updateProjectStatus project.ID "failed") with
    | some e => simp
    | none =>
    cases env.fails .rowsAffected with
    | some e => simp
    | none =>
    by_cases haff : (db.projects.filter (fun p =>
        decide (p.ID = project.ID ∧ (p.Status ≠ "failed" ∨ p.UpdatedAt ≠ env.now)))).length = 0
    · rw [if_pos haff]
      simp
    · rw [if_neg haff]
      intro h
      rw [ih _ h]
      simp [List.map_map, Function.comp_def, markProjectFailed_cons]

/-- Without database failures the sweep loop succeeds on projects with distinct ids
whose stored rows are not yet `failed`. -/
theorem checkExpiredLoop_no_failure (env : Env) (hf : ∀ c, env.fails c = none)
    (projects : List Project) :
    ∀ db : DB, (projects.map (fun p => p.ID)).Nodup →
      (∀ x ∈ projects, ∃ q ∈ db.projects, q.ID = x.ID ∧ q.Status ≠ "failed") →
      (checkExpiredLoop env db projects).2 = .ok () := by
  induction projects with
  | nil => intro db _ _; rfl
  | cons project rest ih =>
    intro db hnd hrows
    obtain ⟨q, hq, hqid, hqs⟩ := hrows project (List.mem_cons_self _ _)
    have haff : (db.projects.filter (fun p =>
        decide (p.ID = project.ID ∧ (p.Status ≠ "failed" ∨ p.UpdatedAt ≠ env.now)))).length
        ≠ 0 := by
      apply Nat.ne_of_gt
      apply List.length_pos.2
      apply List.ne_nil_of_mem (a := q)
      rw [List.mem_filter]
      exact ⟨hq, by simpa using ⟨hqid, Or.inl hqs⟩⟩
    simp only [checkExpiredLoop, ProjectRepository.UpdateProjectStatus, hf, haff, if_false]
    apply ih
    · exact (List.nodup_cons.1 hnd).2
    · intro x hx
      obtain ⟨r, hr, hrid, hrs⟩ := hrows x (List.mem_cons_of_mem _ hx)
      refine ⟨setProjectStatus env.now project.ID "failed" r, List.mem_map_of_mem _ hr, ?_, ?_⟩
      · rw [setProjectStatus_ID, hrid]
      · have hne : r.ID ≠ project.ID := by
          intro heq
          have hmem : project.ID ∈ rest.map (fun p => p.ID) :=
            List.mem_map.2 ⟨x, hx, by rw [← hrid, heq]⟩
          exact (List.nodup_cons.1 hnd).1 hmem
        simp [setProjectStatus, hne, hrs]

theorem find?_ID_of_mem (ps : List Project) (hkey : (ps.map (fun p => p.ID)).Nodup)
    (p : Project) (hp : p ∈ ps) : ps.find? (fun q => q.ID = p.ID) = some p := by
  induction ps with
  | nil => exact absurd hp (List.not_mem_nil _)
  | cons x xs ih =>
    by_cases hx : x.ID = p.ID
    · have : x = p := List.inj_on_of_nodup_map hkey (List.mem_cons_self _ _) hp hx
      simp [List.find?_cons, this]
    · have hpx : p ∈ xs := by
        rcases List.mem_cons.1 hp with h | h
        · exact absurd (h ▸ rfl) hx
        · exact h
      simp only [List.find?_cons, hx, decide_False]
      exact ih (List.nodup_cons.1 (by simpa using hkey)).2 hpx

theorem find?_map_markProjectFailed (now : Nat) (ids : List Nat) (id : Nat) (ps : List Project) :
    (ps.map (markProjectFailed now ids)).find? (fun p => p.ID = id)
      = (ps.find? (fun p => p.ID = id)).map (markProjectFailed now ids) := by
  induction ps with
  | nil => rfl
  | cons p ps ih =>
    simp only [List.map_cons, List.find?_cons, markProjectFailed_ID]
    split
    · rfl
    · exact ih

theorem expiredUnmet_not_failed (env : Env) (db : DB) (p : Project)
    (h : expiredUnmet env db p = true) : p.Status ≠ "failed" := by
  intro hs
  simp [expiredUnmet, hs] at h

/-- Without database failures and with unique project ids, one run of the sweep
succeeds and marks exactly the rows selected by `expiredUnmet`. -/
theorem CheckExpiredProjects_result (env : Env) (db : DB) (hf : ∀ c, env.fails c = none)
    (hkey : (db.projects.map (fun p => p.ID)).Nodup) :
    (AdminService.CheckExpiredProjects env db).2 = .ok () ∧
    (AdminService.CheckExpiredProjects env db).1
      = { db with
          projects := db.projects.map (markProjectFailed env.now
            ((db.projects.filter (expiredUnmet env db)).map (fun p => p.ID))) } := by
  have hids : ((db.projects.filter (expiredUnmet env db)).map
      (fun p => ({ p with Status := "failed" } : Project))).map (fun p => p.ID)
      = (db.projects.filter (expiredUnmet env db)).map (fun p => p.ID) := by
    simp [List.map_map, Function.comp_def]
  have hok : (checkExpiredLoop env db ((db.projects.filter (expiredUnmet env db)).map
      (fun p => ({ p with Status := "failed" } : Project)))).2 = .ok () := by
    apply checkExpiredLoop_no_failure env hf
    · rw [hids]
      exact hkey.sublist ((List.filter_sublist _).map _)
    · intro x hx
      obtain ⟨q, hq, rfl⟩ := List.mem_map.1 hx
      rw [List.mem_filter] at hq
      exact ⟨q, hq.1, rfl, expiredUnmet_not_failed env db q hq.2⟩
  have hres := checkExpiredLoop_ok env _ db hok
  rw [hids] at hres
  simp only [AdminService.CheckExpiredProjects, ProjectRepository.GetExpiredActiveProjects, hf]
  exact ⟨hok, hres⟩

theorem statusOf_after_sweep (env : Env) (db : DB) (hf : ∀ c, env.fails c = none)
    (hkey : (db.projects.map (fun p => p.ID)).Nodup) (p : Project) (hp : p ∈ db.projects) :
    statusOf (AdminService.CheckExpiredProjects env db).1 p.ID
      = some (if expiredUnmet env db p = true then "failed" else p.Status) := by
  rw [(CheckExpiredProjects_result env db hf hkey).2]
  simp only [statusOf, find?_map_markProjectFailed, find?_ID_of_mem _ hkey p hp, Option.map_some']
  have hiff : p.ID ∈ (db.projects.filter (expiredUnmet env db)).map (fun p => p.ID)
      ↔ expiredUnmet env db p = true := by
    simp only [List.mem_map, List.mem_filter]
    constructor
    · rintro ⟨q, ⟨hq, hqe⟩, hqid⟩
      have : q = p := List.inj_on_of_nodup_map hkey hq hp hqid
      exact this ▸ hqe
    · intro he
      exact ⟨p, ⟨hp, he⟩, rfl⟩
  by_cases he : expiredUnmet env db p = true
  · simp [markProjectFailed, hiff.2 he, he]
  · have : p.ID ∉ (db.projects.filter (expiredUnmet env db)).map (fun p => p.ID) :=
      fun h => he (hiff.1 h)
    simp [markProjectFailed, this, he]

/-- Whatever fails, the sweep loop has updated some of the ids it was given and
nothing else. -/
theorem checkExpiredLoop_marks (env : Env) (projects : List Project) :
    ∀ db : DB, ∃ ids : List Nat, (∀ i ∈ ids, i ∈ projects.map (fun p => p.ID)) ∧
      (checkExpiredLoop env db projects).1
        = { db with projects := db.projects.map (markProjectFailed env.now ids) } := by
  have hid : markProjectFailed env.now [] = id := funext (markProjectFailed_nil env.now)
  have hone : ∀ i, setProjectStatus env.now i "failed" = markProjectFailed env.now [i] := by
    intro i
    funext p
    rw [← markProjectFailed_cons, markProjectFailed_nil]
  induction projects with
  | nil =>
    intro db
    exact ⟨[], fun i hi => absurd hi (List.not_mem_nil _), by simp [checkExpiredLoop, hid]⟩
  | cons project rest ih =>
    intro db
    simp only [checkExpiredLoop, ProjectRepository.UpdateProjectStatus]
    cases env.fails (.updateProjectStatus project.ID "failed") with
    | some e =>
      exact ⟨[], fun i hi => absurd hi (List.not_mem_nil _), by simp [hid]⟩
    | none =>
    cases env.fails .rowsAffected with
    | some e =>
      exact ⟨[project.ID], fun i hi => by simp_all, by simp [hone]⟩
    | none =>
    by_cases haff : (db.projects.filter (fun p =>
        decide (p.ID = project.ID ∧ (p.Status ≠ "failed" ∨ p.UpdatedAt ≠ env.now)))).length = 0
    · rw [if_pos haff]
      exact ⟨[project.ID], fun i hi => by simp_all, by simp [hone]⟩
    · rw [if_neg haff]
      obtain ⟨ids, hsub, hres⟩ := ih
        { db with projects := db.projects.map (setProjectStatus env.now project.ID "failed") }
      refine ⟨project.ID :: ids, ?_, ?_⟩
      · intro i hi
        rcases List.mem_cons.1 hi with h | h
        · simp [h]
        · exact List.mem_cons_of_mem _ (hsub i h)
      · simp only [hres]
        simp [List.map_map, Function.comp_def, markProjectFailed_cons]

/-- Whatever fails, and with unique project ids, one run of the sweep leaves every
project row stored as `failed`, `success` or `rejected` exactly as it was. -/
theorem sweep_keeps_excluded_rows (env : Env) (db : DB)
    (hkey : (db.projects.map (fun p => p.ID)).Nodup) :
    ∃ f : Project → Project,
      (AdminService.CheckExpiredProjects env db).1.projects = db.projects.map f ∧
      ∀ p ∈ db.projects,
        p.Status = "failed" ∨ p.Status = "success" ∨ p.Status = "rejected" → f p = p := by
  simp only [AdminService.CheckExpiredProjects, ProjectRepository.GetExpiredActiveProjects]
  cases env.fails .getExpiredActiveProjects with
  | some e => exact ⟨id, by simp, fun _ _ _ => rfl⟩
  | none =>
    obtain ⟨ids, hsub, hres⟩ := checkExpiredLoop_marks env
      ((db.projects.filter (expiredUnmet env db)).map
        (fun p => ({ p with Status := "failed" } : Project))) db
    refine ⟨markProjectFailed env.now ids, by simp only [hres], ?_⟩
    intro p hp hs
    have hnot : p.ID ∉ ids := by
      intro hmem
      have h1 := hsub _ hmem
      simp only [List.map_map, List.mem_map, List.mem_filter, Function.comp] at h1
      obtain ⟨q, ⟨hq, hqe⟩, hqid⟩ := h1
      have hqp : q = p := List.inj_on_of_nodup_map hkey hq hp hqid
      subst hqp
      rcases hs with h | h | h <;> simp [expiredUnmet, h] at hqe
    simp [markProjectFailed, hnot]

/-- C7: evaluation of the expiry sweep where the claim fails.  Project 8 of `sweepDB` is
stored as `completed`; it is past its end date with nothing paid against a goal
of 1000, and one run of the sweep stores it as `failed`.  The same happens to
project 7 once the admin operation `UpdateProjectStatus` has stored it as
`completed`, a status the admin handler accepts. -/
theorem C7_sweep_fails_completed_project :
    statusOf sweepDB 8 = some "completed" ∧
    (AdminService.CheckExpiredProjects exampleEnv sweepDB).2 = .ok () ∧
    statusOf (AdminService.CheckExpiredProjects exampleEnv sweepDB).1 8 = some "failed" ∧
    validStatuses "completed" = true ∧
    statusOf (AdminService.UpdateProjectStatus exampleEnv sweepDB 7 "completed").1 7
      = some "completed" ∧
    statusOf (AdminService.CheckExpiredProjects exampleEnv
      (AdminService.UpdateProjectStatus exampleEnv sweepDB 7 "completed").1).1 7
      = some "failed" := by
  refine ⟨by decide, by rfl, by decide, by decide, by decide, by decide⟩

/-- C8: project ids being unique (primary key) and the database not failing, for every stored
project whose status is one that the program writes (`writtenProjectStatus`)
and none of `failed`, `completed`, `rejected`, and whose smallest goal amount is
`g`, one run of the expiry sweep succeeds, and afterwards the project is stored
as `failed` if and only if its end date is not after the current time and the
sum of the amounts of its `paid` orders is strictly less than `g`. -/
theorem C8_sweep_fails_iff (env : Env) (db : DB) (p : Project) (g : ℚ)
    (hf : ∀ c, env.fails c = none)
    (hkey : (db.projects.map (fun p => p.ID)).Nodup)
    (hp : p ∈ db.projects)
    (hw : writtenProjectStatus p.Status = true)
    (hs : p.Status ≠ "failed" ∧ p.Status ≠ "completed" ∧ p.Status ≠ "rejected")
    (hg : g ∈ goalAmounts db p.ID) (hmin : ∀ a ∈ goalAmounts db p.ID, g ≤ a) :
    (AdminService.CheckExpiredProjects env db).2 = .ok () ∧
    (statusOf (AdminService.CheckExpiredProjects env db).1 p.ID = some "failed"
      ↔ p.EndDate ≤ env.now ∧ totalPledged db p.ID < g) := by
  have hsuccess : p.Status ≠ "success" := by
    intro h
    rw [h] at hw
    exact absurd hw (by decide)
  refine ⟨(CheckExpiredProjects_result env db hf hkey).1, ?_⟩
  rw [statusOf_after_sweep env db hf hkey p hp]
  have hfirst : firstGoalAmount db p.ID = some g := (minAmount_spec _ g).2 ⟨hg, hmin⟩
  have he : expiredUnmet env db p = true ↔ p.EndDate ≤ env.now ∧ totalPledged db p.ID < g := by
    simp [expiredUnmet, hfirst, hs.1, hsuccess, hs.2.2]
  by_cases h : expiredUnmet env db p = true
  · simp only [h, if_true, true_iff]
    exact he.1 h
  · rw [if_neg h]
    constructor
    · intro hh
      exact absurd (Option.some.inj hh) hs.1
    · intro hh
      exact absurd (he.2 hh) h

theorem C8_sweep_fails_iff_witness :
    (AdminService.CheckExpiredProjects exampleEnv exampleDB).2 = .ok () ∧
    statusOf exampleDB 7 = some "active" ∧ writtenProjectStatus "active" = true ∧
    totalPledged exampleDB 7 = 800 ∧ goalAmounts exampleDB 7 = [1000, 5000] ∧
    (statusOf (AdminService.CheckExpiredProjects exampleEnv exampleDB).1 7 = some "failed"
      ↔ (10 : Nat) ≤ exampleEnv.now ∧ totalPledged exampleDB 7 < 1000) ∧
    statusOf (AdminService.CheckExpiredProjects exampleEnv exampleDB).1 7 = some "failed" := by
  have t := C8_sweep_fails_iff exampleEnv exampleDB
    { ID := 7, Status := "active", TotalGoalAmount := 6000, MinRewardAmount := 1000,
      EndDate := 10 } 1000
    (fun _ => rfl) (by decide) (by simp [exampleDB]) (by decide) (by decide)
    (by simp [goalAmounts, exampleDB]) (by norm_num [goalAmounts, exampleDB])
  have h800 : totalPledged exampleDB 7 = 800 := by
    simp [totalPledged, exampleDB]
  refine ⟨t.1, by decide, by decide, h800, by simp [goalAmounts, exampleDB], t.2, ?_⟩
  apply t.2.2
  refine ⟨by decide, ?_⟩
  rw [h800]
  norm_num

theorem C10_setDefaultAddress_witness :
    defaultAddressIDs addressDB 3 = [1] ∧
    (userRepository.SetDefaultAddress exampleEnv addressDB 3 2).2 = .ok () ∧
    defaultAddressIDs (userRepository.SetDefaultAddress exampleEnv addressDB 3 2).1 3 = [2] ∧
    defaultAddressIDs (userRepository.SetDefaultAddress exampleEnv addressDB 3 2).1 4 = [3] ∧
    (∃ e, (userRepository.SetDefaultAddress exampleEnv addressDB 3 3).2 = .error e) ∧
    (userRepository.SetDefaultAddress exampleEnv addressDB 3 3).1.userAddresses
      = addressDB.userAddresses :=
  ⟨by decide, by rfl,
    ((C10_setDefaultAddress exampleEnv addressDB 3 2 (by decide)).1 (by rfl)).1,
    by decide,
    ((C10_setDefaultAddress exampleEnv addressDB 3 3 (by decide)).2 (by decide)).1,
    ((C10_setDefaultAddress exampleEnv addressDB 3 3 (by decide)).2 (by decide)).2⟩

/-! ## Theorems: error responses -/

/-- C15: `HandleError` answers an `AppError` with the status of the table
(`ErrValidation` 400, `ErrUnauthorized` 401, `ErrForbidden` 403,
`ErrResourceNotFound` 404, `ErrResourceConflict` 409, `ErrInternal` 500,
whatever message and wrapped error it carries), answers 500 for every
`AppError` whose code has no entry in the table, and answers 500 for every
error that is not an `AppError`. -/
theorem C15_handleError_status :
    (∀ message err,
      (errors.HandleError (.app ⟨errors.ErrValidation, message, err⟩)).status = 400 ∧
      (errors.HandleError (.app ⟨errors.ErrUnauthorized, message, err⟩)).status = 401 ∧
      (errors.HandleError (.app ⟨errors.ErrForbidden, message, err⟩)).status = 403 ∧
      (errors.HandleError (.app ⟨errors.ErrResourceNotFound, message, err⟩)).status = 404 ∧
      (errors.HandleError (.app ⟨errors.ErrResourceConflict, message, err⟩)).status = 409 ∧
      (errors.HandleError (.app ⟨errors.ErrInternal, message, err⟩)).status = 500) ∧
    (∀ code message err, code ∉ errors.errorStatusTable.map (fun entry => entry.1) →
      (errors.HandleError (.app ⟨code, message, err⟩)).status = 500) ∧
    (∀ text, (errors.HandleError (.other text)).status = 500) := by
  refine ⟨fun message err => ⟨rfl, rfl, rfl, rfl, rfl, rfl⟩, ?_, fun text => rfl⟩
  intro code message err hcode
  have hnone : errors.errorStatusTable.find? (fun entry => decide (entry.1 = code)) = none := by
    rw [List.find?_eq_none]
    intro entry hentry hdec
    exact hcode (List.mem_map.2 ⟨entry, hentry, by simpa using hdec⟩)
  simp [errors.HandleError, errors.errorStatusMap, hnone]

theorem C15_handleError_status_witness :
    (9999 : Int) ∉ errors.errorStatusTable.map (fun entry => entry.1) ∧
    (errors.HandleError (.app ⟨9999, "unknown", none⟩)).status = 500 ∧
    (errors.HandleError (.app ⟨errors.ErrTimeout, "slow", none⟩)).status = 408 :=
  ⟨by decide, C15_handleError_status.2.1 9999 "unknown" none (by decide), rfl⟩

/-! ## Theorems: password strength, registration and login -/

theorem foldl_passwordStep (t : UnicodeTables) (l : List Char) :
    ∀ f : PasswordFlags,
      (l.foldl (passwordStep t) f).hasUpper = (f.hasUpper || l.any t.IsUpper) ∧
      (l.foldl (passwordStep t) f).hasLower
        = (f.hasLower || l.any (fun c => !t.IsUpper c && t.IsLower c)) ∧
      (l.foldl (passwordStep t) f).hasNumber
        = (f.hasNumber || l.any (fun c => !t.IsUpper c && !t.IsLower c && t.IsNumber c)) ∧
      (l.foldl (passwordStep t) f).hasSpecial
        = (f.hasSpecial || l.any (fun c =>
            !t.IsUpper c && !t.IsLower c && !t.IsNumber c && (t.IsPunct c || t.IsSymbol c))) := by
  induction l with
  | nil => intro f; simp
  | cons c cs ih =>
    intro f
    simp only [List.foldl_cons, List.any_cons]
    obtain ⟨h1, h2, h3, h4⟩ := ih (passwordStep t f c)
    rw [h1, h2, h3, h4]
    unfold passwordStep
    cases hu : t.IsUpper c <;> cases hl : t.IsLower c <;> cases hn : t.IsNumber c <;>
      cases hp : t.IsPunct c <;> cases hs : t.IsSymbol c <;> simp [Bool.or_assoc]

theorem any_class_of_disjoint (t : UnicodeTables) (hd : t.Disjoint) (l : List Char) :
    l.any (fun c => !t.IsUpper c && t.IsLower c) = l.any t.IsLower ∧
    l.any (fun c => !t.IsUpper c && !t.IsLower c && t.IsNumber c) = l.any t.IsNumber ∧
    l.any (fun c => !t.IsUpper c && !t.IsLower c && !t.IsNumber c &&
        (t.IsPunct c || t.IsSymbol c))
      = l.any (fun c => t.IsPunct c || t.IsSymbol c) := by
  refine ⟨?_, ?_, ?_⟩
  · congr 1
    funext c
    cases hl : t.IsLower c
    · simp
    · simp [(hd c).1 hl]
  · congr 1
    funext c
    cases hn : t.IsNumber c
    · simp
    · simp [((hd c).2.1 hn).1, ((hd c).2.1 hn).2]
  · congr 1
    funext c
    cases hp : t.IsPunct c <;> cases hs : t.IsSymbol c
    · simp
    · have h := (hd c).2.2 (Or.inr hs)
      simp [h.1, h.2.1, h.2.2]
    · have h := (hd c).2.2 (Or.inl hp)
      simp [h.1, h.2.1, h.2.2]
    · have h := (hd c).2.2 (Or.inl hp)
      simp [h.1, h.2.1, h.2.2]

/-- The characterisation of `isPasswordStrong` for tables with disjoint classes. -/
theorem isPasswordStrong_iff (t : UnicodeTables) (hd : t.Disjoint) (password : String) :
    isPasswordStrong t password = true ↔
      8 ≤ password.utf8ByteSize ∧
      (∃ c ∈ password.data, t.IsUpper c = true) ∧
      (∃ c ∈ password.data, t.IsLower c = true) ∧
      (∃ c ∈ password.data, t.IsNumber c = true) ∧
      (∃ c ∈ password.data, t.IsPunct c = true ∨ t.IsSymbol c = true) := by
  unfold isPasswordStrong
  by_cases hlen : password.utf8ByteSize < 8
  · simp only [hlen, if_true]
    constructor
    · intro h; exact absurd h (by simp)
    · intro h; exact absurd h.1 (by omega)
  · simp only [hlen, if_false]
    obtain ⟨h1, h2, h3, h4⟩ := foldl_passwordStep t password.data {}
    obtain ⟨d2, d3, d4⟩ := any_class_of_disjoint t hd password.data
    rw [h1, h2, h3, h4, d2, d3, d4]
    simp only [Bool.false_or, Bool.and_eq_true, List.any_eq_true, Bool.or_eq_true]
    constructor
    · rintro ⟨⟨⟨hu, hl⟩, hn⟩, hp⟩
      exact ⟨by omega, hu, hl, hn, hp⟩
    · rintro ⟨-, hu, hl, hn, hp⟩
      exact ⟨⟨⟨hu, hl⟩, hn⟩, hp⟩

/-- A request that is bound and carries a weak password is answered with the
`ErrWeakPassword` error, and the user service is left alone. -/
theorem Register_weak_password {σ : Type} (env : Env) (userService : UserServiceInterface σ)
    (registerData : RegisterData) (s : σ)
    (hweak : isPasswordStrong env.unicode registerData.Password = false) :
    AuthHandler.Register env userService (.ok registerData) s
      = (s, errors.HandleError (.app (errors.New errors.ErrWeakPassword "密码强度不足"))) := by
  simp [AuthHandler.Register, hweak]

/-- C16: for `unicode` tables with disjoint classes, `isPasswordStrong` is true exactly
for the passwords of at least 8 bytes that contain an uppercase letter, a
lowercase letter, a number character (`unicode.IsNumber`) and a punctuation or
symbol character; the Register handler answers a bound request whose password
fails the check with `ErrWeakPassword` and status 400, leaving the state of
every user service as it was (so with the MySQL repository no row is written);
`abc` is rejected under all tables, `Str0ng!Pass` is accepted. -/
theorem C16_password_strength (t : UnicodeTables) (hd : t.Disjoint) (password : String) :
    (isPasswordStrong t password = true ↔
      8 ≤ password.utf8ByteSize ∧
      (∃ c ∈ password.data, t.IsUpper c = true) ∧
      (∃ c ∈ password.data, t.IsLower c = true) ∧
      (∃ c ∈ password.data, t.IsNumber c = true) ∧
      (∃ c ∈ password.data, t.IsPunct c = true ∨ t.IsSymbol c = true)) ∧
    (∀ (σ : Type) (env : Env) (userService : UserServiceInterface σ) (data : RegisterData)
        (s : σ), isPasswordStrong env.unicode data.Password = false →
      (AuthHandler.Register env userService (.ok data) s).1 = s ∧
      (AuthHandler.Register env userService (.ok data) s).2.status = 400 ∧
      (AuthHandler.Register env userService (.ok data) s).2.body.get? "code"
        = some (.int errors.ErrWeakPassword)) ∧
    (∀ (env envRepo : Env) (data : RegisterData) (db : DB),
      isPasswordStrong env.unicode data.Password = false →
      (AuthHandler.Register env (UserService envRepo (userRepository envRepo)) (.ok data) db).1
        = db) ∧
    (∀ t0 : UnicodeTables, isPasswordStrong t0 "abc" = false) ∧
    isPasswordStrong asciiTables "Str0ng!Pass" = true := by
  refine ⟨isPasswordStrong_iff t hd password, ?_, ?_, ?_, by decide⟩
  · intro σ env userService data s hweak
    rw [Register_weak_password env userService data s hweak]
    exact ⟨rfl, rfl, rfl⟩
  · intro env envRepo data db hweak
    rw [Register_weak_password env _ data db hweak]
  · intro t0
    rfl

theorem asciiTables_disjoint : asciiTables.Disjoint := by
  intro c
  refine ⟨?_, ?_, ?_⟩
  · simp only [asciiTables, decide_eq_true_eq, decide_eq_false_iff_not]
    omega
  · simp only [asciiTables, decide_eq_true_eq, decide_eq_false_iff_not]
    omega
  · intro h
    have hmem : c ∈ ['!', '\"', '#', '%', '&', '\x27', '(', ')', '*', ',', '-', '.', '/', ':',
        ';', '?', '@', '[', '\\', ']', '_', '\x7b', '\x7d', '$', '+', '<', '=', '>', '^', '\x60',
        '|', '~'] := by
      rcases h with h | h
      · have h1 : c ∈ "!\"#%&\x27()*,-./:;?@[\\]_\x7b\x7d".data := by simpa [asciiTables] using h
        exact List.mem_append_left _ h1
      · have h1 : c ∈ "$+<=>^\x60|~".data := by simpa [asciiTables] using h
        exact List.mem_append_right
          ['!', '\"', '#', '%', '&', '\x27', '(', ')', '*', ',', '-', '.', '/', ':',
            ';', '?', '@', '[', '\\', ']', '_', '\x7b', '\x7d'] h1
    simp only [List.mem_cons, List.mem_singleton, List.not_mem_nil, or_false] at hmem
    rcases hmem with h | h | h | h | h | h | h | h | h | h | h | h | h | h | h | h | h | h |
      h | h | h | h | h | h | h | h | h | h | h | h | h | h <;> subst h <;> decide

theorem C16_password_strength_witness :
    asciiTables.Disjoint ∧
    (isPasswordStrong asciiTables "Str0ng!Pass" = true ↔
      8 ≤ "Str0ng!Pass".utf8ByteSize ∧
      (∃ c ∈ "Str0ng!Pass".data, asciiTables.IsUpper c = true) ∧
      (∃ c ∈ "Str0ng!Pass".data, asciiTables.IsLower c = true) ∧
      (∃ c ∈ "Str0ng!Pass".data, asciiTables.IsNumber c = true) ∧
      (∃ c ∈ "Str0ng!Pass".data, asciiTables.IsPunct c = true ∨ asciiTables.IsSymbol c = true)) ∧
    isPasswordStrong asciiTables "Str0ng!Pass" = true ∧
    isPasswordStrong asciiTables "abc" = false ∧
    (AuthHandler.Register {} (mockUserService (.ok {}) (.ok {}))
      (.ok { Username := "testuser", Email := "test@example.com", Password := "abc" }) []).1
      = [] ∧
    (AuthHandler.Register {} (mockUserService (.ok {}) (.ok {}))
      (.ok { Username := "testuser", Email := "test@example.com", Password := "abc" })
      []).2.status = 400 :=
  have t := C16_password_strength asciiTables asciiTables_disjoint "Str0ng!Pass"
  have w := t.2.1 (List String) {} (mockUserService (.ok {}) (.ok {}))
    { Username := "testuser", Email := "test@example.com", Password := "abc" } [] (by rfl)
  ⟨asciiTables_disjoint, t.1, t.2.2.2.2, t.2.2.2.1 asciiTables, w.1, w.2.1⟩

/-- For every repository: when `FindByUsername` finds a user, `Register` returns the
`ErrUserExists` error and the repository is left in the state after that
lookup (`Create` is not called). -/
theorem Register_username_taken {σ : Type} (env : Env) (repo : UserRepository σ) (user : User)
    (s s1 : σ) (found : User)
    (hfind : repo.FindByUsername user.Username s = (s1, .ok (some found))) :
    UserService.Register env repo user s
      = (s1, .error (.app (errors.New errors.ErrUserExists "username already exists"))) := by
  simp [UserService.Register, UserService.IsUsernameTaken, hfind]

/-- For every repository: with a free username, a hash from bcrypt and a `Create` that
succeeds, `Register` returns nil. -/
theorem Register_username_free {σ : Type} (env : Env) (repo : UserRepository σ) (user : User)
    (s s1 s2 : σ) (hashed : String) (created : User)
    (hfind : repo.FindByUsername user.Username s = (s1, .ok none))
    (hhash : env.bcryptGenerate user.PasswordHash = .ok hashed)
    (hcreate : repo.Create { user with PasswordHash := hashed } s1 = (s2, .ok created)) :
    UserService.Register env repo user s = (s2, .ok created) := by
  simp [UserService.Register, UserService.IsUsernameTaken, hfind, hhash, hcreate]

/-- C17: evaluation of `UserService.Register` on the second case of `TestRegister`, where the
claim fails.  With a repository whose `FindByUsername` returns a user, `Register`
returns an error and calls nothing but `FindByUsername`, but the `Error()` text
of that error is `[4001] username already exists`, not `username already exists`.
With a free username and a `Create` that succeeds it returns nil. -/
theorem C17_register_error_text :
    (UserService.Register {} (mockUserRepository (some {}) none)
      { Username := "existinguser", Email := "test@example.com", PasswordHash := "password123" }
      []).2
      = .error (.app { Code := 4001, Message := "username already exists", Err := none }) ∧
    (GoError.app { Code := 4001, Message := "username already exists", Err := none }).Error
      = "[4001] username already exists" ∧
    (GoError.app { Code := 4001, Message := "username already exists", Err := none }).Error
      ≠ "username already exists" ∧
    (UserService.Register {} (mockUserRepository (some {}) none)
      { Username := "existinguser", Email := "test@example.com", PasswordHash := "password123" }
      []).1 = ["FindByUsername existinguser"] ∧
    (UserService.Register {} (mockUserRepository none none)
      { Username := "testuser", Email := "test@example.com", PasswordHash := "password123" }
      []).2.toOption.isSome = true := by
  refine ⟨by rfl, by decide, by decide, by rfl, by rfl⟩

/-- For every user service: a bound request with a strong password whose `Register`
returns nil is answered with status 200. -/
theorem Register_handler_success {σ : Type} (env : Env) (userService : UserServiceInterface σ)
    (data : RegisterData) (s s1 : σ) (user : User)
    (hstrong : isPasswordStrong env.unicode data.Password = true)
    (hreg : userService.Register
      { Username := data.Username, Email := data.Email, PasswordHash := data.Password } s
      = (s1, .ok user)) :
    (AuthHandler.Register env userService (.ok data) s).2.status = 200 := by
  simp [AuthHandler.Register, hstrong, hreg, errors.HandleSuccess]

/-- For every user service: a bound request with a strong password whose `Register`
returns the `ErrUserExists` error is answered with status 409; when it returns
an error that is not an `AppError` the answer is 500. -/
theorem Register_handler_error {σ : Type} (env : Env) (userService : UserServiceInterface σ)
    (data : RegisterData) (s s1 : σ)
    (hstrong : isPasswordStrong env.unicode data.Password = true) :
    (∀ message err, userService.Register
        { Username := data.Username, Email := data.Email, PasswordHash := data.Password } s
        = (s1, .error (.app ⟨errors.ErrUserExists, message, err⟩)) →
      (AuthHandler.Register env userService (.ok data) s).2.status = 409) ∧
    (∀ text, userService.Register
        { Username := data.Username, Email := data.Email, PasswordHash := data.Password } s
        = (s1, .error (.other text)) →
      (AuthHandler.Register env userService (.ok data) s).2.status = 500) := by
  constructor
  · intro message err hreg
    simp only [AuthHandler.Register, hstrong, hreg]
    rfl
  · intro text hreg
    simp only [AuthHandler.Register, hstrong, hreg]
    rfl

/-- C18: evaluation of `AuthHandler.Register` on the requests of the handler test
`TestRegister`, where the claim fails.  The request is well formed and its
password strong.  When `Register` returns nil the handler answers 200, not 201;
when it returns the plain error `username already exists` of the test the
handler answers 500, not 409; it answers 409 when the error is the `AppError`
with code `ErrUserExists` that `UserService.Register` returns. -/
theorem C18_register_handler_status :
    isPasswordStrong asciiTables "StrongP@ssw0rd" = true ∧
    (AuthHandler.Register {} (mockUserService (.ok { ID := 1 }) (.ok {}))
      (.ok { Username := "testuser", Email := "test@example.com", Password := "StrongP@ssw0rd" })
      []).2.status = 200 ∧
    (AuthHandler.Register {}
      (mockUserService (.error (.other "username already exists")) (.ok {}))
      (.ok { Username := "testuser", Email := "test@example.com", Password := "StrongP@ssw0rd" })
      []).2.status = 500 ∧
    (AuthHandler.Register {}
      (mockUserService
        (.error (.app (errors.New errors.ErrUserExists "username already exists"))) (.ok {}))
      (.ok { Username := "testuser", Email := "test@example.com", Password := "StrongP@ssw0rd" })
      []).2.status = 409 := by
  refine ⟨by decide, by rfl, by rfl, by rfl⟩

/-- For every user service: a bound login request whose `Login` returns an error is
answered with status 401. -/
theorem Login_handler_error {σ : Type} (env : Env) (userService : UserServiceInterface σ)
    (data : LoginData) (s s1 : σ) (err : GoError)
    (hlogin : userService.Login data.Email data.Password s = (s1, .error err)) :
    (AuthHandler.Login env userService (.ok data) s).2.status = 401 := by
  simp only [AuthHandler.Login, hlogin]
  rfl

/-- For every user service: a bound login request whose `Login` returns a user, with a
token generated, is answered with status 200 and a body whose top-level keys
are `code`, `message` and `data`; the token is the member `token` of `data`. -/
theorem Login_handler_success {σ : Type} (env : Env) (userService : UserServiceInterface σ)
    (data : LoginData) (s s1 : σ) (user : User) (token : String)
    (hlogin : userService.Login data.Email data.Password s = (s1, .ok user))
    (htoken : util.GenerateToken env user.ID = .ok token) :
    (AuthHandler.Login env userService (.ok data) s).2.status = 200 ∧
    (AuthHandler.Login env userService (.ok data) s).2.body.keys = ["code", "message", "data"] ∧
    ((AuthHandler.Login env userService (.ok data) s).2.body.get? "data").map Json.keys
      = some ["token", "user"] := by
  simp only [AuthHandler.Login, hlogin, htoken]
  exact ⟨rfl, rfl, rfl⟩

/-- C19: evaluation of `AuthHandler.Login` on the requests of `TestLogin`, where the claim
fails.  When `Login` returns a user the handler answers 200, but the JSON object
it writes has the top-level keys `code`, `message` and `data`; `token` is not
among them, it is a member of `data`.  When `Login` returns an error the handler
answers 401. -/
theorem C19_login_handler_token_key :
    (AuthHandler.Login {} (mockUserService (.ok {}) (.ok { ID := 1, Email := "test@example.com" }))
      (.ok { Email := "test@example.com", Password := "password123" }) []).2.status = 200 ∧
    (AuthHandler.Login {} (mockUserService (.ok {}) (.ok { ID := 1, Email := "test@example.com" }))
      (.ok { Email := "test@example.com", Password := "password123" }) []).2.body.keys
      = ["code", "message", "data"] ∧
    "token" ∉ (AuthHandler.Login {}
      (mockUserService (.ok {}) (.ok { ID := 1, Email := "test@example.com" }))
      (.ok { Email := "test@example.com", Password := "password123" }) []).2.body.keys ∧
    ((AuthHandler.Login {}
      (mockUserService (.ok {}) (.ok { ID := 1, Email := "test@example.com" }))
      (.ok { Email := "test@example.com", Password := "password123" }) []).2.body.get?
        "data").map Json.keys = some ["token", "user"] ∧
    (AuthHandler.Login {}
      (mockUserService (.ok {}) (.error (.other "invalid credentials")))
      (.ok { Email := "test@example.com", Password := "wrongpassword" }) []).2.status = 401 := by
  refine ⟨by rfl, by rfl, by decide, by rfl, by rfl⟩

/-! ## Theorems: likes -/

/-- Whenever `CreateLike` returns an error the likes are as before. -/
theorem CreateLike_error_inv (env : Env) (db : DB) (like : Like) (e : String)
    (h : (communityRepository.CreateLike env db like).2 = .error e) :
    (communityRepository.CreateLike env db like).1.likes = db.likes := by
  revert h
  simp only [communityRepository.CreateLike]
  cases env.fails .begin with
  | some e0 => simp
  | none =>
  cases env.fails (.postExists like.PostID) with
  | some e0 => simp
  | none =>
  simp only []
  split
  · simp
  · cases insertLikeError env db like.UserID like.PostID with
    | some e0 =>
      simp only []
      split <;> simp
    | none =>
      cases env.fails .commit with
      | some e0 => simp [rollback]
      | none => simp

/-- A successful `CreateLike` found no like of the post by the user and appended one. -/
theorem CreateLike_ok_inv (env : Env) (db : DB) (like : Like)
    (h : (communityRepository.CreateLike env db like).2 = .ok ()) :
    likesDuplicate db like.UserID like.PostID = false ∧
    (communityRepository.CreateLike env db like).1.likes
      = db.likes ++ [{ ID := db.nextLikeID, UserID := like.UserID, PostID := like.PostID,
                       CreatedAt := env.now }] := by
  revert h
  simp only [communityRepository.CreateLike, insertLikeError]
  cases env.fails .begin with
  | some e0 => simp
  | none =>
  cases env.fails (.postExists like.PostID) with
  | some e0 => simp
  | none =>
  simp only []
  split
  · simp
  · cases env.fails (.insertLike like.UserID like.PostID) with
    | some e0 =>
      simp only []
      split <;> simp
    | none =>
      simp only []
      cases hdup : likesDuplicate db like.UserID like.PostID with
      | true =>
        simp only [if_true]
        split <;> simp
      | false =>
        simp only [Bool.false_eq_true, if_false]
        cases env.fails .commit with
        | some e0 => simp
        | none => simp

/-- With a like of the post by the user already stored, `CreateLike` returns an error,
which is `already liked` when the post exists and the database does not fail. -/
theorem CreateLike_duplicate (env : Env) (db : DB) (like : Like)
    (hdup : likesDuplicate db like.UserID like.PostID = true) :
    (∃ e, (communityRepository.CreateLike env db like).2 = .error e) ∧
    ((∀ c, env.fails c = none) → db.posts.any (fun p => p.ID = like.PostID) = true →
      (communityRepository.CreateLike env db like).2 = .error "already liked") := by
  constructor
  · cases hr : (communityRepository.CreateLike env db like).2 with
    | error e => exact ⟨e, rfl⟩
    | ok u =>
      have := (CreateLike_ok_inv env db like hr).1
      rw [hdup] at this
      exact absurd this (by simp)
  · intro hf hpost
    have hc : stringsContains duplicateEntryError "Duplicate entry" = true := by decide
    simp [communityRepository.CreateLike, insertLikeError, hf, hpost, hdup, hc]

/-- Whenever `DeleteLike` returns an error the likes are as before. -/
theorem DeleteLike_error_inv (env : Env) (db : DB) (userID postID : Nat) (e : String)
    (h : (communityRepository.DeleteLike env db userID postID).2 = .error e) :
    (communityRepository.DeleteLike env db userID postID).1.likes = db.likes := by
  revert h
  simp only [communityRepository.DeleteLike]
  cases env.fails .begin with
  | some e0 => simp
  | none =>
  cases env.fails (.likeExists userID postID) with
  | some e0 => simp
  | none =>
  simp only []
  split
  · simp
  · cases env.fails (.deleteLike userID postID) with
    | some e0 => simp
    | none =>
      cases env.fails .commit with
      | some e0 => simp [rollback]
      | none => simp

/-- A successful `DeleteLike` has removed the likes of the post by the user. -/
theorem DeleteLike_ok_inv (env : Env) (db : DB) (userID postID : Nat)
    (h : (communityRepository.DeleteLike env db userID postID).2 = .ok ()) :
    likesDuplicate db userID postID = true ∧
    (communityRepository.DeleteLike env db userID postID).1.likes
      = db.likes.filter (fun l => ¬ (l.UserID = userID ∧ l.PostID = postID)) := by
  revert h
  simp only [communityRepository.DeleteLike, likesDuplicate]
  cases env.fails .begin with
  | some e0 => simp
  | none =>
  cases env.fails (.likeExists userID postID) with
  | some e0 => simp
  | none =>
  simp only []
  cases hany : db.likes.any (fun l => decide (l.UserID = userID ∧ l.PostID = postID)) with
  | false => simp
  | true =>
    simp only [Bool.not_true, Bool.false_eq_true, if_false]
    cases env.fails (.deleteLike userID postID) with
    | some e0 => simp
    | none =>
      cases env.fails .commit with
      | some e0 => simp
      | none => simp

/-- Without a like of the post by the user, `DeleteLike` returns an error, which is
`like not found` when the database does not fail. -/
theorem DeleteLike_missing (env : Env) (db : DB) (userID postID : Nat)
    (hnone : likesDuplicate db userID postID = false) :
    (∃ e, (communityRepository.DeleteLike env db userID postID).2 = .error e) ∧
    ((∀ c, env.fails c = none) →
      (communityRepository.DeleteLike env db userID postID).2 = .error "like not found") := by
  constructor
  · cases hr : (communityRepository.DeleteLike env db userID postID).2 with
    | error e => exact ⟨e, rfl⟩
    | ok u =>
      have := (DeleteLike_ok_inv env db userID postID hr).1
      rw [hnone] at this
      exact absurd this (by simp)
  · intro hf
    have hany : db.likes.any (fun l => decide (l.UserID = userID ∧ l.PostID = postID)) = false :=
      hnone
    simp only [communityRepository.DeleteLike, hf, hany]
    rfl

/-- A like that succeeds followed by an unlike that succeeds restores the likes. -/
theorem like_then_unlike_likes (env env2 : Env) (db : DB) (userID postID : Nat)
    (hlike : (communityRepository.CreateLike env db { UserID := userID, PostID := postID }).2
      = .ok ())
    (hunlike : (communityRepository.DeleteLike env2
      (communityRepository.CreateLike env db { UserID := userID, PostID := postID }).1
      userID postID).2 = .ok ()) :
    (communityRepository.DeleteLike env2
      (communityRepository.CreateLike env db { UserID := userID, PostID := postID }).1
      userID postID).1.likes = db.likes := by
  obtain ⟨hnd, hl⟩ := CreateLike_ok_inv env db { UserID := userID, PostID := postID } hlike
  rw [(DeleteLike_ok_inv env2 _ userID postID hunlike).2, hl]
  simp only [List.filter_append, List.filter_cons, List.filter_nil]
  have hkeep : db.likes.filter (fun l => decide ¬ (l.UserID = userID ∧ l.PostID = postID))
      = db.likes := by
    rw [List.filter_eq_self]
    intro l hl
    have hnd2 : db.likes.any (fun l => decide (l.UserID = userID ∧ l.PostID = postID)) = false :=
      hnd
    rw [List.any_eq_false] at hnd2
    have hl2 := hnd2 l hl
    simp only [decide_eq_true_eq] at hl2
    simp only [decide_not, Bool.not_eq_true', decide_eq_false_iff_not]
    exact hl2
  rw [hkeep]
  simp

/-- The handler `LikePost` on a post the user already likes: no 200, and 400 when the
check query does not fail; the likes stay as they are. -/
theorem LikePost_already_liked (env : Env) (db : DB) (userID postID : Nat)
    (hdup : likesDuplicate db userID postID = true) :
    (CommunityHandler.LikePost env db (some postID) userID).1 = db ∧
    (CommunityHandler.LikePost env db (some postID) userID).2.status ≠ 200 ∧
    (env.fails (.isPostLikedByUser postID userID) = none →
      (CommunityHandler.LikePost env db (some postID) userID).2.status = 400) := by
  have hany : db.likes.any (fun l => decide (l.PostID = postID ∧ l.UserID = userID)) = true := by
    simp only [likesDuplicate, List.any_eq_true, decide_eq_true_eq] at hdup ⊢
    obtain ⟨l, hl, h1, h2⟩ := hdup
    exact ⟨l, hl, h2, h1⟩
  simp only [CommunityHandler.LikePost, communityRepository.IsPostLikedByUser, Option.getD_some]
  cases env.fails (.isPostLikedByUser postID userID) with
  | some e => simp
  | none =>
    simp only [hany]
    simp

/-- The handler `UnlikePost` on a post the user does not like: no 200, and 400 when the
check query does not fail; the likes stay as they are. -/
theorem UnlikePost_not_liked (env : Env) (db : DB) (userID postID : Nat)
    (hnone : likesDuplicate db userID postID = false) :
    (CommunityHandler.UnlikePost env db (some postID) userID).1 = db ∧
    (CommunityHandler.UnlikePost env db (some postID) userID).2.status ≠ 200 ∧
    (env.fails (.isPostLikedByUser postID userID) = none →
      (CommunityHandler.UnlikePost env db (some postID) userID).2.status = 400) := by
  have hany : db.likes.any (fun l => decide (l.PostID = postID ∧ l.UserID = userID)) = false := by
    simp only [likesDuplicate, List.any_eq_false, decide_eq_true_eq] at hnone ⊢
    intro l hl h
    exact hnone l hl ⟨h.2, h.1⟩
  simp only [CommunityHandler.UnlikePost, communityRepository.IsPostLikedByUser]
  cases env.fails (.isPostLikedByUser postID userID) with
  | some e => simp
  | none =>
    simp only [hany]
    simp

/-- A 200 of `LikePost` means that `CreateLike` succeeded on the store, and the store
after the handler is the one after `CreateLike`. -/
theorem LikePost_ok_inv (env : Env) (db : DB) (userID postID : Nat)
    (h : (CommunityHandler.LikePost env db (some postID) userID).2.status = 200) :
    (communityRepository.CreateLike env db { UserID := userID, PostID := postID }).2 = .ok () ∧
    (CommunityHandler.LikePost env db (some postID) userID).1
      = (communityRepository.CreateLike env db { UserID := userID, PostID := postID }).1 := by
  revert h
  simp only [CommunityHandler.LikePost, communityRepository.IsPostLikedByUser, Option.getD_some]
  cases env.fails (.isPostLikedByUser postID userID) with
  | some e => simp
  | none =>
    cases db.likes.any (fun l => decide (l.PostID = postID ∧ l.UserID = userID)) with
    | true => simp
    | false =>
      simp only []
      cases hc : communityRepository.CreateLike env db { UserID := userID, PostID := postID } with
      | mk db1 r =>
        cases r with
        | error e => simp
        | ok u => simp

/-- A 200 of `UnlikePost` means that `DeleteLike` succeeded on the store, and the store
after the handler is the one after `DeleteLike`. -/
theorem UnlikePost_ok_inv (env : Env) (db : DB) (userID postID : Nat)
    (h : (CommunityHandler.UnlikePost env db (some postID) userID).2.status = 200) :
    (communityRepository.DeleteLike env db userID postID).2 = .ok () ∧
    (CommunityHandler.UnlikePost env db (some postID) userID).1
      = (communityRepository.DeleteLike env db userID postID).1 := by
  revert h
  simp only [CommunityHandler.UnlikePost, communityRepository.IsPostLikedByUser]
  cases env.fails (.isPostLikedByUser postID userID) with
  | some e => simp
  | none =>
    cases db.likes.any (fun l => decide (l.PostID = postID ∧ l.UserID = userID)) with
    | false => simp
    | true =>
      simp only []
      cases hc : communityRepository.DeleteLike env db userID postID with
      | mk db1 r =>
        cases r with
        | error e => simp
        | ok u => simp

/-- C12: for every user and post, in the repository and in the handlers.  When the user
already likes the post, `CreateLike` returns an error (`already liked` when the
post exists and the database does not fail), `LikePost` does not answer 200,
and the likes are unchanged.  When the user does not like the post, `DeleteLike`
returns an error (`like not found` when the database does not fail),
`UnlikePost` does not answer 200, and the likes are unchanged.  A like that
succeeds followed at once by an unlike that succeeds leaves the table of likes,
and with it `GetLikeCount` of the post, as before the like. -/
theorem C12_like_unlike (env : Env) (db : DB) (userID postID : Nat) :
    (likesDuplicate db userID postID = true →
      (∃ e, (communityRepository.CreateLike env db { UserID := userID, PostID := postID }).2
        = .error e) ∧
      ((∀ c, env.fails c = none) → db.posts.any (fun p => p.ID = postID) = true →
        (communityRepository.CreateLike env db { UserID := userID, PostID := postID }).2
          = .error "already liked") ∧
      (communityRepository.CreateLike env db { UserID := userID, PostID := postID }).1.likes
        = db.likes ∧
      (CommunityHandler.LikePost env db (some postID) userID).2.status ≠ 200 ∧
      (CommunityHandler.LikePost env db (some postID) userID).1.likes = db.likes) ∧
    (likesDuplicate db userID postID = false →
      (∃ e, (communityRepository.DeleteLike env db userID postID).2 = .error e) ∧
      ((∀ c, env.fails c = none) →
        (communityRepository.DeleteLike env db userID postID).2 = .error "like not found") ∧
      (communityRepository.DeleteLike env db userID postID).1.likes = db.likes ∧
      (CommunityHandler.UnlikePost env db (some postID) userID).2.status ≠ 200 ∧
      (CommunityHandler.UnlikePost env db (some postID) userID).1.likes = db.likes) ∧
    (∀ env2 env3 : Env,
      (communityRepository.CreateLike env db { UserID := userID, PostID := postID }).2 = .ok () →
      (communityRepository.DeleteLike env2
        (communityRepository.CreateLike env db { UserID := userID, PostID := postID }).1
        userID postID).2 = .ok () →
      communityRepository.GetLikeCount env3
        (communityRepository.DeleteLike env2
          (communityRepository.CreateLike env db { UserID := userID, PostID := postID }).1
          userID postID).1 postID
        = communityRepository.GetLikeCount env3 db postID) ∧
    (∀ env2 env3 : Env,
      (CommunityHandler.LikePost env db (some postID) userID).2.status = 200 →
      (CommunityHandler.UnlikePost env2
        (CommunityHandler.LikePost env db (some postID) userID).1
        (some postID) userID).2.status = 200 →
      communityRepository.GetLikeCount env3
        (CommunityHandler.UnlikePost env2
          (CommunityHandler.LikePost env db (some postID) userID).1
          (some postID) userID).1 postID
        = communityRepository.GetLikeCount env3 db postID) := by
  refine ⟨?_, ?_, ?_, ?_⟩
  · intro hdup
    obtain ⟨⟨e, he⟩, hmsg⟩ :=
      CreateLike_duplicate env db { UserID := userID, PostID := postID } hdup
    obtain ⟨hdb, hst, -⟩ := LikePost_already_liked env db userID postID hdup
    exact ⟨⟨e, he⟩, hmsg, CreateLike_error_inv env db _ e he, hst, by rw [hdb]⟩
  · intro hnone
    obtain ⟨⟨e, he⟩, hmsg⟩ := DeleteLike_missing env db userID postID hnone
    obtain ⟨hdb, hst, -⟩ := UnlikePost_not_liked env db userID postID hnone
    exact ⟨⟨e, he⟩, hmsg, DeleteLike_error_inv env db userID postID e he, hst, by rw [hdb]⟩
  · intro env2 env3 hlike hunlike
    have hl := like_then_unlike_likes env env2 db userID postID hlike hunlike
    simp only [communityRepository.GetLikeCount, hl]
  · intro env2 env3 hlike hunlike
    obtain ⟨hlike1, hdb1⟩ := LikePost_ok_inv env db userID postID hlike
    rw [hdb1] at hunlike ⊢
    obtain ⟨hunlike1, hdb2⟩ := UnlikePost_ok_inv env2 _ userID postID hunlike
    rw [hdb2]
    have hl := like_then_unlike_likes env env2 db userID postID hlike1 hunlike1
    simp only [communityRepository.GetLikeCount, hl]

theorem C12_like_unlike_witness :
    likesDuplicate likesDB 3 5 = true ∧
    (communityRepository.CreateLike {} likesDB { UserID := 3, PostID := 5 }).2
      = .error "already liked" ∧
    likesDuplicate likesDB 4 5 = false ∧
    (communityRepository.DeleteLike {} likesDB 4 5).2 = .error "like not found" ∧
    (communityRepository.CreateLike {} likesDB { UserID := 4, PostID := 5 }).2 = .ok () ∧
    communityRepository.GetLikeCount {} likesDB 5 = (1, none) ∧
    communityRepository.GetLikeCount {}
      (communityRepository.CreateLike {} likesDB { UserID := 4, PostID := 5 }).1 5 = (2, none) ∧
    communityRepository.GetLikeCount {}
      (communityRepository.DeleteLike {}
        (communityRepository.CreateLike {} likesDB { UserID := 4, PostID := 5 }).1 4 5).1 5
      = communityRepository.GetLikeCount {} likesDB 5 :=
  ⟨by decide,
    ((C12_like_unlike {} likesDB 3 5).1 (by decide)).2.1 (fun _ => rfl) (by decide),
    by decide,
    ((C12_like_unlike {} likesDB 4 5).2.1 (by decide)).2.1 (fun _ => rfl),
    by rfl, by decide, by decide,
    (C12_like_unlike {} likesDB 4 5).2.2.1 {} {} (by rfl) (by rfl)⟩

/-! ## Theorems: status of the three conflicts -/

/-- The newest refund request of a list is one of the list. -/
theorem latestRefundRequest_mem (rs : List RefundRequest) (b : RefundRequest)
    (h : latestRefundRequest rs = some b) : b ∈ rs := by
  induction rs generalizing b with
  | nil => simp [latestRefundRequest] at h
  | cons r rs ih =>
    simp only [latestRefundRequest] at h
    cases hl : latestRefundRequest rs with
    | none =>
      rw [hl] at h
      simp only [Option.some.injEq] at h
      rw [← h]
      exact List.mem_cons_self _ _
    | some c =>
      rw [hl] at h
      by_cases hlt : r.CreatedAt < c.CreatedAt
      · simp only [if_pos hlt, Option.some.injEq] at h
        rw [← h]
        exact List.mem_cons_of_mem _ (ih c hl)
      · simp only [if_neg hlt, Option.some.injEq] at h
        rw [← h]
        exact List.mem_cons_self _ _

/-- The handler `LikePost` never answers 409. -/
theorem LikePost_status_ne_409 (env : Env) (db : DB) (idParam : Option Nat) (userID : Nat) :
    (CommunityHandler.LikePost env db idParam userID).2.status ≠ 409 := by
  simp only [CommunityHandler.LikePost, communityRepository.IsPostLikedByUser]
  cases env.fails (.isPostLikedByUser (idParam.getD 0) userID) with
  | some e => simp
  | none =>
    cases db.likes.any (fun l => decide (l.PostID = idParam.getD 0 ∧ l.UserID = userID)) with
    | true => simp
    | false =>
      simp only []
      cases hc : communityRepository.CreateLike env db
          { UserID := userID, PostID := idParam.getD 0 } with
      | mk db1 r =>
        cases r with
        | error e => simp
        | ok u => simp

/-- The refund handler answers 409 to a request for an order of the caller that already has
a refund request in one of the statuses the system writes, when the address
row of the order is stored and the two reads do not fail. -/
theorem RequestRefund_handler_conflict (env : Env) (db : DB) (orderID userID : Nat)
    (order : Order)
    (hf1 : env.fails (.getOrderByID orderID) = none)
    (hf2 : env.fails (.getRefundStatus orderID) = none)
    (ho : db.orders.find? (fun o => o.ID = orderID) = some order)
    (ha : ∃ a ∈ db.userAddresses, order.AddressID = some a.ID)
    (hu : order.UserID = userID)
    (hex : ∃ r ∈ db.refundRequests, r.OrderID = orderID)
    (hst : ∀ r ∈ db.refundRequests, r.OrderID = orderID →
      r.Status = "pending" ∨ r.Status = "approved" ∨ r.Status = "rejected") :
    (PaymentHandler.RequestRefundForFailedProject env db (some orderID) userID).2.status = 409 ∧
    (PaymentHandler.RequestRefundForFailedProject env db (some orderID) userID).1 = db := by
  have hget := GetOrderByID_of_address env db orderID order hf1 ho ha
  cases hl : latestRefundRequest (db.refundRequests.filter (fun r => r.OrderID = orderID)) with
  | none =>
    exfalso
    rw [latestRefundRequest_eq_none] at hl
    obtain ⟨r, hr, hro⟩ := hex
    have : r ∈ db.refundRequests.filter (fun r => r.OrderID = orderID) := by
      simp [List.mem_filter, hr, hro]
    rw [hl] at this
    exact List.not_mem_nil _ this
  | some b =>
    have hb := latestRefundRequest_mem _ _ hl
    simp only [List.mem_filter, decide_eq_true_eq] at hb
    have hsvc : PaymentService.RequestRefundForFailedProject env db orderID userID
        = (db, .error ("该订单已存在退款申请，状态为：" ++ b.Status)) := by
      simp [PaymentService.RequestRefundForFailedProject, hget,
        PaymentRepository.GetRefundStatus, hf2, hu, hl]
    have hcases : stringsContains ("该订单已存在退款申请，状态为：" ++ b.Status) "订单不存在" = false ∧
        stringsContains ("该订单已存在退款申请，状态为：" ++ b.Status) "订单不属于当前用户" = false ∧
        stringsContains ("该订单已存在退款申请，状态为：" ++ b.Status) "已存在退款申请" = true := by
      rcases hst b hb.1 hb.2 with h | h | h <;> rw [h] <;> decide
    simp only [PaymentHandler.RequestRefundForFailedProject, hsvc, hcases.1, hcases.2.1,
      hcases.2.2]
    exact ⟨by rfl, by rfl⟩

/-- With the MySQL repository: a well-formed registration with a strong password whose
username is in the table `users` is answered with 409 and stores nothing, when
the lookup does not fail. -/
theorem Register_handler_conflict (env : Env) (db : DB) (data : RegisterData)
    (hstrong : isPasswordStrong env.unicode data.Password = true)
    (hf : env.fails (.findByUsername data.Username) = none)
    (hex : ∃ u ∈ db.users, u.Username = data.Username) :
    (AuthHandler.Register env (UserService env (userRepository env)) (.ok data) db).2.status
      = 409 ∧
    (AuthHandler.Register env (UserService env (userRepository env)) (.ok data) db).1 = db := by
  obtain ⟨u, hu, hname⟩ := hex
  have hfind : ∃ found, db.users.find? (fun u => u.Username = data.Username) = some found := by
    cases hq : db.users.find? (fun u => u.Username = data.Username) with
    | some found => exact ⟨found, rfl⟩
    | none =>
      rw [List.find?_eq_none] at hq
      have := hq u hu
      simp [hname] at this
  obtain ⟨found, hfound⟩ := hfind
  have hreg : (UserService env (userRepository env)).Register
      { Username := data.Username, Email := data.Email, PasswordHash := data.Password } db
      = (db, .error (.app (errors.New errors.ErrUserExists "username already exists"))) := by
    apply Register_username_taken env (userRepository env) _ db db found
    simp [userRepository, userRepository.FindByUsername, hf, hfound]
  simp only [AuthHandler.Register, hstrong, hreg]
  exact ⟨by rfl, by rfl⟩

/-- C13, the claim as written fails: user 3 already likes post 5, the database does not
fail, and `LikePost` answers 400, not 409. -/
theorem C13_counterexample_like_400 :
    likesDuplicate likesDB 3 5 = true ∧
    (CommunityHandler.LikePost {} likesDB (some 5) 3).2.status = 400 ∧
    (CommunityHandler.LikePost {} likesDB (some 5) 3).2.status ≠ 409 := by
  refine ⟨by decide, by decide, by decide⟩

/-- C13, amended: of the three conflicts two are answered with 409 and one with 400.
A refund request for an order of the caller that already has a refund request
(in status pending, approved or rejected) is answered with 409 when the address
row of the order is stored (the order is read together with its address) and
the reads of the order and of the request do not fail.  A well-formed registration with
a strong password whose username is already in `users` is answered with 409
when the lookup does not fail.  A like of a post the user already likes is
answered with 400 when the check query does not fail, and `LikePost` answers
409 to no request at all.  None of the three stores anything. -/
theorem C13_conflict_statuses (env : Env) (db : DB) :
    (∀ orderID userID order,
      env.fails (.getOrderByID orderID) = none →
      env.fails (.getRefundStatus orderID) = none →
      db.orders.find? (fun o => o.ID = orderID) = some order →
      (∃ a ∈ db.userAddresses, order.AddressID = some a.ID) →
      order.UserID = userID →
      (∃ r ∈ db.refundRequests, r.OrderID = orderID) →
      (∀ r ∈ db.refundRequests, r.OrderID = orderID →
        r.Status = "pending" ∨ r.Status = "approved" ∨ r.Status = "rejected") →
      (PaymentHandler.RequestRefundForFailedProject env db (some orderID) userID).2.status = 409 ∧
      (PaymentHandler.RequestRefundForFailedProject env db (some orderID) userID).1 = db) ∧
    (∀ data : RegisterData,
      isPasswordStrong env.unicode data.Password = true →
      env.fails (.findByUsername data.Username) = none →
      (∃ u ∈ db.users, u.Username = data.Username) →
      (AuthHandler.Register env (UserService env (userRepository env)) (.ok data) db).2.status
        = 409 ∧
      (AuthHandler.Register env (UserService env (userRepository env)) (.ok data) db).1 = db) ∧
    (∀ userID postID,
      likesDuplicate db userID postID = true →
      env.fails (.isPostLikedByUser postID userID) = none →
      (CommunityHandler.LikePost env db (some postID) userID).2.status = 400 ∧
      (CommunityHandler.LikePost env db (some postID) userID).1 = db) ∧
    (∀ idParam userID, (CommunityHandler.LikePost env db idParam userID).2.status ≠ 409) := by
  refine ⟨?_, ?_, ?_, ?_⟩
  · intro orderID userID order hf1 hf2 ho ha hu hex hst
    exact RequestRefund_handler_conflict env db orderID userID order hf1 hf2 ho ha hu hex hst
  · intro data hstrong hf hex
    exact Register_handler_conflict env db data hstrong hf hex
  · intro userID postID hdup hf
    obtain ⟨hdb, -, h400⟩ := LikePost_already_liked env db userID postID hdup
    exact ⟨h400 hf, hdb⟩
  · intro idParam userID
    exact LikePost_status_ne_409 env db idParam userID

theorem C13_conflict_statuses_witness :
    decidedRefundsDB.orders.map (fun o => (o.ID, o.UserID, o.AddressID))
      = [(1, 3, some 5), (2, 3, some 5), (3, 3, some 5)] ∧
    decidedRefundsDB.userAddresses.map (fun a => a.ID) = [5] ∧
    decidedRefundsDB.refundRequests.map (fun r => (r.OrderID, r.Status))
      = [(1, "rejected"), (2, "approved")] ∧
    (PaymentHandler.RequestRefundForFailedProject {} decidedRefundsDB (some 1) 3).2.status
      = 409 ∧
    isPasswordStrong asciiTables "StrongP@ssw0rd" = true ∧
    (AuthHandler.Register {} (UserService {} (userRepository {}))
      (.ok { Username := "existinguser", Email := "new@example.com", Password := "StrongP@ssw0rd" })
      likesDB).2.status = 409 ∧
    likesDuplicate likesDB 3 5 = true ∧
    (CommunityHandler.LikePost {} likesDB (some 5) 3).2.status = 400 :=
  ⟨by decide, by decide, by decide,
    ((C13_conflict_statuses {} decidedRefundsDB).1 1 3
      { ID := 1, UserID := 3, ProjectID := 7, PledgeID := 1, Amount := 800, Status := "paid",
        AddressID := some 5 }
      rfl rfl (by rfl)
      ⟨{ ID := 5, UserID := 3, City := "Hangzhou", IsDefault := true },
        by simp [decidedRefundsDB], rfl⟩
      rfl
      ⟨{ ID := 1, OrderID := 1, UserID := 3, Reason := "用户申请退款", Status := "rejected" },
        by simp [decidedRefundsDB], rfl⟩
      (by
        intro r hr _
        simp only [decidedRefundsDB, List.mem_cons, List.mem_singleton, List.not_mem_nil,
          or_false] at hr
        rcases hr with hr | hr <;> rw [hr]
        · exact Or.inr (Or.inr rfl)
        · exact Or.inr (Or.inl rfl))).1,
    by decide,
    ((C13_conflict_statuses {} likesDB).2.1
      { Username := "existinguser", Email := "new@example.com", Password := "StrongP@ssw0rd" }
      (by decide) rfl
      ⟨{ ID := 3, Username := "existinguser", Email := "u3@example.com" },
        by simp [likesDB], rfl⟩).1,
    by decide,
    ((C13_conflict_statuses {} likesDB).2.2.1 3 5 (by decide) rfl).1⟩

/-! ## Theorems: total amount of a project -/

/-- C14: evaluation on a store in which project 7 has `total_amount` 1200, where the claim
fails twice.  A request to `ProjectHandler.UpdateProject` for project 7 (a new
title, no goals) is answered with 200 and leaves the row with `total_amount` 0
and an empty status.  A request to `PaymentHandler.CreatePayment` with the
amount -500, which the validation `required` accepts, is answered with 201 and
leaves the row with `total_amount` 700. -/
theorem C14_total_amount_decreases :
    totalAmountOf fundedDB 7 = some 1200 ∧
    (ProjectHandler.UpdateProject exampleEnv fundedDB (some 7)
      (.ok { Title := "Lamp 2", Description := "a lamp", EndDate := 100 })).2.status = 200 ∧
    totalAmountOf
      (ProjectHandler.UpdateProject exampleEnv fundedDB (some 7)
        (.ok { Title := "Lamp 2", Description := "a lamp", EndDate := 100 })).1 7 = some 0 ∧
    (ProjectHandler.UpdateProject exampleEnv fundedDB (some 7)
      (.ok { Title := "Lamp 2", Description := "a lamp", EndDate := 100 })).1.projects.map
        (fun p => p.Status) = [""] ∧
    CreatePaymentInput.required { Amount := -500, AddressID := 5 } = true ∧
    (PaymentHandler.CreatePayment exampleEnv fundedDB (some 7)
      (some { Amount := -500, AddressID := 5 }) 3).2 = 201 ∧
    totalAmountOf
      (PaymentHandler.CreatePayment exampleEnv fundedDB (some 7)
        (some { Amount := -500, AddressID := 5 }) 3).1 7 = some 700 := by
  refine ⟨by rfl, by rfl, by rfl, by rfl, by rfl, by rfl, ?_⟩
  simp [PaymentHandler.CreatePayment, CreatePaymentInput.required, PaymentService.ProcessPayment,
    ProjectRepository.GetProjectByID, exampleEnv, fundedDB, totalAmountOf, addAmountToProject]
  norm_num

/-! ## Theorems: automatic refunds -/

/-- C11, the claim as written fails, on runs that start from a store with the users 3 and 4
and no address.  After `CreateAddress` of a first address with `is_default =
false` user 3 has one address and no default.  After two `CreateAddress` (the
first with the flag) and an `UpdateAddress` of the second address with
`is_default = true` user 3 has two defaults.  After two `CreateAddress` (the
first with the flag) and `DeleteAddress` of the first user 3 has one address
and no default. -/
theorem C11_counterexample_defaults :
    addressIDs (runAddressCalls usersDB [(exampleEnv, .CreateAddress (homeAddress 3 false))]) 3
      = [1] ∧
    defaultAddressIDs
      (runAddressCalls usersDB [(exampleEnv, .CreateAddress (homeAddress 3 false))]) 3 = [] ∧
    defaultAddressIDs
      (runAddressCalls usersDB
        [(exampleEnv, .CreateAddress (homeAddress 3 true)),
         (exampleEnv, .CreateAddress (homeAddress 3 false)),
         (exampleEnv, .UpdateAddress { homeAddress 3 true with ID := 2 })]) 3 = [1, 2] ∧
    addressIDs
      (runAddressCalls usersDB
        [(exampleEnv, .CreateAddress (homeAddress 3 true)),
         (exampleEnv, .CreateAddress (homeAddress 3 false)),
         (exampleEnv, .DeleteAddress 1)]) 3 = [2] ∧
    defaultAddressIDs
      (runAddressCalls usersDB
        [(exampleEnv, .CreateAddress (homeAddress 3 true)),
         (exampleEnv, .CreateAddress (homeAddress 3 false)),
         (exampleEnv, .DeleteAddress 1)]) 3 = [] := by
  refine ⟨by decide, by decide, by decide, by decide, by decide⟩

theorem length_le_one_of_nodup {l : List Nat} (hnd : l.Nodup)
    (hall : ∀ x ∈ l, ∀ y ∈ l, x = y) : l.length ≤ 1 := by
  match l, hnd, hall with
  | [], _, _ => simp
  | [x], _, _ => simp
  | x :: y :: rest, hnd, hall =>
    have hxy : x = y :=
      hall x (List.mem_cons_self _ _) y (List.mem_cons_of_mem _ (List.mem_cons_self _ _))
    have := (List.nodup_cons.1 hnd).1
    exact absurd (hxy ▸ List.mem_cons_self _ _) this

theorem eq_of_length_le_one {l : List Nat} (hl : l.length ≤ 1) {x y : Nat} (hx : x ∈ l)
    (hy : y ∈ l) : x = y := by
  match l, hl, hx, hy with
  | [z], _, hx, hy =>
    rw [List.mem_singleton] at hx hy
    rw [hx, hy]
  | _ :: _ :: _, hl, _, _ => simp at hl

theorem mem_defaultAddressIDs (db : DB) (userID x : Nat) :
    x ∈ defaultAddressIDs db userID ↔
      ∃ a ∈ db.userAddresses, a.UserID = userID ∧ a.IsDefault = true ∧ a.ID = x := by
  simp only [defaultAddressIDs, List.mem_map, List.mem_filter, decide_eq_true_eq]
  constructor
  · rintro ⟨a, ⟨ha, hu, hd⟩, hx⟩
    exact ⟨a, ha, hu, hd, hx⟩
  · rintro ⟨a, ha, hu, hd, hx⟩
    exact ⟨a, ⟨ha, hu, hd⟩, hx⟩

/-- In a consistent table every user has at most one default address. -/
theorem defaultAddressIDs_length_le_one (db : DB) (h : AddressesConsistent db) (userID : Nat) :
    (defaultAddressIDs db userID).length ≤ 1 := by
  apply length_le_one_of_nodup
  · exact List.Nodup.sublist (List.Sublist.map _ (List.filter_sublist _)) h.1
  · intro x hx y hy
    rw [mem_defaultAddressIDs] at hx hy
    obtain ⟨a, ha, hau, had, hax⟩ := hx
    obtain ⟨b, hb, hbu, hbd, hby⟩ := hy
    rw [← hax, ← hby]
    exact h.2.2 a ha b hb (hau.trans hbu.symm) had hbd

/-- A table with unique ids below the counter and at most one default address per user is
consistent. -/
theorem consistent_of_defaults (db : DB)
    (hkey : (db.userAddresses.map (fun a => a.ID)).Nodup)
    (hauto : ∀ a ∈ db.userAddresses, a.ID < db.nextUserAddressID)
    (h0 : ∀ userID, (defaultAddressIDs db userID).length ≤ 1) : AddressesConsistent db := by
  refine ⟨hkey, hauto, ?_⟩
  intro a ha b hb hu had hbd
  apply eq_of_length_le_one (h0 a.UserID)
  · exact (mem_defaultAddressIDs db a.UserID a.ID).2 ⟨a, ha, rfl, had, rfl⟩
  · exact (mem_defaultAddressIDs db a.UserID b.ID).2 ⟨b, hb, hu.symm, hbd, rfl⟩

/-- An update of the rows that keeps ids and owners and raises no flag keeps the table
consistent. -/
theorem consistent_map (db db1 : DB) (g : UserAddress → UserAddress)
    (hrows : db1.userAddresses = db.userAddresses.map g)
    (hnext : db1.nextUserAddressID = db.nextUserAddressID)
    (hg : ∀ a, (g a).ID = a.ID ∧ (g a).UserID = a.UserID ∧
      ((g a).IsDefault = true → a.IsDefault = true))
    (h : AddressesConsistent db) : AddressesConsistent db1 := by
  obtain ⟨hkey, hauto, hpair⟩ := h
  refine ⟨?_, ?_, ?_⟩
  · rw [hrows, List.map_map]
    have : ((fun a => a.ID) ∘ g) = (fun a : UserAddress => a.ID) := by
      funext a
      exact (hg a).1
    rw [this]
    exact hkey
  · intro a ha
    rw [hrows, List.mem_map] at ha
    obtain ⟨a0, ha0, rfl⟩ := ha
    rw [hnext, (hg a0).1]
    exact hauto a0 ha0
  · intro a ha b hb hu had hbd
    rw [hrows, List.mem_map] at ha hb
    obtain ⟨a0, ha0, rfl⟩ := ha
    obtain ⟨b0, hb0, rfl⟩ := hb
    rw [(hg a0).1, (hg b0).1]
    rw [(hg a0).2.1, (hg b0).2.1] at hu
    exact hpair a0 ha0 b0 hb0 hu ((hg a0).2.2 had) ((hg b0).2.2 hbd)

theorem setAddress_props (address a : UserAddress) (hflag : address.IsDefault = false) :
    (setAddress address a).ID = a.ID ∧ (setAddress address a).UserID = a.UserID ∧
    ((setAddress address a).IsDefault = true → a.IsDefault = true) ∧
    (a.ID = address.ID → a.UserID = address.UserID → (setAddress address a).IsDefault = false) := by
  unfold setAddress
  by_cases hm : a.ID = address.ID ∧ a.UserID = address.UserID
  · rw [if_pos hm]
    refine ⟨rfl, rfl, ?_, fun _ _ => hflag⟩
    intro h
    rw [hflag] at h
    exact absurd h (by decide)
  · rw [if_neg hm]
    refine ⟨rfl, rfl, fun h => h, fun h1 h2 => absurd ⟨h1, h2⟩ hm⟩

/-- What the loop of `handleDefaultAddress` does to the table: it rewrites rows in place,
keeps ids and owners, raises no flag, and, when it ends without an error, has
taken the flag off every row that has the id and the owner of a default address
of the list. -/
theorem handleDefaultLoop_spec (env : Env) (l : List UserAddress) :
    ∀ db : DB, ∃ g : UserAddress → UserAddress,
      (handleDefaultLoop env db l).1.userAddresses = db.userAddresses.map g ∧
      (handleDefaultLoop env db l).1.nextUserAddressID = db.nextUserAddressID ∧
      (handleDefaultLoop env db l).1.users = db.users ∧
      (∀ a, (g a).ID = a.ID ∧ (g a).UserID = a.UserID ∧
        ((g a).IsDefault = true → a.IsDefault = true)) ∧
      ((handleDefaultLoop env db l).2 = none →
        ∀ addr ∈ l, addr.IsDefault = true → ∀ a, a.ID = addr.ID → a.UserID = addr.UserID →
          (g a).IsDefault = false) := by
  induction l with
  | nil =>
    intro db
    refine ⟨id, by simp [handleDefaultLoop], rfl, rfl, fun a => ⟨rfl, rfl, fun h => h⟩, ?_⟩
    intro _ addr haddr
    exact absurd haddr (List.not_mem_nil _)
  | cons addr rest ih =>
    intro db
    by_cases hd : addr.IsDefault = true
    · cases hf : env.fails (.updateAddress addr.ID) with
      | some e =>
        refine ⟨id, ?_, ?_, ?_, fun a => ⟨rfl, rfl, fun h => h⟩, ?_⟩
        · simp [handleDefaultLoop, hd, userRepository.UpdateAddress, hf]
        · simp [handleDefaultLoop, hd, userRepository.UpdateAddress, hf]
        · simp [handleDefaultLoop, hd, userRepository.UpdateAddress, hf]
        · simp [handleDefaultLoop, hd, userRepository.UpdateAddress, hf]
      | none =>
        have hstep : handleDefaultLoop env db (addr :: rest)
            = handleDefaultLoop env
                { db with
                  userAddresses :=
                    db.userAddresses.map (setAddress { addr with IsDefault := false }) }
                rest := by
          simp [handleDefaultLoop, hd, userRepository.UpdateAddress, hf]
        obtain ⟨g1, hrows, hnext, husers, hg1, hdone⟩ :=
          ih { db with
               userAddresses :=
                 db.userAddresses.map (setAddress { addr with IsDefault := false }) }
        rw [hstep]
        refine ⟨fun a => g1 (setAddress { addr with IsDefault := false } a), ?_, hnext, husers,
          ?_, ?_⟩
        · rw [hrows, List.map_map]
          rfl
        · intro a
          have hs := setAddress_props { addr with IsDefault := false } a rfl
          refine ⟨(hg1 _).1.trans hs.1, (hg1 _).2.1.trans hs.2.1, ?_⟩
          intro h
          exact hs.2.2.1 ((hg1 _).2.2 h)
        · intro hnone addr2 hmem hd2 a hid hu
          have hs := setAddress_props { addr with IsDefault := false } a rfl
          rcases List.mem_cons.1 hmem with heq | hrest
          · have hoff : (setAddress { addr with IsDefault := false } a).IsDefault = false :=
              hs.2.2.2 (by rw [hid, heq]) (by rw [hu, heq])
            cases hgd : (g1 (setAddress { addr with IsDefault := false } a)).IsDefault with
            | false => rfl
            | true =>
              have := (hg1 _).2.2 hgd
              rw [hoff] at this
              exact absurd this (by decide)
          · exact hdone hnone addr2 hrest hd2 _ (hs.1.trans hid) (hs.2.1.trans hu)
    · have hstep : handleDefaultLoop env db (addr :: rest) = handleDefaultLoop env db rest := by
        simp [handleDefaultLoop, hd]
      obtain ⟨g1, hrows, hnext, husers, hg1, hdone⟩ := ih db
      rw [hstep]
      refine ⟨g1, hrows, hnext, husers, hg1, ?_⟩
      intro hnone addr2 hmem hd2 a hid hu
      rcases List.mem_cons.1 hmem with heq | hrest
      · rw [heq] at hd2
        exact absurd hd2 hd
      · exact hdone hnone addr2 hrest hd2 a hid hu

theorem mem_addressesByDefaultDesc (l : List UserAddress) (a : UserAddress) :
    a ∈ addressesByDefaultDesc l ↔ a ∈ l :=
  (List.perm_insertionSort _ l).mem_iff

/-- The method `handleDefaultAddress` keeps the table consistent, keeps the users, and, when
it returns nil, leaves the user without a default address. -/
theorem handleDefaultAddress_spec (env : Env) (db : DB) (userID : Nat)
    (h : AddressesConsistent db) :
    AddressesConsistent (UserService.handleDefaultAddress env db userID).1 ∧
    (UserService.handleDefaultAddress env db userID).1.users = db.users ∧
    ((UserService.handleDefaultAddress env db userID).2 = none →
      ∀ a ∈ (UserService.handleDefaultAddress env db userID).1.userAddresses,
        a.UserID = userID → a.IsDefault = false) := by
  unfold UserService.handleDefaultAddress userRepository.ListUserAddresses
  cases env.fails (.listUserAddresses userID) with
  | some e =>
    refine ⟨h, rfl, ?_⟩
    intro hnone
    simp at hnone
  | none =>
    simp only []
    obtain ⟨g, hrows, hnext, husers, hg, hdone⟩ := handleDefaultLoop_spec env
      (addressesByDefaultDesc (db.userAddresses.filter (fun a => a.UserID = userID))) db
    refine ⟨consistent_map db _ g hrows hnext hg h, husers, ?_⟩
    intro hnone a ha hu
    rw [hrows, List.mem_map] at ha
    obtain ⟨a0, ha0, rfl⟩ := ha
    cases hd0 : a0.IsDefault with
    | false =>
      cases hgd : (g a0).IsDefault with
      | false => rfl
      | true =>
        have := (hg a0).2.2 hgd
        rw [hd0] at this
        exact absurd this (by decide)
    | true =>
      apply hdone hnone a0 _ hd0 a0 rfl rfl
      rw [mem_addressesByDefaultDesc, List.mem_filter]
      refine ⟨ha0, ?_⟩
      rw [(hg a0).2.1] at hu
      simp [hu]

/-- The method `userRepository.CreateAddress` keeps the table consistent when the new address
carries no flag or its user has no default address. -/
theorem repo_CreateAddress_consistent (env : Env) (db : DB) (address : UserAddress)
    (h : AddressesConsistent db)
    (hfree : address.IsDefault = true →
      ∀ a ∈ db.userAddresses, a.UserID = address.UserID → a.IsDefault = false) :
    AddressesConsistent (userRepository.CreateAddress env db address).1 := by
  have hnew : AddressesConsistent
      { db with
        userAddresses := db.userAddresses ++
          [{ address with ID := db.nextUserAddressID, CreatedAt := env.now }]
        nextUserAddressID := db.nextUserAddressID + 1 } := by
    obtain ⟨hkey, hauto, hpair⟩ := h
    refine ⟨?_, ?_, ?_⟩
    · simp only [List.map_append, List.map_cons, List.map_nil]
      rw [List.nodup_append]
      refine ⟨hkey, List.nodup_singleton _, ?_⟩
      intro x hx hx2
      rw [List.mem_singleton] at hx2
      rw [List.mem_map] at hx
      obtain ⟨a, ha, hax⟩ := hx
      have := hauto a ha
      omega
    · intro a ha
      simp only [List.mem_append, List.mem_singleton] at ha
      rcases ha with ha | ha
      · exact Nat.lt_succ_of_lt (hauto a ha)
      · rw [ha]
        exact Nat.lt_succ_self _
    · intro a ha b hb hu had hbd
      simp only [List.mem_append, List.mem_singleton] at ha hb
      rcases ha with ha | ha <;> rcases hb with hb | hb
      · exact hpair a ha b hb hu had hbd
      · exfalso
        rw [hb] at hu hbd
        have := hfree hbd a ha hu
        rw [had] at this
        exact absurd this (by decide)
      · exfalso
        rw [ha] at hu had
        have := hfree had b hb hu.symm
        rw [hbd] at this
        exact absurd this (by decide)
      · rw [ha, hb]
  unfold userRepository.CreateAddress
  cases env.fails (.userExists address.UserID) with
  | some e => exact h
  | none =>
    simp only []
    split
    · exact h
    · cases env.fails (.insertAddress address.UserID) with
      | some e => exact h
      | none =>
        simp only []
        cases env.fails .addressLastInsertId with
        | some e => exact hnew
        | none => exact hnew

/-- The method `UserService.CreateAddress` keeps the table consistent. -/
theorem CreateAddress_consistent (env : Env) (db : DB) (address : UserAddress)
    (h : AddressesConsistent db) :
    AddressesConsistent (UserService.CreateAddress env db address).1 := by
  unfold UserService.CreateAddress
  cases UserService.GetUserByID env db address.UserID with
  | error e => exact h
  | ok user =>
    simp only []
    cases validateAddress address with
    | some appErr => exact h
    | none =>
      simp only []
      by_cases hd : address.IsDefault = true
      · rw [if_pos hd]
        obtain ⟨hcons, -, hoff⟩ := handleDefaultAddress_spec env db address.UserID h
        cases hr : UserService.handleDefaultAddress env db address.UserID with
        | mk db1 r =>
          rw [hr] at hcons hoff
          cases r with
          | some e => exact hcons
          | none =>
            simp only []
            have hc := repo_CreateAddress_consistent env db1 address hcons
              (fun _ => hoff rfl)
            cases hq : userRepository.CreateAddress env db1 address with
            | mk db2 r2 =>
              rw [hq] at hc
              cases r2 with
              | error e => exact hc
              | ok id => exact hc
      · rw [if_neg hd]
        simp only []
        have hc := repo_CreateAddress_consistent env db address h
          (fun hflag => absurd hflag hd)
        cases hq : userRepository.CreateAddress env db address with
        | mk db2 r2 =>
          rw [hq] at hc
          cases r2 with
          | error e => exact hc
          | ok id => exact hc

/-- The method `UpdateAddress` with `is_default = false` keeps the table consistent. -/
theorem UpdateAddress_consistent (env : Env) (db : DB) (address : UserAddress)
    (hflag : address.IsDefault = false) (h : AddressesConsistent db) :
    AddressesConsistent (UserService.UpdateAddress env db address).1 := by
  unfold UserService.UpdateAddress userRepository.UpdateAddress
  cases env.fails (.updateAddress address.ID) with
  | some e => exact h
  | none =>
    simp only []
    refine consistent_map db _ (setAddress address) rfl rfl ?_ h
    intro a
    have hs := setAddress_props address a hflag
    exact ⟨hs.1, hs.2.1, hs.2.2.1⟩

/-- The method `DeleteAddress` keeps the table consistent. -/
theorem DeleteAddress_consistent (env : Env) (db : DB) (id : Nat) (h : AddressesConsistent db) :
    AddressesConsistent (UserService.DeleteAddress env db id).1 := by
  unfold UserService.DeleteAddress userRepository.DeleteAddress
  cases env.fails (.deleteAddress id) with
  | some e => exact h
  | none =>
    obtain ⟨hkey, hauto, hpair⟩ := h
    refine ⟨?_, ?_, ?_⟩
    · exact List.Nodup.sublist (List.Sublist.map _ (List.filter_sublist _)) hkey
    · intro a ha
      exact hauto a (List.mem_of_mem_filter ha)
    · intro a ha b hb
      exact hpair a (List.mem_of_mem_filter ha) b (List.mem_of_mem_filter hb)

theorem SetDefaultAddress_counter (env : Env) (db : DB) (userID addressID : Nat) :
    (userRepository.SetDefaultAddress env db userID addressID).1.nextUserAddressID
      = db.nextUserAddressID := by
  simp only [userRepository.SetDefaultAddress]
  cases env.fails .begin with
  | some e => simp
  | none =>
  cases env.fails (.unsetDefaultAddresses userID) with
  | some e => simp
  | none =>
  cases env.fails (.setDefaultAddress userID addressID) with
  | some e => simp [rollback]
  | none =>
  cases env.fails .rowsAffected with
  | some e => simp [rollback]
  | none =>
  simp only []
  split
  · simp [rollback]
  · cases env.fails .commit with
    | some e => simp [rollback]
    | none => simp

/-- The method `SetDefaultAddress` keeps the table consistent. -/
theorem SetDefaultAddress_consistent (env : Env) (db : DB) (userID addressID : Nat)
    (h : AddressesConsistent db) :
    AddressesConsistent (UserService.SetDefaultAddress env db userID addressID).1 := by
  unfold UserService.SetDefaultAddress
  have hnext := SetDefaultAddress_counter env db userID addressID
  cases hr : (userRepository.SetDefaultAddress env db userID addressID).2 with
  | error e =>
    have hrows := SetDefaultAddress_error_inv env db userID addressID e hr
    obtain ⟨hkey, hauto, hpair⟩ := h
    refine ⟨?_, ?_, ?_⟩
    · rw [hrows]
      exact hkey
    · rw [hrows, hnext]
      exact hauto
    · rw [hrows]
      exact hpair
  | ok u =>
    obtain ⟨-, hrows⟩ := SetDefaultAddress_ok_inv env db userID addressID hr
    obtain ⟨hkey, hauto, hpair⟩ := h
    have hid : ∀ a, (setDefault userID addressID (unsetDefault userID a)).ID = a.ID :=
      setDefault_unsetDefault_ID userID addressID
    have hu : ∀ a, (setDefault userID addressID (unsetDefault userID a)).UserID = a.UserID :=
      setDefault_unsetDefault_UserID userID addressID
    refine ⟨?_, ?_, ?_⟩
    · rw [hrows, List.map_map]
      have : ((fun a => a.ID) ∘ fun a => setDefault userID addressID (unsetDefault userID a))
          = (fun a : UserAddress => a.ID) := by
        funext a
        exact hid a
      rw [this]
      exact hkey
    · intro a ha
      rw [hrows, List.mem_map] at ha
      obtain ⟨a0, ha0, rfl⟩ := ha
      rw [hnext, hid a0]
      exact hauto a0 ha0
    · intro a ha b hb hab had hbd
      rw [hrows, List.mem_map] at ha hb
      obtain ⟨a0, ha0, rfl⟩ := ha
      obtain ⟨b0, hb0, rfl⟩ := hb
      rw [hid a0, hid b0]
      rw [hu a0, hu b0] at hab
      by_cases hua : a0.UserID = userID
      · have hub : b0.UserID = userID := hab ▸ hua
        rw [setDefault_unsetDefault_IsDefault userID addressID a0 hua, decide_eq_true_eq] at had
        rw [setDefault_unsetDefault_IsDefault userID addressID b0 hub, decide_eq_true_eq] at hbd
        rw [had, hbd]
      · have hub : b0.UserID ≠ userID := fun hb2 => hua (hab.trans hb2)
        rw [setDefault_unsetDefault_other userID addressID a0 hua] at had
        rw [setDefault_unsetDefault_other userID addressID b0 hub] at hbd
        exact hpair a0 ha0 b0 hb0 hab had hbd

/-- Every call that does not raise the flag through `UpdateAddress` keeps the table
consistent, whether it returns an error or not. -/
theorem run_consistent (env : Env) (db : DB) (call : AddressCall)
    (hcall : call.keepsFlag = true) (h : AddressesConsistent db) :
    AddressesConsistent (call.run env db) := by
  cases call with
  | CreateAddress address => exact CreateAddress_consistent env db address h
  | UpdateAddress address =>
    apply UpdateAddress_consistent env db address _ h
    simpa [AddressCall.keepsFlag] using hcall
  | DeleteAddress id => exact DeleteAddress_consistent env db id h
  | SetDefaultAddress userID addressID =>
    exact SetDefaultAddress_consistent env db userID addressID h

theorem runAddressCalls_consistent (steps : List (Env × AddressCall)) :
    ∀ db : DB, (∀ step ∈ steps, step.2.keepsFlag = true) → AddressesConsistent db →
      AddressesConsistent (runAddressCalls db steps) := by
  induction steps with
  | nil =>
    intro db _ h
    exact h
  | cons step rest ih =>
    intro db hsteps h
    simp only [runAddressCalls]
    apply ih
    · intro s hs
      exact hsteps s (List.mem_cons_of_mem _ hs)
    · exact run_consistent step.1 db step.2 (hsteps step (List.mem_cons_self _ _)) h

/-- C11, amended: from a store whose address ids are unique and below the auto-increment
counter and in which every user has at most one default address (a store
without addresses is one), after any sequence of calls of
`UserService.CreateAddress`, `DeleteAddress`, `SetDefaultAddress` and of
`UpdateAddress` with `is_default = false`, each with database failures of its
own and whether it returns an error or not, every user has at most one address
with `is_default = true`. -/
theorem C11_at_most_one_default (db : DB) (steps : List (Env × AddressCall))
    (hkey : (db.userAddresses.map (fun a => a.ID)).Nodup)
    (hauto : ∀ a ∈ db.userAddresses, a.ID < db.nextUserAddressID)
    (h0 : ∀ userID, (defaultAddressIDs db userID).length ≤ 1)
    (hsteps : ∀ step ∈ steps, step.2.keepsFlag = true) (userID : Nat) :
    (defaultAddressIDs (runAddressCalls db steps) userID).length ≤ 1 :=
  defaultAddressIDs_length_le_one _
    (runAddressCalls_consistent steps db hsteps (consistent_of_defaults db hkey hauto h0)) userID

theorem C11_at_most_one_default_witness :
    usersDB.userAddresses = [] ∧
    defaultAddressIDs
      (runAddressCalls usersDB
        [(exampleEnv, .CreateAddress (homeAddress 3 true)),
         (exampleEnv, .CreateAddress (homeAddress 3 true)),
         (exampleEnv, .SetDefaultAddress 3 1),
         (exampleEnv, .UpdateAddress { homeAddress 3 false with ID := 2 }),
         (failingAt (.deleteAddress 2), .DeleteAddress 2)]) 3 = [1] ∧
    (defaultAddressIDs
      (runAddressCalls usersDB
        [(exampleEnv, .CreateAddress (homeAddress 3 true)),
         (exampleEnv, .CreateAddress (homeAddress 3 true)),
         (exampleEnv, .SetDefaultAddress 3 1),
         (exampleEnv, .UpdateAddress { homeAddress 3 false with ID := 2 }),
         (failingAt (.deleteAddress 2), .DeleteAddress 2)]) 3).length ≤ 1 :=
  ⟨rfl, by decide,
    C11_at_most_one_default usersDB
      [(exampleEnv, .CreateAddress (homeAddress 3 true)),
       (exampleEnv, .CreateAddress (homeAddress 3 true)),
       (exampleEnv, .SetDefaultAddress 3 1),
       (exampleEnv, .UpdateAddress { homeAddress 3 false with ID := 2 }),
       (failingAt (.deleteAddress 2), .DeleteAddress 2)]
      (by simp [usersDB]) (by simp [usersDB])
      (by
        intro userID
        simp [defaultAddressIDs, usersDB])
      (by
        intro step hs
        simp only [List.mem_cons, List.mem_singleton, List.not_mem_nil, or_false] at hs
        rcases hs with h | h | h | h | h <;> rw [h] <;> rfl)
      3⟩

/-! ## Theorems: project review -/

/-- C21: evaluation of the two review operations on a store with project 7 in
`pending_review`, project 8 `completed` and project 9 `failed`, where the claim
fails for `AdminService.ReviewProject`.  On project 7 it sets `active` when
approved and `rejected` when declined.  On project 8 a declined review returns
nil and stores `rejected`; on project 9 an approved review returns nil and
stores `active`, and the admin handler answers that request with 200.
`ProjectService.ReviewProject` returns an error for projects 8 and 9 and leaves
their status. -/
theorem C21_admin_review_ignores_status :
    (AdminService.ReviewProject exampleEnv reviewDB 7 true "").2 = .ok () ∧
    statusOf (AdminService.ReviewProject exampleEnv reviewDB 7 true "").1 7 = some "active" ∧
    (AdminService.ReviewProject exampleEnv reviewDB 7 false "").2 = .ok () ∧
    statusOf (AdminService.ReviewProject exampleEnv reviewDB 7 false "").1 7 = some "rejected" ∧
    statusOf reviewDB 8 = some "completed" ∧
    (AdminService.ReviewProject exampleEnv reviewDB 8 false "").2 = .ok () ∧
    statusOf (AdminService.ReviewProject exampleEnv reviewDB 8 false "").1 8 = some "rejected" ∧
    statusOf reviewDB 9 = some "failed" ∧
    (AdminService.ReviewProject exampleEnv reviewDB 9 true "").2 = .ok () ∧
    statusOf (AdminService.ReviewProject exampleEnv reviewDB 9 true "").1 9 = some "active" ∧
    (AdminHandler.ReviewProject exampleEnv reviewDB (some 9) (some { Approved := true })).2.status
      = 200 ∧
    statusOf
      (AdminHandler.ReviewProject exampleEnv reviewDB (some 9) (some { Approved := true })).1 9
      = some "active" ∧
    (∃ db1, ProjectService.ReviewProject exampleEnv reviewDB 8 false ""
      = .returned (db1, .error "project is not in pending review status") ∧
      statusOf db1 8 = some "completed") ∧
    (∃ db1, ProjectService.ReviewProject exampleEnv reviewDB 9 true ""
      = .returned (db1, .error "project is not in pending review status") ∧
      statusOf db1 9 = some "failed") ∧
    (∃ db1, ProjectService.ReviewProject exampleEnv reviewDB 7 true ""
      = .returned (db1, .ok ()) ∧ statusOf db1 7 = some "active") := by
  refine ⟨by rfl, by decide, by rfl, by decide, by decide, by rfl, by decide, by decide, by rfl,
    by decide, by rfl, by decide, ⟨_, rfl, by decide⟩, ⟨_, rfl, by decide⟩, ⟨_, rfl, by decide⟩⟩

/-! ## Theorems: progress of a project -/

/-- C23: evaluation of `ProcessPayment` on the payment of 1200 to project 7, which has
raised nothing of its goal of 6000, where the claim fails.  The payment
succeeds and the stored `total_amount` is 1200, so the claim asks for the
progress 1200 / 6000 * 100 = 20; the stored `progress` is 40, the value of
(1200 + 1200) / 6000 * 100: the UPDATE adds the amount to a `total_amount` that
its first assignment has already increased.  With a goal of 0 the stored
progress is 0. -/
theorem C23_progress_counts_amount_twice :
    (PaymentService.ProcessPayment exampleEnv exampleDB examplePayment 5).2 = .ok exampleOrder ∧
    totalAmountOf (PaymentService.ProcessPayment exampleEnv exampleDB examplePayment 5).1 7
      = some 1200 ∧
    (exampleDB.projects.map (fun p => p.TotalGoalAmount)) = [6000] ∧
    ((1200 : ℚ) / 6000) * 100 = 20 ∧
    progressOf (PaymentService.ProcessPayment exampleEnv exampleDB examplePayment 5).1 7
      = some 40 ∧
    progressOf
      (PaymentService.ProcessPayment exampleEnv
        { exampleDB with projects := [{ ID := 7, Status := "active", TotalGoalAmount := 0 }] }
        examplePayment 5).1 7 = some 0 := by
  refine ⟨by rfl, ?_, by rfl, by norm_num, ?_, ?_⟩
  · simp [PaymentService.ProcessPayment, ProjectRepository.GetProjectByID, exampleEnv, exampleDB,
      examplePayment, totalAmountOf, addAmountToProject]
  · simp [PaymentService.ProcessPayment, ProjectRepository.GetProjectByID, exampleEnv, exampleDB,
      examplePayment, progressOf, addAmountToProject]
    norm_num
  · simp [PaymentService.ProcessPayment, ProjectRepository.GetProjectByID, exampleEnv, exampleDB,
      examplePayment, progressOf, addAmountToProject]

/-! ## Theorems: pledges and orders -/

/-- What `ProcessPayment` leaves of pledges and orders: either the rows it found (and a
pledge counter that is not smaller), or one more pledge with the next pledge
id and one more order that refers to it. -/
theorem ProcessPayment_ledger (env : Env) (db : DB) (payment : Payment) (addressID : Nat) :
    ((PaymentService.ProcessPayment env db payment addressID).1.pledges = db.pledges ∧
      (PaymentService.ProcessPayment env db payment addressID).1.orders = db.orders ∧
      db.nextPledgeID ≤ (PaymentService.ProcessPayment env db payment addressID).1.nextPledgeID) ∨
    (∃ pledge order,
      (PaymentService.ProcessPayment env db payment addressID).1.pledges
        = db.pledges ++ [pledge] ∧
      pledge.ID = db.nextPledgeID ∧
      (PaymentService.ProcessPayment env db payment addressID).1.orders = db.orders ++ [order] ∧
      order.PledgeID = db.nextPledgeID ∧
      (PaymentService.ProcessPayment env db payment addressID).1.nextPledgeID
        = db.nextPledgeID + 1) := by
  simp only [PaymentService.ProcessPayment, ProjectRepository.GetProjectByID]
  cases env.fails .begin with
  | some e => simp
  | none =>
  cases env.fails (.getProjectByID payment.ProjectID) with
  | some e => simp
  | none =>
  cases hf : db.projects.find? (fun p => decide (p.ID = payment.ProjectID)) with
  | none => simp
  | some project =>
  cases env.fails .insertPledge with
  | some e => simp
  | none =>
  cases env.fails .pledgeLastInsertId with
  | some e => simp [rollback]
  | none =>
  cases env.fails .insertOrder with
  | some e => simp [rollback]
  | none =>
  cases env.fails .orderLastInsertId with
  | some e => simp [rollback]
  | none =>
  cases env.fails (.updateProjectAmount payment.ProjectID) with
  | some e => simp [rollback]
  | none =>
  cases env.fails .commit with
  | some e => simp [rollback]
  | none =>
    right
    exact ⟨_, _, rfl, rfl, rfl, rfl, rfl⟩

theorem filter_length_le_one_of_nodup {α : Type} (f : α → Nat) (k : Nat) (l : List α)
    (h : (l.map f).Nodup) : (l.filter (fun a => f a = k)).length ≤ 1 := by
  induction l with
  | nil => simp
  | cons a l ih =>
    rw [List.map_cons, List.nodup_cons] at h
    by_cases ha : f a = k
    · have hnone : l.filter (fun a => f a = k) = [] := by
        rw [List.filter_eq_nil_iff]
        intro b hb hfb
        simp only [decide_eq_true_eq] at hfb
        exact h.1 (List.mem_map.2 ⟨b, hb, hfb.trans ha.symm⟩)
      simp [List.filter_cons, ha, hnone]
    · simp only [List.filter_cons, ha, decide_False, Bool.false_eq_true, if_false]
      exact ih h.2

theorem filter_length_eq_one_of_nodup {α : Type} (f : α → Nat) (k : Nat) (l : List α)
    (h : (l.map f).Nodup) (hex : ∃ a ∈ l, f a = k) :
    (l.filter (fun a => f a = k)).length = 1 := by
  have hle := filter_length_le_one_of_nodup f k l h
  obtain ⟨a, ha, hfa⟩ := hex
  have hmem : a ∈ l.filter (fun a => f a = k) := by
    simp [List.mem_filter, ha, hfa]
  have hpos : 0 < (l.filter (fun a => f a = k)).length := List.length_pos_of_mem hmem
  omega

/-- The method `ProcessPayment` keeps pledges and orders consistent, whether it returns an
error or not. -/
theorem ProcessPayment_consistent (env : Env) (db : DB) (payment : Payment) (addressID : Nat)
    (h : PledgesConsistent db) :
    PledgesConsistent (PaymentService.ProcessPayment env db payment addressID).1 := by
  obtain ⟨hkey, hauto, hone, href⟩ := h
  rcases ProcessPayment_ledger env db payment addressID with
    ⟨hp, ho, hn⟩ | ⟨pledge, order, hp, hpid, ho, hoid, hn⟩
  · refine ⟨?_, ?_, ?_, ?_⟩
    · rw [hp]
      exact hkey
    · intro p hpm
      rw [hp] at hpm
      exact Nat.lt_of_lt_of_le (hauto p hpm) hn
    · rw [ho]
      exact hone
    · rw [ho, hp]
      exact href
  · refine ⟨?_, ?_, ?_, ?_⟩
    · rw [hp, List.map_append, List.nodup_append]
      refine ⟨hkey, by simp, ?_⟩
      intro x hx hx2
      simp only [List.map_cons, List.map_nil, List.mem_singleton] at hx2
      obtain ⟨p, hpm, hpx⟩ := List.mem_map.1 hx
      have := hauto p hpm
      omega
    · intro p hpm
      rw [hp] at hpm
      rw [hn]
      simp only [List.mem_append, List.mem_singleton] at hpm
      rcases hpm with hpm | hpm
      · exact Nat.lt_succ_of_lt (hauto p hpm)
      · rw [hpm, hpid]
        exact Nat.lt_succ_self _
    · rw [ho, List.map_append, List.nodup_append]
      refine ⟨hone, by simp, ?_⟩
      intro x hx hx2
      simp only [List.map_cons, List.map_nil, List.mem_singleton] at hx2
      obtain ⟨o, hom, hox⟩ := List.mem_map.1 hx
      obtain ⟨p, hpm, hpo⟩ := href o hom
      have := hauto p hpm
      omega
    · intro o hom
      rw [ho] at hom
      rw [hp]
      simp only [List.mem_append, List.mem_singleton] at hom
      rcases hom with hom | hom
      · obtain ⟨p, hpm, hpo⟩ := href o hom
        exact ⟨p, List.mem_append_left _ hpm, hpo⟩
      · refine ⟨pledge, List.mem_append_right _ (List.mem_singleton_self _), ?_⟩
        rw [hom, hoid, hpid]

/-- The method `PledgeToProject` keeps pledges and orders consistent. -/
theorem PledgeToProject_consistent (env : Env) (db : DB) (userID projectID : Nat) (amount : ℚ)
    (h : PledgesConsistent db) :
    PledgesConsistent (ProjectService.PledgeToProject env db userID projectID amount).1 := by
  obtain ⟨hkey, hauto, hone, href⟩ := h
  unfold ProjectService.PledgeToProject ProjectRepository.CreatePledge
  cases env.fails .createPledge with
  | some e => exact ⟨hkey, hauto, hone, href⟩
  | none =>
    refine ⟨?_, ?_, hone, ?_⟩
    · simp only [List.map_append, List.map_cons, List.map_nil]
      rw [List.nodup_append]
      refine ⟨hkey, by simp, ?_⟩
      intro x hx hx2
      rw [List.mem_singleton] at hx2
      obtain ⟨p, hpm, hpx⟩ := List.mem_map.1 hx
      have := hauto p hpm
      omega
    · intro p hpm
      simp only [List.mem_append, List.mem_singleton] at hpm
      rcases hpm with hpm | hpm
      · exact Nat.lt_succ_of_lt (hauto p hpm)
      · rw [hpm]
        exact Nat.lt_succ_self _
    · intro o hom
      obtain ⟨p, hpm, hpo⟩ := href o hom
      exact ⟨p, List.mem_append_left _ hpm, hpo⟩

theorem runPledgeCalls_consistent (steps : List (Env × PledgeCall)) :
    ∀ db : DB, PledgesConsistent db → PledgesConsistent (runPledgeCalls db steps) := by
  induction steps with
  | nil =>
    intro db h
    exact h
  | cons step rest ih =>
    intro db h
    simp only [runPledgeCalls]
    apply ih
    cases hc : step.2 with
    | ProcessPayment payment addressID =>
      exact ProcessPayment_consistent step.1 db payment addressID h
    | PledgeToProject userID projectID amount =>
      exact PledgeToProject_consistent step.1 db userID projectID amount h

/-- C25, the claim as written fails: on a store with project 7 and no pledge or order,
`PledgeToProject` of user 3 succeeds and stores pledge 1, to which no order
refers. -/
theorem C25_counterexample_pledge_without_order :
    emptyLedgerDB.pledges = [] ∧ emptyLedgerDB.orders = [] ∧
    (ProjectService.PledgeToProject exampleEnv emptyLedgerDB 3 7 500).2 = .ok () ∧
    (ProjectService.PledgeToProject exampleEnv emptyLedgerDB 3 7 500).1.pledges.map
      (fun p => p.ID) = [1] ∧
    ordersOfPledge (ProjectService.PledgeToProject exampleEnv emptyLedgerDB 3 7 500).1 1 = [] := by
  refine ⟨rfl, rfl, by rfl, by rfl, by rfl⟩

/-- C25, amended: from a store in which pledge ids are unique and below the auto-increment
counter, no two orders have the same `pledge_id` and the pledge of every order
exists (a store without pledges and orders is one), after any sequence of calls
of `ProcessPayment` and `PledgeToProject`, each with database failures of its
own and whether it returns an error or not, every order refers to exactly one
pledge row and every pledge is referred to by at most one order. -/
theorem C25_pledges_orders (db : DB) (steps : List (Env × PledgeCall))
    (h : PledgesConsistent db) :
    (∀ o ∈ (runPledgeCalls db steps).orders,
      (pledgesOfOrder (runPledgeCalls db steps) o).length = 1) ∧
    (∀ p ∈ (runPledgeCalls db steps).pledges,
      (ordersOfPledge (runPledgeCalls db steps) p.ID).length ≤ 1) := by
  obtain ⟨hkey, -, hone, href⟩ := runPledgeCalls_consistent steps db h
  constructor
  · intro o ho
    exact filter_length_eq_one_of_nodup (fun p : Pledge => p.ID) o.PledgeID _ hkey (href o ho)
  · intro p _
    exact filter_length_le_one_of_nodup (fun o : Order => o.PledgeID) p.ID _ hone

theorem C25_pledges_orders_witness :
    (runPledgeCalls emptyLedgerDB
      [(exampleEnv, .PledgeToProject 3 7 500),
       (failingAt .insertOrder, .ProcessPayment examplePayment 5),
       (exampleEnv, .ProcessPayment examplePayment 5)]).pledges.map (fun p => p.ID) = [1, 3] ∧
    (runPledgeCalls emptyLedgerDB
      [(exampleEnv, .PledgeToProject 3 7 500),
       (failingAt .insertOrder, .ProcessPayment examplePayment 5),
       (exampleEnv, .ProcessPayment examplePayment 5)]).orders.map
        (fun o => (o.ID, o.PledgeID)) = [(1, 3)] ∧
    (∀ p ∈ (runPledgeCalls emptyLedgerDB
        [(exampleEnv, .PledgeToProject 3 7 500),
         (failingAt .insertOrder, .ProcessPayment examplePayment 5),
         (exampleEnv, .ProcessPayment examplePayment 5)]).pledges,
      (ordersOfPledge (runPledgeCalls emptyLedgerDB
        [(exampleEnv, .PledgeToProject 3 7 500),
         (failingAt .insertOrder, .ProcessPayment examplePayment 5),
         (exampleEnv, .ProcessPayment examplePayment 5)]) p.ID).length ≤ 1) :=
  ⟨by rfl, by rfl,
    (C25_pledges_orders emptyLedgerDB
      [(exampleEnv, .PledgeToProject 3 7 500),
       (failingAt .insertOrder, .ProcessPayment examplePayment 5),
       (exampleEnv, .ProcessPayment examplePayment 5)]
      ⟨by simp [emptyLedgerDB], by simp [emptyLedgerDB], by simp [emptyLedgerDB],
        by simp [emptyLedgerDB]⟩).2⟩

/-! ## Theorems: order numbers -/

/-- C26: evaluation of `ProcessPayment` after a pledge without payment, where the claim
fails.  On a store with project 7 and no pledge or order, `PledgeToProject`
stores pledge 1; the payment that follows in 2024 gets pledge 2 and order 1 and
is stored with the order number `ORD-2024-0002`, built from the pledge id, while
`ListOrders` presents `ORD-2024-0001` for it, built from the order id.  The
same happens after a payment whose order insert failed: the rolled back pledge
has used up pledge id 3, so the next payment is order 3 with the number
`ORD-2024-0004`. -/
theorem C26_order_number_uses_pledge_id :
    (PaymentService.ProcessPayment exampleEnv
      (ProjectService.PledgeToProject exampleEnv emptyLedgerDB 3 7 500).1
      examplePayment 5).1.orders.map (fun o => (o.ID, o.PledgeID, o.OrderNumber))
      = [(1, 2, "ORD-2024-0002")] ∧
    (PaymentService.ProcessPayment exampleEnv
      (ProjectService.PledgeToProject exampleEnv emptyLedgerDB 3 7 500).1
      examplePayment 5).1.orders.map (PaymentHandler.ListOrders.orderNumber exampleEnv)
      = ["ORD-2024-0001"] ∧
    PaymentRepository.generateOrderNumber exampleEnv 1 = "ORD-2024-0001" ∧
    (∃ e, (PaymentService.ProcessPayment (failingAt .insertOrder) exampleDB examplePayment 5).2
      = .error e) ∧
    ((PaymentService.ProcessPayment exampleEnv
      (PaymentService.ProcessPayment (failingAt .insertOrder) exampleDB examplePayment 5).1
      examplePayment 5).1.orders.filter (fun o => o.ID = 3)).map
        (fun o => (o.ID, o.PledgeID, o.OrderNumber)) = [(3, 4, "ORD-2024-0004")] ∧
    ((PaymentService.ProcessPayment exampleEnv
      (PaymentService.ProcessPayment (failingAt .insertOrder) exampleDB examplePayment 5).1
      examplePayment 5).1.orders.filter (fun o => o.ID = 3)).map
        (PaymentHandler.ListOrders.orderNumber exampleEnv) = ["ORD-2024-0003"] := by
  refine ⟨by rfl, by rfl, by rfl, ⟨_, rfl⟩, by rfl, by rfl⟩

/-! ## Theorems: deletion of a project -/

theorem rollback_counters_eq (db tx : DB)
    (h1 : tx.nextPledgeID = db.nextPledgeID) (h2 : tx.nextOrderID = db.nextOrderID)
    (h3 : tx.nextRefundRequestID = db.nextRefundRequestID) (h4 : tx.nextUserID = db.nextUserID)
    (h5 : tx.nextUserAddressID = db.nextUserAddressID) (h6 : tx.nextLikeID = db.nextLikeID)
    (h7 : tx.nextProjectGoalID = db.nextProjectGoalID) : rollback db tx = db := by
  simp only [rollback, h1, h2, h3, h4, h5, h6, h7]

/-- The tables of a store that do not belong to the deletion of a project, and its counters. -/
theorem deleteFrom_frame (table : String) (projectID : Nat) (tx : DB) :
    (deleteFrom table projectID tx).projects = tx.projects ∧
    (deleteFrom table projectID tx).nextPledgeID = tx.nextPledgeID ∧
    (deleteFrom table projectID tx).nextOrderID = tx.nextOrderID ∧
    (deleteFrom table projectID tx).nextRefundRequestID = tx.nextRefundRequestID ∧
    (deleteFrom table projectID tx).nextUserID = tx.nextUserID ∧
    (deleteFrom table projectID tx).nextUserAddressID = tx.nextUserAddressID ∧
    (deleteFrom table projectID tx).nextLikeID = tx.nextLikeID ∧
    (deleteFrom table projectID tx).nextProjectGoalID = tx.nextProjectGoalID := by
  unfold deleteFrom
  split_ifs <;> exact ⟨rfl, rfl, rfl, rfl, rfl, rfl, rfl, rfl⟩

theorem deleteProjectLoop_counters (env : Env) (projectID : Nat) (tables : List String) :
    ∀ (tx : DB) (sent : List String),
      (deleteProjectLoop env projectID tx sent tables).1.nextPledgeID = tx.nextPledgeID ∧
      (deleteProjectLoop env projectID tx sent tables).1.nextOrderID = tx.nextOrderID ∧
      (deleteProjectLoop env projectID tx sent tables).1.nextRefundRequestID
        = tx.nextRefundRequestID ∧
      (deleteProjectLoop env projectID tx sent tables).1.nextUserID = tx.nextUserID ∧
      (deleteProjectLoop env projectID tx sent tables).1.nextUserAddressID
        = tx.nextUserAddressID ∧
      (deleteProjectLoop env projectID tx sent tables).1.nextLikeID = tx.nextLikeID ∧
      (deleteProjectLoop env projectID tx sent tables).1.nextProjectGoalID
        = tx.nextProjectGoalID := by
  induction tables with
  | nil =>
    intro tx sent
    exact ⟨rfl, rfl, rfl, rfl, rfl, rfl, rfl⟩
  | cons table rest ih =>
    intro tx sent
    simp only [deleteProjectLoop]
    cases env.fails (.deleteFrom table projectID) with
    | some e => exact ⟨rfl, rfl, rfl, rfl, rfl, rfl, rfl⟩
    | none =>
      simp only []
      obtain ⟨h1, h2, h3, h4, h5, h6, h7⟩ := ih (deleteFrom table projectID tx) (sent ++ [table])
      obtain ⟨-, f1, f2, f3, f4, f5, f6, f7⟩ := deleteFrom_frame table projectID tx
      exact ⟨h1.trans f1, h2.trans f2, h3.trans f3, h4.trans f4, h5.trans f5, h6.trans f6,
        h7.trans f7⟩

/-- When the loop over the dependent tables ends without an error, a DELETE was sent for
each table of the list, in the order of the list, and each was applied. -/
theorem deleteProjectLoop_ok (env : Env) (projectID : Nat) (tables : List String) :
    ∀ (tx : DB) (sent : List String),
      (deleteProjectLoop env projectID tx sent tables).2.2 = none →
      (deleteProjectLoop env projectID tx sent tables).2.1 = sent ++ tables ∧
      (deleteProjectLoop env projectID tx sent tables).1
        = tables.foldl (fun t table => deleteFrom table projectID t) tx := by
  induction tables with
  | nil =>
    intro tx sent _
    simp [deleteProjectLoop]
  | cons table rest ih =>
    intro tx sent
    simp only [deleteProjectLoop]
    cases env.fails (.deleteFrom table projectID) with
    | some e => simp
    | none =>
      simp only []
      intro h
      obtain ⟨h1, h2⟩ := ih (deleteFrom table projectID tx) (sent ++ [table]) h
      refine ⟨?_, ?_⟩
      · rw [h1]
        simp
      · rw [h2]
        rfl

/-- What a successful `DeleteProject` has sent and written. -/
theorem DeleteProject_ok_inv (env : Env) (db : DB) (projectID : Nat)
    (h : (ProjectRepository.DeleteProject env db projectID).2.2 = .ok ()) :
    (ProjectRepository.DeleteProject env db projectID).2.1
      = deleteProjectTables ++ ["projects"] ∧
    (ProjectRepository.DeleteProject env db projectID).1
      = { deleteProjectTables.foldl (fun t table => deleteFrom table projectID t) db with
          projects := db.projects.filter (fun p => p.ID ≠ projectID) } := by
  revert h
  simp only [ProjectRepository.DeleteProject]
  cases env.fails .begin with
  | some e => simp
  | none =>
    simp only []
    have hloop := deleteProjectLoop_ok env projectID deleteProjectTables db []
    cases hl : deleteProjectLoop env projectID db [] deleteProjectTables with
    | mk tx1 rest =>
      cases rest with
      | mk sent r =>
        rw [hl] at hloop
        cases r with
        | some e => simp
        | none =>
          obtain ⟨hsent, htx⟩ := hloop rfl
          simp only [] at hsent htx
          cases env.fails (.deleteProject projectID) with
          | some e => simp
          | none =>
            cases env.fails .commit with
            | some e => simp
            | none =>
              intro _
              simp only [List.nil_append] at hsent
              refine ⟨by rw [hsent], ?_⟩
              simp only []
              rw [htx]
              simp [deleteProjectTables, deleteFrom]

/-- Whenever `DeleteProject` returns an error, the store is the one it found. -/
theorem DeleteProject_error_inv (env : Env) (db : DB) (projectID : Nat) (e : String)
    (h : (ProjectRepository.DeleteProject env db projectID).2.2 = .error e) :
    (ProjectRepository.DeleteProject env db projectID).1 = db := by
  revert h
  simp only [ProjectRepository.DeleteProject]
  cases env.fails .begin with
  | some e0 => simp
  | none =>
    simp only []
    obtain ⟨h1, h2, h3, h4, h5, h6, h7⟩ :=
      deleteProjectLoop_counters env projectID deleteProjectTables db []
    cases hl : deleteProjectLoop env projectID db [] deleteProjectTables with
    | mk tx1 rest =>
      cases rest with
      | mk sent r =>
        rw [hl] at h1 h2 h3 h4 h5 h6 h7
        simp only [] at h1 h2 h3 h4 h5 h6 h7
        cases r with
        | some e0 =>
          intro _
          exact rollback_counters_eq db tx1 h1 h2 h3 h4 h5 h6 h7
        | none =>
          simp only []
          cases env.fails (.deleteProject projectID) with
          | some e0 =>
            intro _
            exact rollback_counters_eq db tx1 h1 h2 h3 h4 h5 h6 h7
          | none =>
            cases env.fails .commit with
            | some e0 =>
              intro _
              exact rollback_counters_eq db _ h1 h2 h3 h4 h5 h6 h7
            | none => simp

/-- Without a database failure `DeleteProject` returns nil. -/
theorem DeleteProject_succeeds (env : Env) (db : DB) (projectID : Nat)
    (hf : ∀ c, env.fails c = none) :
    (ProjectRepository.DeleteProject env db projectID).2.2 = .ok () := by
  simp [ProjectRepository.DeleteProject, deleteProjectTables, deleteProjectLoop, hf]

/-- C22: whenever `DeleteProject(id)` returns nil, it has sent one DELETE for each of
`project_images`, `project_goals`, `project_tag_relations`, `project_updates`,
`project_comments` and then `projects`, in this order, and each of the six
tables holds exactly the rows it held before that belong to other projects (so
no row of the project remains and no other row is touched); whenever it returns
an error, after a failing begin, delete or commit, the store is the one it
found; without a database failure it returns nil.  `AdminService.DeleteProject`
is the same call. -/
theorem C22_deleteProject (env : Env) (db : DB) (projectID : Nat) :
    ((ProjectRepository.DeleteProject env db projectID).2.2 = .ok () →
      (ProjectRepository.DeleteProject env db projectID).2.1
        = ["project_images", "project_goals", "project_tag_relations", "project_updates",
           "project_comments", "projects"] ∧
      (ProjectRepository.DeleteProject env db projectID).1.projectImages
        = db.projectImages.filter (fun r => r.ProjectID ≠ projectID) ∧
      (ProjectRepository.DeleteProject env db projectID).1.projectGoals
        = db.projectGoals.filter (fun r => r.ProjectID ≠ projectID) ∧
      (ProjectRepository.DeleteProject env db projectID).1.projectTagRelations
        = db.projectTagRelations.filter (fun r => r.ProjectID ≠ projectID) ∧
      (ProjectRepository.DeleteProject env db projectID).1.projectUpdates
        = db.projectUpdates.filter (fun r => r.ProjectID ≠ projectID) ∧
      (ProjectRepository.DeleteProject env db projectID).1.projectComments
        = db.projectComments.filter (fun r => r.ProjectID ≠ projectID) ∧
      (ProjectRepository.DeleteProject env db projectID).1.projects
        = db.projects.filter (fun p => p.ID ≠ projectID)) ∧
    (∀ e, (ProjectRepository.DeleteProject env db projectID).2.2 = .error e →
      (ProjectRepository.DeleteProject env db projectID).1 = db) ∧
    ((∀ c, env.fails c = none) →
      (ProjectRepository.DeleteProject env db projectID).2.2 = .ok ()) ∧
    AdminService.DeleteProject env db projectID
      = ProjectRepository.DeleteProject env db projectID := by
  refine ⟨?_, ?_, DeleteProject_succeeds env db projectID, rfl⟩
  · intro h
    obtain ⟨hsent, hdb⟩ := DeleteProject_ok_inv env db projectID h
    rw [hsent, hdb]
    simp [deleteProjectTables, deleteFrom]
  · intro e h
    exact DeleteProject_error_inv env db projectID e h

theorem C22_deleteProject_witness :
    (ProjectRepository.DeleteProject exampleEnv catalogueDB 7).2.2 = .ok () ∧
    (ProjectRepository.DeleteProject exampleEnv catalogueDB 7).1.projects.map (fun p => p.ID)
      = [8] ∧
    (ProjectRepository.DeleteProject exampleEnv catalogueDB 7).1.projectComments
      = catalogueDB.projectComments.filter (fun r => r.ProjectID ≠ 7) ∧
    (∃ e, (ProjectRepository.DeleteProject (failingAt .commit) catalogueDB 7).2.2 = .error e) ∧
    (ProjectRepository.DeleteProject (failingAt .commit) catalogueDB 7).1 = catalogueDB :=
  ⟨by rfl, by rfl,
    ((C22_deleteProject exampleEnv catalogueDB 7).1 (by rfl)).2.2.2.2.2.1,
    ⟨_, rfl⟩,
    (C22_deleteProject (failingAt .commit) catalogueDB 7).2.1 "driver: bad connection" (by rfl)⟩

/-! ## Theorems: logout -/

theorem digitChar_value (k : Nat) (hk : k < 10) : (Nat.digitChar k).toNat - 48 = k := by
  interval_cases k <;> rfl

theorem digitsValue_append (l : List Char) (c : Char) :
    digitsValue (l ++ [c]) = digitsValue l * 10 + (c.toNat - 48) := by
  simp [digitsValue, List.foldl_append]

theorem toDigitsCore_value (fuel : Nat) :
    ∀ (n : Nat) (ds : List Char), n < fuel →
      ∃ l, Nat.toDigitsCore 10 fuel n ds = l ++ ds ∧ digitsValue l = n := by
  induction fuel with
  | zero =>
    intro n ds h
    omega
  | succ fuel ih =>
    intro n ds h
    simp only [Nat.toDigitsCore]
    by_cases h0 : n / 10 = 0
    · rw [if_pos h0]
      refine ⟨[Nat.digitChar (n % 10)], rfl, ?_⟩
      have : digitsValue [Nat.digitChar (n % 10)] = (Nat.digitChar (n % 10)).toNat - 48 := by
        simp [digitsValue]
      rw [this, digitChar_value _ (Nat.mod_lt _ (by decide))]
      omega
    · rw [if_neg h0]
      have hlt : n / 10 < fuel := by omega
      obtain ⟨l, hl, hv⟩ := ih (n / 10) (Nat.digitChar (n % 10) :: ds) hlt
      refine ⟨l ++ [Nat.digitChar (n % 10)], ?_, ?_⟩
      · rw [hl]
        simp
      · rw [digitsValue_append, hv, digitChar_value _ (Nat.mod_lt _ (by decide))]
        omega

/-- The decimal text of a natural number determines the number. -/
theorem toString_nat_injective (a b : Nat) (h : (toString a : String) = toString b) : a = b := by
  have h1 : (Nat.toDigits 10 a).asString = (Nat.toDigits 10 b).asString := h
  have h2 : Nat.toDigits 10 a = Nat.toDigits 10 b := by
    have := congrArg String.data h1
    simpa [List.asString] using this
  obtain ⟨la, hla, hva⟩ := toDigitsCore_value (a + 1) a [] (Nat.lt_succ_self _)
  obtain ⟨lb, hlb, hvb⟩ := toDigitsCore_value (b + 1) b [] (Nat.lt_succ_self _)
  simp only [Nat.toDigits] at h2
  rw [hla, hlb, List.append_nil, List.append_nil] at h2
  rw [← hva, ← hvb, h2]

theorem splitAtBlank_bearer (token : List Char) :
    splitAtBlank (['B', 'e', 'a', 'r', 'e', 'r', ' '] ++ token)
      = some (['B', 'e', 'a', 'r', 'e', 'r'], token) := by
  rfl

/-- C24: the token that a user got at login is not on the blacklist after a logout in a later
second.  The token of the login at time `env0.now` carries the expiry
`env0.now + 86400`; `Logout` at time `env1.now` signs a new token with the
expiry `env1.now + 86400` and lists that one.  Whenever the signer gives
different tokens for different expiries (a JWT carries its claims) and the
login token was not listed before, `Logout` returns nil, `IsTokenBlacklisted`
is false for the login token at every later time, and `AuthMiddleware` passes a
request with `Bearer` and the login token on whenever `ValidateToken`
accepts the token. -/
theorem C24_logout_leaves_login_token (env0 env1 env2 : Env) (userID : Nat) (token : String)
    (blacklist : TokenBlacklist) (uid : Int)
    (hlogin : util.GenerateToken env0 userID = .ok token)
    (hsigner : env1.signedString = env0.signedString)
    (hinj : ∀ exp1 exp2 t, env0.signedString userID exp1 = .ok t →
      env0.signedString userID exp2 = .ok t → exp1 = exp2)
    (hlater : env0.now < env1.now)
    (hclean : blacklist.find? (fun entry => entry.1 = token) = none)
    (hvalid : util.ValidateToken env2 token = .ok uid) :
    (UserService.Logout env1 userID blacklist).2 = none →
    (UserService.IsTokenBlacklisted env2 token (UserService.Logout env1 userID blacklist).1).2
      = false ∧
    (AuthMiddleware env2 (UserService.Logout env1 userID blacklist).1 ("Bearer " ++ token)
      false).2 = .ok uid := by
  intro hout
  have hfind : (UserService.Logout env1 userID blacklist).1.find?
      (fun entry => entry.1 = token) = none := by
    revert hout
    simp only [UserService.Logout]
    cases hgen : util.GenerateToken env1 userID with
    | error e => simp
    | ok minted =>
      intro _
      have hne : minted ≠ token := by
        intro heq
        rw [heq] at hgen
        simp only [util.GenerateToken, hsigner] at hgen hlogin
        have := hinj _ _ token hlogin hgen
        omega
      simp only []
      rw [List.find?_cons_of_neg]
      · rw [List.find?_eq_none] at hclean ⊢
        intro entry hentry
        exact hclean entry (List.mem_of_mem_filter hentry)
      · simpa using hne
  have hblack : UserService.IsTokenBlacklisted env2 token
      (UserService.Logout env1 userID blacklist).1
      = ((UserService.Logout env1 userID blacklist).1, false) := by
    simp only [UserService.IsTokenBlacklisted, hfind]
  refine ⟨by rw [hblack], ?_⟩
  have hdata : ("Bearer " ++ token).data = "Bearer ".data ++ token.data := String.data_append _ _
  have hne : ("Bearer " ++ token) ≠ "" := by
    intro h
    have := congrArg String.data h
    rw [hdata] at this
    simp at this
  have hmk : String.mk token.data = token := rfl
  simp only [AuthMiddleware, hne, if_false, hdata, splitAtBlank_bearer, ne_eq,
    not_true_eq_false, hmk, hblack, hvalid]
  rfl

theorem C24_logout_leaves_login_token_witness :
    util.GenerateToken (sessionEnv 100) 3 = .ok "jwt.3.86500" ∧
    (UserService.Logout (sessionEnv 200) 3 []).1 = [("jwt.3.86600", 86600)] ∧
    (UserService.IsTokenBlacklisted (sessionEnv 300) "jwt.3.86500"
      (UserService.Logout (sessionEnv 200) 3 []).1).2 = false ∧
    (AuthMiddleware (sessionEnv 300) (UserService.Logout (sessionEnv 200) 3 []).1
      ("Bearer " ++ "jwt.3.86500") false).2 = .ok 3 :=
  ⟨by rfl, by rfl,
    (C24_logout_leaves_login_token (sessionEnv 100) (sessionEnv 200) (sessionEnv 300) 3
      "jwt.3.86500" [] 3 (by rfl) rfl
      (by
        intro exp1 exp2 t h1 h2
        simp only [sessionEnv, Except.ok.injEq] at h1 h2
        rw [← h2] at h1
        have h3 := congrArg String.data h1
        simp only [String.data_append] at h3
        have h4 := List.append_cancel_left h3
        exact toString_nat_injective exp1 exp2 (String.ext h4))
      (by decide) rfl (by rfl) (by rfl)).1,
    (C24_logout_leaves_login_token (sessionEnv 100) (sessionEnv 200) (sessionEnv 300) 3
      "jwt.3.86500" [] 3 (by rfl) rfl
      (by
        intro exp1 exp2 t h1 h2
        simp only [sessionEnv, Except.ok.injEq] at h1 h2
        rw [← h2] at h1
        have h3 := congrArg String.data h1
        simp only [String.data_append] at h3
        have h4 := List.append_cancel_left h3
        exact toString_nat_injective exp1 exp2 (String.ext h4))
      (by decide) rfl (by rfl) (by rfl)).2⟩

/-! ## Theorems: updates of a user -/

/-- C27: evaluation of the four callers of `userRepository.Update` on a store with the
unverified user 3 whose role is `user`, where the claim fails.
`UpdateUserRole(3, "admin")` returns nil and `FindByID(3)` still reports the
role `user`; `ResetPassword` returns nil and the stored hash is the old one;
`VerifyEmail` returns nil and the user is still unverified; `DeleteAccount`
returns nil and the row has no `deleted_at`.  In each case the only change of
the row is `updated_at`. -/
theorem C27_update_drops_fields :
    (AdminService.UpdateUserRole accountEnv accountDB 3 "admin").2 = none ∧
    ((userRepository.FindByID accountEnv 3
      (AdminService.UpdateUserRole accountEnv accountDB 3 "admin").1).2.toOption.map
        (fun u => u.Role)) = some "user" ∧
    (UserService.ResetPassword accountEnv accountDB "reset-token" "N3w!Password").2 = none ∧
    (UserService.ResetPassword accountEnv accountDB "reset-token" "N3w!Password").1.users.map
      (fun u => u.PasswordHash) = ["$2a$10$old-password"] ∧
    (UserService.VerifyEmail accountEnv accountDB "verify-token").2 = none ∧
    (UserService.VerifyEmail accountEnv accountDB "verify-token").1.users.map
      (fun u => u.IsVerified) = [false] ∧
    (UserService.DeleteAccount accountEnv accountDB 3).2 = none ∧
    (UserService.DeleteAccount accountEnv accountDB 3).1.users.map (fun u => u.DeletedAt)
      = [none] ∧
    (AdminService.UpdateUserRole accountEnv accountDB 3 "admin").1.users
      = accountDB.users.map (fun u => { u with UpdatedAt := 20 }) ∧
    (UserService.DeleteAccount accountEnv accountDB 3).1.users
      = accountDB.users.map (fun u => { u with UpdatedAt := 20 }) := by
  refine ⟨by rfl, by rfl, by rfl, by rfl, by rfl, by rfl, by rfl, by rfl, by rfl, by rfl⟩

/-! ## Theorems: one refund request per order -/

/-- What `CreateRefundRequest` leaves: the store it found, or one more request with the order
id of the value it was given. -/
theorem CreateRefundRequest_cases (env : Env) (db : DB) (request : RefundRequest) :
    (PaymentRepository.CreateRefundRequest env db request).1 = db ∨
    ∃ row, row.OrderID = request.OrderID ∧
      (PaymentRepository.CreateRefundRequest env db request).1.refundRequests
        = db.refundRequests ++ [row] := by
  simp only [PaymentRepository.CreateRefundRequest]
  cases env.fails (.createRefundRequest request.OrderID) with
  | some e => exact Or.inl rfl
  | none =>
    right
    cases env.fails .refundRequestLastInsertId with
    | some e => exact ⟨refundRequestRow env db request, rfl, rfl⟩
    | none => exact ⟨refundRequestRow env db request, rfl, rfl⟩

/-- For an order that has a refund request, `RequestRefundForFailedProject` returns an error
and the store it found; without a failing read and for an order of the caller
whose address row is stored the error names the status of a request of the
order. -/
theorem RequestRefundForFailedProject_blocked (env : Env) (db : DB) (orderID userID : Nat)
    (hex : requestsOfOrder db orderID ≠ []) :
    (∃ e, (PaymentService.RequestRefundForFailedProject env db orderID userID).2 = .error e) ∧
    (PaymentService.RequestRefundForFailedProject env db orderID userID).1 = db ∧
    (env.fails (.getOrderByID orderID) = none → env.fails (.getRefundStatus orderID) = none →
      (∃ o, db.orders.find? (fun o => o.ID = orderID) = some o ∧
        (∃ a ∈ db.userAddresses, o.AddressID = some a.ID) ∧ o.UserID = userID) →
      ∃ r ∈ requestsOfOrder db orderID,
        (PaymentService.RequestRefundForFailedProject env db orderID userID).2
          = .error ("该订单已存在退款申请，状态为：" ++ r.Status)) := by
  have hsome : ∃ b, latestRefundRequest (requestsOfOrder db orderID) = some b := by
    cases hl : latestRefundRequest (requestsOfOrder db orderID) with
    | none => exact absurd ((latestRefundRequest_eq_none _).1 hl) hex
    | some b => exact ⟨b, rfl⟩
  obtain ⟨b, hb⟩ := hsome
  have hbm := latestRefundRequest_mem _ _ hb
  simp only [requestsOfOrder] at hb
  have hread : ∀ o, env.fails (.getOrderByID orderID) = none →
      db.orders.find? (fun o => o.ID = orderID) = some o →
      (∃ a ∈ db.userAddresses, o.AddressID = some a.ID) →
      PaymentRepository.GetOrderByID env db orderID = .ok (some o) :=
    fun o h1 h2 h3 => GetOrderByID_of_address env db orderID o h1 h2 h3
  simp only [PaymentService.RequestRefundForFailedProject, PaymentRepository.GetRefundStatus]
  rcases GetOrderByID_cases env db orderID with ⟨e, hg⟩ | hg | ⟨order, hg, -, ho⟩
  · rw [hg]
    refine ⟨⟨_, rfl⟩, rfl, ?_⟩
    rintro h1 - ⟨o, ho2, ha, -⟩
    rw [hread o h1 ho2 ha] at hg
    exact absurd hg (by simp)
  · rw [hg]
    refine ⟨⟨_, rfl⟩, rfl, ?_⟩
    rintro h1 - ⟨o, ho2, ha, -⟩
    rw [hread o h1 ho2 ha] at hg
    exact absurd hg (by simp)
  · rw [hg]
    simp only []
    by_cases hu : order.UserID = userID
    · rw [if_neg (not_not.2 hu)]
      cases hf2 : env.fails (.getRefundStatus orderID) with
      | some e => exact ⟨⟨_, rfl⟩, rfl, fun _ h => absurd h (by simp)⟩
      | none =>
        rw [hb]
        exact ⟨⟨_, rfl⟩, rfl, fun _ _ _ => ⟨b, hbm, rfl⟩⟩
    · rw [if_pos hu]
      refine ⟨⟨_, rfl⟩, rfl, ?_⟩
      rintro - - ⟨o, ho2, -, hou⟩
      rw [ho] at ho2
      simp only [Option.some.injEq] at ho2
      rw [ho2] at hu
      exact absurd hou hu

/-- For an order that has a refund request, `RequestRefund` returns an error and the store it
found; without a failing read and for an order of the caller whose address row
is stored the error names the status of a request of the order. -/
theorem RequestRefund_blocked (env : Env) (db : DB) (orderID userID : Nat) (reason : String)
    (hex : requestsOfOrder db orderID ≠ []) :
    (∃ e, (RefundService.RequestRefund env db orderID userID reason).2 = .error e) ∧
    (RefundService.RequestRefund env db orderID userID reason).1 = db ∧
    (env.fails (.getOrderByID orderID) = none → env.fails (.getRefundStatus orderID) = none →
      (∃ o, db.orders.find? (fun o => o.ID = orderID) = some o ∧
        (∃ a ∈ db.userAddresses, o.AddressID = some a.ID) ∧ o.UserID = userID) →
      ∃ r ∈ requestsOfOrder db orderID,
        (RefundService.RequestRefund env db orderID userID reason).2
          = .error ("该订单已存在退款申请，状态为：" ++ r.Status)) := by
  have hsome : ∃ b, latestRefundRequest (requestsOfOrder db orderID) = some b := by
    cases hl : latestRefundRequest (requestsOfOrder db orderID) with
    | none => exact absurd ((latestRefundRequest_eq_none _).1 hl) hex
    | some b => exact ⟨b, rfl⟩
  obtain ⟨b, hb⟩ := hsome
  have hbm := latestRefundRequest_mem _ _ hb
  simp only [requestsOfOrder] at hb
  have hread : ∀ o, env.fails (.getOrderByID orderID) = none →
      db.orders.find? (fun o => o.ID = orderID) = some o →
      (∃ a ∈ db.userAddresses, o.AddressID = some a.ID) →
      PaymentRepository.GetOrderByID env db orderID = .ok (some o) :=
    fun o h1 h2 h3 => GetOrderByID_of_address env db orderID o h1 h2 h3
  simp only [RefundService.RequestRefund, PaymentRepository.GetRefundStatus]
  rcases GetOrderByID_cases env db orderID with ⟨e, hg⟩ | hg | ⟨order, hg, -, ho⟩
  · rw [hg]
    refine ⟨⟨_, rfl⟩, rfl, ?_⟩
    rintro h1 - ⟨o, ho2, ha, -⟩
    rw [hread o h1 ho2 ha] at hg
    exact absurd hg (by simp)
  · rw [hg]
    refine ⟨⟨_, rfl⟩, rfl, ?_⟩
    rintro h1 - ⟨o, ho2, ha, -⟩
    rw [hread o h1 ho2 ha] at hg
    exact absurd hg (by simp)
  · rw [hg]
    simp only []
    by_cases hu : order.UserID = userID
    · rw [if_neg (not_not.2 hu)]
      cases hf2 : env.fails (.getRefundStatus orderID) with
      | some e => exact ⟨⟨_, rfl⟩, rfl, fun _ h => absurd h (by simp)⟩
      | none =>
        rw [hb]
        exact ⟨⟨_, rfl⟩, rfl, fun _ _ _ => ⟨b, hbm, rfl⟩⟩
    · rw [if_pos hu]
      refine ⟨⟨_, rfl⟩, rfl, ?_⟩
      rintro - - ⟨o, ho2, -, hou⟩
      rw [ho] at ho2
      simp only [Option.some.injEq] at ho2
      rw [ho2] at hu
      exact absurd hou hu

/-- What `RequestRefundForFailedProject` leaves: the store it found, or, for an order without a
refund request, one more request of that order. -/
theorem RequestRefundForFailedProject_cases (env : Env) (db : DB) (orderID userID : Nat) :
    (PaymentService.RequestRefundForFailedProject env db orderID userID).1 = db ∨
    (requestsOfOrder db orderID = [] ∧ ∃ row, row.OrderID = orderID ∧
      (PaymentService.RequestRefundForFailedProject env db orderID userID).1.refundRequests
        = db.refundRequests ++ [row]) := by
  by_cases hex : requestsOfOrder db orderID = []
  · have hnone : latestRefundRequest
        (db.refundRequests.filter (fun r => decide (r.OrderID = orderID))) = none :=
      (latestRefundRequest_eq_none _).2 hex
    simp only [PaymentService.RequestRefundForFailedProject, PaymentRepository.GetRefundStatus]
    rcases GetOrderByID_cases env db orderID with ⟨e, hg⟩ | hg | ⟨order, hg, -, -⟩
    · rw [hg]
      exact Or.inl rfl
    · rw [hg]
      exact Or.inl rfl
    · rw [hg]
      simp only []
      by_cases hu : order.UserID = userID
      · rw [if_neg (not_not.2 hu)]
        cases env.fails (.getRefundStatus orderID) with
        | some e => exact Or.inl rfl
        | none =>
          rw [hnone]
          simp only []
          have hc := CreateRefundRequest_cases env db
            { ID := 0, OrderID := orderID, UserID := userID, Reason := "用户申请退款",
              Status := "pending" }
          cases hq : PaymentRepository.CreateRefundRequest env db
              { ID := 0, OrderID := orderID, UserID := userID, Reason := "用户申请退款",
                Status := "pending" } with
          | mk db1 r =>
            rw [hq] at hc
            cases r with
            | error e =>
              rcases hc with hc | hc
              · exact Or.inl hc
              · exact Or.inr ⟨hex, hc⟩
            | ok id =>
              rcases hc with hc | hc
              · exact Or.inl hc
              · exact Or.inr ⟨hex, hc⟩
      · rw [if_pos hu]
        exact Or.inl rfl
  · exact Or.inl (RequestRefundForFailedProject_blocked env db orderID userID hex).2.1

/-- What `RequestRefund` leaves: the store it found, or, for an order without a refund
request, one more request of that order. -/
theorem RequestRefund_cases (env : Env) (db : DB) (orderID userID : Nat) (reason : String) :
    (RefundService.RequestRefund env db orderID userID reason).1 = db ∨
    (requestsOfOrder db orderID = [] ∧ ∃ row, row.OrderID = orderID ∧
      (RefundService.RequestRefund env db orderID userID reason).1.refundRequests
        = db.refundRequests ++ [row]) := by
  by_cases hex : requestsOfOrder db orderID = []
  · have hnone : latestRefundRequest
        (db.refundRequests.filter (fun r => decide (r.OrderID = orderID))) = none :=
      (latestRefundRequest_eq_none _).2 hex
    simp only [RefundService.RequestRefund, PaymentRepository.GetRefundStatus]
    rcases GetOrderByID_cases env db orderID with ⟨e, hg⟩ | hg | ⟨order, hg, -, -⟩
    · rw [hg]
      exact Or.inl rfl
    · rw [hg]
      exact Or.inl rfl
    · rw [hg]
      simp only []
      by_cases hu : order.UserID = userID
      · rw [if_neg (not_not.2 hu)]
        cases env.fails (.getRefundStatus orderID) with
        | some e => exact Or.inl rfl
        | none =>
          rw [hnone]
          simp only []
          have hc := CreateRefundRequest_cases env db
            { ID := 0, OrderID := orderID, UserID := userID, Reason := reason,
              Status := "pending" }
          cases hq : PaymentRepository.CreateRefundRequest env db
              { ID := 0, OrderID := orderID, UserID := userID, Reason := reason,
                Status := "pending" } with
          | mk db1 r =>
            rw [hq] at hc
            cases r with
            | error e =>
              rcases hc with hc | hc
              · exact Or.inl hc
              · exact Or.inr ⟨hex, hc⟩
            | ok id =>
              rcases hc with hc | hc
              · exact Or.inl hc
              · exact Or.inr ⟨hex, hc⟩
      · rw [if_pos hu]
        exact Or.inl rfl
  · exact Or.inl (RequestRefund_blocked env db orderID userID reason hex).2.1

/-- One call adds at most one request to an order, and none to an order that has one. -/
theorem RefundCall_count (env : Env) (db : DB) (call : RefundCall) (orderID : Nat) :
    (requestsOfOrder (call.run env db) orderID).length
      ≤ max 1 (requestsOfOrder db orderID).length := by
  have hstep : call.run env db = db ∨
      ∃ k, requestsOfOrder db k = [] ∧ ∃ row, row.OrderID = k ∧
        (call.run env db).refundRequests = db.refundRequests ++ [row] := by
    cases call with
    | RequestRefundForFailedProject k userID =>
      rcases RequestRefundForFailedProject_cases env db k userID with h | h
      · exact Or.inl h
      · exact Or.inr ⟨k, h⟩
    | RequestRefund k userID reason =>
      rcases RequestRefund_cases env db k userID reason with h | h
      · exact Or.inl h
      · exact Or.inr ⟨k, h⟩
  rcases hstep with h | ⟨k, hk, row, hrow, hrows⟩
  · rw [h]
    exact le_max_right _ _
  · have hsplit : requestsOfOrder (call.run env db) orderID
        = requestsOfOrder db orderID ++ [row].filter (fun r => r.OrderID = orderID) := by
      simp only [requestsOfOrder, hrows, List.filter_append]
    rw [hsplit, List.length_append]
    by_cases hoid : k = orderID
    · rw [← hoid, hk]
      simp only [List.length_nil, Nat.zero_add]
      exact le_trans (List.length_filter_le _ _) (le_max_left _ _)
    · have hnone : [row].filter (fun r => decide (r.OrderID = orderID)) = [] := by
        simp [List.filter_cons, hrow, hoid]
      rw [hnone]
      simp

theorem runRefundCalls_count (steps : List (Env × RefundCall)) (orderID : Nat) :
    ∀ db : DB, (requestsOfOrder (runRefundCalls db steps) orderID).length
      ≤ max 1 (requestsOfOrder db orderID).length := by
  induction steps with
  | nil =>
    intro db
    exact le_max_right _ _
  | cons step rest ih =>
    intro db
    simp only [runRefundCalls]
    have h1 := ih (step.2.run step.1 db)
    have h2 := RefundCall_count step.1 db step.2 orderID
    omega

/-- C28: for every order that has a refund request, whatever the status of the request,
`RequestRefundForFailedProject` and `RefundService.RequestRefund` return an error
and leave the store as they found it, under every failure pattern of the
database; when the reads do not fail, the order exists with its address row
(`GetOrderByID` reads the order together with its address) and belongs to the
caller, the error is the already-exists error with the status of a request of
the order.  After any sequence of calls of the two operations an order that had
no refund request has at most one, and an order that had some has no more than
before. -/
theorem C28_refund_request_blocks :
    (∀ (env : Env) (db : DB) (orderID userID : Nat) (reason : String),
      requestsOfOrder db orderID ≠ [] →
      ((∃ e, (PaymentService.RequestRefundForFailedProject env db orderID userID).2 = .error e) ∧
        (PaymentService.RequestRefundForFailedProject env db orderID userID).1 = db ∧
        (∃ e, (RefundService.RequestRefund env db orderID userID reason).2 = .error e) ∧
        (RefundService.RequestRefund env db orderID userID reason).1 = db) ∧
      (env.fails (.getOrderByID orderID) = none → env.fails (.getRefundStatus orderID) = none →
        (∃ o, db.orders.find? (fun o => o.ID = orderID) = some o ∧
          (∃ a ∈ db.userAddresses, o.AddressID = some a.ID) ∧ o.UserID = userID) →
        (∃ r ∈ requestsOfOrder db orderID,
          (PaymentService.RequestRefundForFailedProject env db orderID userID).2
            = .error ("该订单已存在退款申请，状态为：" ++ r.Status)) ∧
        (∃ r ∈ requestsOfOrder db orderID,
          (RefundService.RequestRefund env db orderID userID reason).2
            = .error ("该订单已存在退款申请，状态为：" ++ r.Status)))) ∧
    (∀ (db : DB) (steps : List (Env × RefundCall)) (orderID : Nat),
      (requestsOfOrder (runRefundCalls db steps) orderID).length
        ≤ max 1 (requestsOfOrder db orderID).length) := by
  refine ⟨?_, fun db steps orderID => runRefundCalls_count steps orderID db⟩
  intro env db orderID userID reason hex
  obtain ⟨a1, a2, a3⟩ := RequestRefundForFailedProject_blocked env db orderID userID hex
  obtain ⟨b1, b2, b3⟩ := RequestRefund_blocked env db orderID userID reason hex
  exact ⟨⟨a1, a2, b1, b2⟩, fun h1 h2 h3 => ⟨a3 h1 h2 h3, b3 h1 h2 h3⟩⟩

theorem C28_refund_request_blocks_witness :
    decidedRefundsDB.orders.map (fun o => (o.ID, o.UserID, o.AddressID))
      = [(1, 3, some 5), (2, 3, some 5), (3, 3, some 5)] ∧
    decidedRefundsDB.userAddresses.map (fun a => a.ID) = [5] ∧
    (PaymentService.RequestRefundForFailedProject exampleEnv decidedRefundsDB 1 3).2
      = .error "该订单已存在退款申请，状态为：rejected" ∧
    (RefundService.RequestRefund exampleEnv decidedRefundsDB 2 3 "changed my mind").2
      = .error "该订单已存在退款申请，状态为：approved" ∧
    (RefundService.RequestRefund exampleEnv decidedRefundsDB 2 3 "changed my mind").1
      = decidedRefundsDB ∧
    (∃ r ∈ requestsOfOrder decidedRefundsDB 2,
      (RefundService.RequestRefund exampleEnv decidedRefundsDB 2 3 "changed my mind").2
        = .error ("该订单已存在退款申请，状态为：" ++ r.Status)) ∧
    (requestsOfOrder
      (runRefundCalls decidedRefundsDB
        [(exampleEnv, .RequestRefund 3 3 "late"),
         (exampleEnv, .RequestRefundForFailedProject 3 3),
         (exampleEnv, .RequestRefund 3 3 "again")]) 3).map (fun r => (r.ID, r.Reason))
      = [(3, "late")] ∧
    (requestsOfOrder
      (runRefundCalls decidedRefundsDB
        [(exampleEnv, .RequestRefund 3 3 "late"),
         (exampleEnv, .RequestRefundForFailedProject 3 3),
         (exampleEnv, .RequestRefund 3 3 "again")]) 3).length
      ≤ max 1 (requestsOfOrder decidedRefundsDB 3).length :=
  ⟨by decide, by decide, by rfl, by rfl,
    ((C28_refund_request_blocks.1 exampleEnv decidedRefundsDB 2 3 "changed my mind"
      (by decide)).1).2.2.2,
    ((C28_refund_request_blocks.1 exampleEnv decidedRefundsDB 2 3 "changed my mind"
      (by decide)).2 rfl rfl
      ⟨{ ID := 2, UserID := 3, ProjectID := 7, PledgeID := 2, Amount := 100,
         Status := "refunded", AddressID := some 5 }, by rfl,
        ⟨{ ID := 5, UserID := 3, City := "Hangzhou", IsDefault := true },
          by simp [decidedRefundsDB], rfl⟩, rfl⟩).2,
    by rfl,
    C28_refund_request_blocks.2 decidedRefundsDB
      [(exampleEnv, .RequestRefund 3 3 "late"),
       (exampleEnv, .RequestRefundForFailedProject 3 3),
       (exampleEnv, .RequestRefund 3 3 "again")] 3⟩

/-! ## Theorems: pagination -/

/-- C29: evaluation of `CommunityHandler.ListPosts` on a store with two posts, where the claim
fails.  `strconv.Atoi` turns `0` and `abc` into 0; the request with
`page_size=0` and the one with `page_size=abc` read the posts without an error
and then panic in the division by the page size.  With `page_size=10` the
handler answers 200 with `total_pages` 1.  With
`page_size=9223372036854775807` the sum `total + pageSize` wraps around and the
handler answers 200 with `total_pages` -1, where the ceiling of 2 / pageSize
is 1. -/
theorem C29_total_pages_divides_by_zero :
    likesDB.posts.length = 2 ∧
    strconv.Atoi "0" = (0, none) ∧
    (strconv.Atoi "abc").1 = 0 ∧
    (∃ page, communityRepository.ListPosts exampleEnv likesDB 1 0 = .ok (page, 2)) ∧
    (match CommunityHandler.ListPosts exampleEnv likesDB none (some "0") with
      | .panicked message => message = "runtime error: integer divide by zero"
      | .returned _ => False) ∧
    (match CommunityHandler.ListPosts exampleEnv likesDB (some "1") (some "abc") with
      | .panicked message => message = "runtime error: integer divide by zero"
      | .returned _ => False) ∧
    (match CommunityHandler.ListPosts exampleEnv likesDB none (some "10") with
      | .panicked _ => False
      | .returned r => r.status = 200 ∧ totalPagesOf r = some (.int 1)) ∧
    (match CommunityHandler.ListPosts exampleEnv likesDB none (some "9223372036854775807") with
      | .panicked _ => False
      | .returned r => r.status = 200 ∧ totalPagesOf r = some (.int (-1))) := by
  refine ⟨by rfl, by rfl, by rfl, ⟨_, rfl⟩, by rfl, by rfl, ⟨by rfl, by rfl⟩, ⟨by rfl, by rfl⟩⟩

theorem wrapInt64_of_range (x : Int) (h1 : -(2 ^ 63) ≤ x) (h2 : x < 2 ^ 63) : wrapInt64 x = x := by
  unfold wrapInt64
  omega

/-- Where nothing wraps around, the handlers' expression is the ceiling of `total / pageSize`:
the least number of pages of `pageSize` rows that hold `total` rows. -/
theorem totalPages_ceiling (total pageSize : Int) (hp : 1 ≤ pageSize) (ht : 0 ≤ total)
    (hfit : total + pageSize < 2 ^ 63) :
    ∃ pages, totalPages total pageSize = .returned pages ∧
      total ≤ pages * pageSize ∧ (pages - 1) * pageSize < total := by
  have hw1 : wrapInt64 (total + pageSize) = total + pageSize := by
    unfold wrapInt64
    omega
  have hw2 : wrapInt64 (total + pageSize - 1) = total + pageSize - 1 := by
    unfold wrapInt64
    omega
  have hne : pageSize ≠ 0 := by omega
  have hnum : 0 ≤ total + pageSize - 1 := by omega
  have hdiv : Int.tdiv (total + pageSize - 1) pageSize = (total + pageSize - 1) / pageSize :=
    Int.tdiv_eq_ediv hnum (by omega)
  have hq1 : (total + pageSize - 1) / pageSize * pageSize ≤ total + pageSize - 1 :=
    Int.ediv_mul_le _ hne
  have hq2 : total + pageSize - 1 < ((total + pageSize - 1) / pageSize + 1) * pageSize :=
    Int.lt_ediv_add_one_mul_self _ (by omega)
  have hq0 : 0 ≤ (total + pageSize - 1) / pageSize := Int.ediv_nonneg hnum (by omega)
  have hqle : (total + pageSize - 1) / pageSize ≤ total + pageSize - 1 :=
    Int.ediv_le_self _ hnum
  have hw3 : wrapInt64 ((total + pageSize - 1) / pageSize) = (total + pageSize - 1) / pageSize := by
    unfold wrapInt64
    omega
  refine ⟨(total + pageSize - 1) / pageSize, ?_, ?_, ?_⟩
  · simp only [totalPages, goDiv, hw1, hw2, hne, if_false, hdiv, hw3]
  · nlinarith
  · nlinarith

/-! ## Theorems: retry -/

/-- What the loop of `WithRetry` has done when it ends, told by the record of the calls: it
made at most `remaining` calls; every call but the last returned a retryable
error; without a call the result is the `err` it started with; otherwise the
result is what the last call returned, and when that is a retryable error, all
`remaining` calls were made. -/
theorem withRetryLoop_record {σ : Type} (operation : σ → σ × Option RetryError)
    (sleep : Nat → σ → σ) (remaining : Nat) :
    ∀ (i : Nat) (err : Option RetryError) (s : σ) (log : List (Option RetryError)),
      ∃ calls : List (Option RetryError),
        (withRetryLoop (recorded operation) (recordedSleep sleep) remaining i err (s, log)).1.2
          = log ++ calls ∧
        calls.length ≤ remaining ∧
        (∀ r ∈ calls.dropLast, ∃ e, r = some e ∧ IsRetryable e = true) ∧
        (calls = [] →
          (withRetryLoop (recorded operation) (recordedSleep sleep) remaining i err (s, log)).2
            = err ∧ remaining = 0) ∧
        (∀ last, calls.getLast? = some last →
          (withRetryLoop (recorded operation) (recordedSleep sleep) remaining i err (s, log)).2
            = last ∧
          (∀ e, last = some e → IsRetryable e = true → calls.length = remaining)) := by
  induction remaining with
  | zero =>
    intro i err s log
    refine ⟨[], by simp [withRetryLoop], by simp, by simp, fun _ => ⟨rfl, rfl⟩, by simp⟩
  | succ remaining ih =>
    intro i err s log
    cases hop : operation s with
    | mk s1 r =>
      cases r with
      | none =>
        refine ⟨[none], ?_, by simp, by simp, by simp, ?_⟩
        · simp [withRetryLoop, recorded, hop]
        · intro last hlast
          simp only [List.getLast?_singleton, Option.some.injEq] at hlast
          subst hlast
          refine ⟨by simp [withRetryLoop, recorded, hop], ?_⟩
          intro e he
          simp at he
      | some e =>
        by_cases hr : IsRetryable e = true
        · obtain ⟨calls, hlog, hlen, hall, hnil, hlast⟩ :=
            ih (i + 1) (some e) (sleep (i + 1) s1) (log ++ [some e])
          have hstep : withRetryLoop (recorded operation) (recordedSleep sleep) (remaining + 1) i
              err (s, log)
              = withRetryLoop (recorded operation) (recordedSleep sleep) remaining (i + 1)
                  (some e) (sleep (i + 1) s1, log ++ [some e]) := by
            simp [withRetryLoop, recorded, recordedSleep, hop, hr]
          rw [hstep]
          refine ⟨some e :: calls, ?_, ?_, ?_, ?_, ?_⟩
          · rw [hlog]
            simp
          · simp only [List.length_cons]
            omega
          · intro r hrm
            cases calls with
            | nil => simp at hrm
            | cons c cs =>
              simp only [List.dropLast_cons₂, List.mem_cons] at hrm
              rcases hrm with hrm | hrm
              · exact ⟨e, hrm, hr⟩
              · exact hall r hrm
          · intro h
            simp at h
          · intro last hl
            cases calls with
            | nil =>
              simp only [List.getLast?_singleton, Option.some.injEq] at hl
              obtain ⟨hres, hzero⟩ := hnil rfl
              refine ⟨by rw [hres, hl], ?_⟩
              intro _ _ _
              simp [hzero]
            | cons c cs =>
              have hl2 : (c :: cs).getLast? = some last := by
                simpa [List.getLast?_cons_cons] using hl
              obtain ⟨hres, hfull⟩ := hlast last hl2
              refine ⟨hres, ?_⟩
              intro e2 he2 hr2
              have := hfull e2 he2 hr2
              simp only [List.length_cons] at this ⊢
              omega
        · refine ⟨[some e], ?_, by simp, by simp, by simp, ?_⟩
          · simp [withRetryLoop, recorded, hop, hr]
          · intro last hlast
            simp only [List.getLast?_singleton, Option.some.injEq] at hlast
            subst hlast
            refine ⟨by simp [withRetryLoop, recorded, hop, hr], ?_⟩
            intro e2 he2 hr2
            simp only [Option.some.injEq] at he2
            rw [← he2] at hr2
            exact absurd hr2 hr

/-- Keeping the record changes neither the state nor the result of the loop. -/
theorem withRetryLoop_recorded {σ : Type} (operation : σ → σ × Option RetryError)
    (sleep : Nat → σ → σ) (remaining : Nat) :
    ∀ (i : Nat) (err : Option RetryError) (s : σ) (log : List (Option RetryError)),
      (withRetryLoop (recorded operation) (recordedSleep sleep) remaining i err (s, log)).1.1
        = (withRetryLoop operation sleep remaining i err s).1 ∧
      (withRetryLoop (recorded operation) (recordedSleep sleep) remaining i err (s, log)).2
        = (withRetryLoop operation sleep remaining i err s).2 := by
  induction remaining with
  | zero =>
    intro i err s log
    exact ⟨rfl, rfl⟩
  | succ remaining ih =>
    intro i err s log
    cases hop : operation s with
    | mk s1 r =>
      cases r with
      | none => simp [withRetryLoop, recorded, hop]
      | some e =>
        by_cases hr : IsRetryable e = true
        · have h := ih (i + 1) (some e) (sleep (i + 1) s1) (log ++ [some e])
          simpa [withRetryLoop, recorded, recordedSleep, hop, hr] using h
        · simp [withRetryLoop, recorded, hop, hr]

/-- With a round to go, the first entry that the loop of `WithRetry` adds to the record is
what `operation` returns on the state the loop starts in. -/
theorem withRetryLoop_first {σ : Type} (operation : σ → σ × Option RetryError)
    (sleep : Nat → σ → σ) (remaining : Nat) (i : Nat) (err : Option RetryError) (s : σ)
    (log : List (Option RetryError)) :
    ∃ rest : List (Option RetryError),
      (withRetryLoop (recorded operation) (recordedSleep sleep) (remaining + 1) i err
        (s, log)).1.2 = log ++ (operation s).2 :: rest := by
  cases hop : operation s with
  | mk s1 r =>
    cases r with
    | none => exact ⟨[], by simp [withRetryLoop, recorded, hop]⟩
    | some e =>
      by_cases hr : IsRetryable e = true
      · obtain ⟨calls, hlog, -⟩ :=
          withRetryLoop_record operation sleep remaining (i + 1) (some e) (sleep (i + 1) s1)
            (log ++ [some e])
        refine ⟨calls, ?_⟩
        have hstep : withRetryLoop (recorded operation) (recordedSleep sleep) (remaining + 1) i
            err (s, log)
            = withRetryLoop (recorded operation) (recordedSleep sleep) remaining (i + 1)
                (some e) (sleep (i + 1) s1, log ++ [some e]) := by
          simp [withRetryLoop, recorded, recordedSleep, hop, hr]
        rw [hstep, hlog]
        simp
      · exact ⟨[], by simp [withRetryLoop, recorded, hop, hr]⟩

/-- C30: for every operation, told by the record of what its calls returned.  `WithRetry(op, n)`
calls `op` at most `n` times; every call but the last returned a retryable
error, so the loop stops at the first call that returns nil or an error that is
not retryable; when there was a call, the result is what the last call returned
(nil, the error that is not retryable, or the error of the last call), and
when that is a retryable error all `n` calls were made; for `n <= 0` there is no
call, the result is nil and the state is untouched; for `n >= 1` there is a
call, and the first call is `op` on the state `WithRetry` was called in.  Keeping the record changes
neither the state nor the result. -/
theorem C30_withRetry {σ : Type} (operation : σ → σ × Option RetryError) (sleep : Nat → σ → σ)
    (maxRetries : Int) (s : σ) :
    ((WithRetry (recorded operation) (recordedSleep sleep) maxRetries (s, [])).1.2.length : Int)
      ≤ max maxRetries 0 ∧
    (∀ r ∈ (WithRetry (recorded operation) (recordedSleep sleep) maxRetries (s, [])).1.2.dropLast,
      ∃ e, r = some e ∧ IsRetryable e = true) ∧
    (∀ last,
      (WithRetry (recorded operation) (recordedSleep sleep) maxRetries (s, [])).1.2.getLast?
        = some last →
      (WithRetry operation sleep maxRetries s).2 = last ∧
      (∀ e, last = some e → IsRetryable e = true →
        ((WithRetry (recorded operation) (recordedSleep sleep) maxRetries (s, [])).1.2.length : Int)
          = maxRetries)) ∧
    (maxRetries ≤ 0 →
      (WithRetry (recorded operation) (recordedSleep sleep) maxRetries (s, [])).1.2 = [] ∧
      WithRetry operation sleep maxRetries s = (s, none)) ∧
    (0 < maxRetries →
      (WithRetry (recorded operation) (recordedSleep sleep) maxRetries (s, [])).1.2 ≠ [] ∧
      (WithRetry (recorded operation) (recordedSleep sleep) maxRetries (s, [])).1.2.head?
        = some (operation s).2) ∧
    (WithRetry (recorded operation) (recordedSleep sleep) maxRetries (s, [])).1.1
      = (WithRetry operation sleep maxRetries s).1 ∧
    (WithRetry (recorded operation) (recordedSleep sleep) maxRetries (s, [])).2
      = (WithRetry operation sleep maxRetries s).2 := by
  obtain ⟨calls, hlog, hlen, hall, hnil, hlast⟩ :=
    withRetryLoop_record operation sleep maxRetries.toNat 0 none s []
  obtain ⟨hstate, hresult⟩ := withRetryLoop_recorded operation sleep maxRetries.toNat 0 none s []
  have hfirst := withRetryLoop_first operation sleep (maxRetries.toNat - 1) 0 none s []
  simp only [List.nil_append] at hlog hfirst
  simp only [WithRetry]
  rw [hlog]
  refine ⟨?_, hall, ?_, ?_, ?_, hstate, hresult⟩
  · have : (calls.length : Int) ≤ (maxRetries.toNat : Int) := by exact_mod_cast hlen
    rw [Int.toNat_eq_max] at this
    exact this
  · intro last hl
    obtain ⟨hres, hfull⟩ := hlast last hl
    refine ⟨by rw [← hresult, hres], ?_⟩
    intro e he hr
    have hcount := hfull e he hr
    have hpos : 0 < calls.length := by
      cases calls with
      | nil => simp at hl
      | cons c cs => simp
    have : (calls.length : Int) = (maxRetries.toNat : Int) := by exact_mod_cast hcount
    rw [this, Int.toNat_eq_max]
    have h0 : 0 < maxRetries.toNat := by omega
    have h1 : 0 < maxRetries := Int.lt_toNat.1 (by exact_mod_cast h0)
    omega
  · intro hn
    have hz : maxRetries.toNat = 0 := Int.toNat_eq_zero.2 hn
    have hc : calls = [] := by
      cases calls with
      | nil => rfl
      | cons c cs =>
        simp only [List.length_cons] at hlen
        omega
    refine ⟨hc, ?_⟩
    rw [hz]
    rfl
  · intro hn
    have hsucc : maxRetries.toNat - 1 + 1 = maxRetries.toNat := by omega
    rw [hsucc, hlog] at hfirst
    obtain ⟨rest, hrest⟩ := hfirst
    rw [hrest]
    exact ⟨by simp, rfl⟩

theorem C30_withRetry_witness :
    (WithRetry (recorded (succeedsAtCall 2)) (recordedSleep (fun _ calls => calls)) 3 (0, [])).1.2
      = [some { text := "i/o timeout", temporary := some true }, none] ∧
    WithRetry (succeedsAtCall 2) (fun _ calls => calls) 3 0 = (2, none) ∧
    WithRetry (succeedsAtCall 9) (fun _ calls => calls) 3 0
      = (3, some { text := "i/o timeout", temporary := some true }) ∧
    WithRetry (succeedsAtCall 1) (fun _ calls => calls) 0 0 = (0, none) ∧
    WithRetry (succeedsAtCall 1) (fun _ calls => calls) (-2) 0 = (0, none) ∧
    (WithRetry (recorded (succeedsAtCall 2)) (recordedSleep (fun _ calls => calls)) 3
      (0, [])).1.2 ≠ [] ∧
    (WithRetry (recorded (succeedsAtCall 1)) (recordedSleep (fun _ calls => calls)) 1
      (0, [])).1.2.head? = some (succeedsAtCall 1 0).2 :=
  ⟨by rfl, by rfl, by rfl,
    ((C30_withRetry (succeedsAtCall 1) (fun _ calls => calls) 0 0).2.2.2.1 (by decide)).2,
    ((C30_withRetry (succeedsAtCall 1) (fun _ calls => calls) (-2) 0).2.2.2.1 (by decide)).2,
    ((C30_withRetry (succeedsAtCall 2) (fun _ calls => calls) 3 0).2.2.2.2.1 (by decide)).1,
    ((C30_withRetry (succeedsAtCall 1) (fun _ calls => calls) 1 0).2.2.2.2.1 (by decide)).2⟩

end Crowdfunding
